import Mathlib

/-!
# ARM / Thumb instruction emitters (`gdb/arch/arm-insn-emit.c`)

A shallow embedding of the instruction emitters and of the branch distance
helpers, followed by theorems about them.

Conventions of the embedding.

* C unsigned integers are natural numbers; a narrowing conversion to `uintN_t`
  is written `% 2 ^ N`.  It is written wherever the source stores into a code
  unit, does wrapping arithmetic or compares a narrowed value; for the 8-bit
  and 16-bit register, flag and list parameters it is left out where every
  use masks the parameter to at most as many bits as its C type has (the
  `ENCODE`, `bit` and `bits` call sites), since there it cannot change the
  result.  The `imm` of an operand is a `uint32_t` field.
* `int32_t` values are integers; `>>` on them is the arithmetic shift.
* A code buffer is a map from unit index to unit value, a pointer into it is a
  unit index, and `p + n` on pointers is addition of indices.  An emitter
  returns the pair of its C return value and the buffer after the call.
* The opcode skeletons (`ARM_B`, `THUMB_BW`, ...) come from a header that is
  not among the sources; the emitters take them as a table `Opcodes`.
-/

namespace ArmInsnEmit

/-! ## Bit-field primitives (macros of the missing headers) -/

/-- Modelled from the spec: the macro `bit` of the missing header `arm.h`,
"extract bit `n` of `value` as 0/1". -/
def bit (value n : Nat) : Nat := (value >>> n) &&& 1

/-- Modelled from the spec: the macro `bits` of the missing header `arm.h`,
"extract the inclusive bit range `[lo, hi]`, right-aligned, as an unsigned
integer". -/
def bits (value lo hi : Nat) : Nat := (value >>> lo) &&& (2 ^ (hi - lo + 1) - 1)

/-- Modelled from the spec: the macro `ENCODE` of the missing header
`arm-insn-utils.h`, "mask `value` to `width` bits (low-order bits kept,
silently truncating any higher bits) and left-shift into `position`". -/
def ENCODE (val size offset : Nat) : Nat := (val &&& (2 ^ size - 1)) <<< offset

/-- Modelled from the spec: the enumerator `AL` of the missing
`enum arm_condition_codes`; the spec gives its value as `0xE`. -/
def AL : Nat := 0xE

/-- C logical negation `!v` on an integer. -/
def lnot (v : Nat) : Nat := if v = 0 then 1 else 0

/-- Conversion of a `uint32_t` bit pattern to `int32_t`. -/
def int32_of_uint32 (v : Nat) : Int :=
  if v % 2 ^ 32 < 2 ^ 31 then ((v % 2 ^ 32 : Nat) : Int) else ((v % 2 ^ 32 : Nat) : Int) - 2 ^ 32

/-- Subtraction of two `uint32_t` values (wraps modulo `2 ^ 32`). -/
def sub32 (a b : Nat) : Nat := (a % 2 ^ 32 + 2 ^ 32 - b % 2 ^ 32) % 2 ^ 32

/-! ## Operand model -/

/-- The `struct arm_memory_operand`: addressing mode tag and signed index. -/
structure arm_memory_operand where
  type : Nat
  index : Int
deriving DecidableEq, Repr

/-- Modelled from the spec: the enumerator `MEMORY_OPERAND_OFFSET` of the
missing `enum arm_memory_operand_type`; "only one addressing mode (offset) is
defined", so it is the first enumerator. -/
def MEMORY_OPERAND_OFFSET : Nat := 0

/-- The `struct arm_operand`: a type tag with the payload of the active
shape (`OPERAND_IMMEDIATE`, `OPERAND_REGISTER`, `OPERAND_MEMORY`). -/
inductive arm_operand where
  | Immediate (imm : Nat)
  | Register (reg : Nat)
  | Memory (mem : arm_memory_operand)
deriving DecidableEq, Repr

/-- The constructor function `immediate_operand (uint32_t imm)`. -/
def immediate_operand (imm : Nat) : arm_operand := .Immediate (imm % 2 ^ 32)

/-- The constructor function `register_operand (uint8_t reg)`. -/
def register_operand (reg : Nat) : arm_operand := .Register (reg % 2 ^ 8)

/-- The constructor function `memory_operand (struct arm_memory_operand mem)`. -/
def memory_operand (mem : arm_memory_operand) : arm_operand := .Memory mem

/-! ## Register lists -/

/-- The function `repeat_bit`: the loop runs `i = from, ..., from + length - 1`
and ors `ENCODE (bit & 1, 1, i)` into the `uint16_t` accumulator. -/
def repeat_bit (b frm length : Nat) : Nat :=
  (List.range (length % 2 ^ 8)).foldl
    (fun value j => (value ||| ENCODE (b % 2 ^ 8 &&& 1) 1 (frm % 2 ^ 8 + j)) % 2 ^ 16) 0

/-- The function `encode_register_list`. -/
def encode_register_list (frm length initial : Nat) : Nat :=
  (repeat_bit 1 frm length ||| initial % 2 ^ 16) % 2 ^ 16

/-! ## Code buffer and raw emitters -/

/-- A code buffer: unit index to unit value (32-bit words for ARM, 16-bit
half-words for Thumb). -/
abbrev CodeBuf := Nat → Nat

/-- The assignment `*p = v`. -/
def store (m : CodeBuf) (p v : Nat) : CodeBuf := fun i => if i = p then v else m i

/-- The static function `arm_emit_arm_insn (uint32_t *buf, uint32_t insn)`. -/
def arm_emit_arm_insn (m : CodeBuf) (buf insn : Nat) : Nat × CodeBuf :=
  (1, store m buf (insn % 2 ^ 32))

/-- The static function `arm_emit_thumb_insn (uint16_t *buf, uint16_t insn)`. -/
def arm_emit_thumb_insn (m : CodeBuf) (buf insn : Nat) : Nat × CodeBuf :=
  (1, store m buf (insn % 2 ^ 16))

/-- The static function `arm_emit_thumb_w_insn (uint16_t *buf, uint32_t insn)`. -/
def arm_emit_thumb_w_insn (m : CodeBuf) (buf insn : Nat) : Nat × CodeBuf :=
  let r1 := arm_emit_thumb_insn m buf (bits (insn % 2 ^ 32) 16 31)
  let r2 := arm_emit_thumb_insn r1.2 (buf + r1.1) (bits (insn % 2 ^ 32) 0 15)
  (r1.1 + r2.1, r2.2)

/-- The opcode skeletons used by the emitters.  Their `#define`s are in the
header `arm-insn-utils.h`, which is not among the sources, so the emitters are
parameterised by this table of constants. -/
structure Opcodes where
  ARM_B : Nat
  ARM_BLX : Nat
  ARM_MOVW : Nat
  ARM_MOV : Nat
  ARM_MOVT : Nat
  ARM_VPUSH : Nat
  ARM_VPOP : Nat
  ARM_PUSH_A1 : Nat
  ARM_PUSH_A2 : Nat
  ARM_POP_A1 : Nat
  ARM_POP_A2 : Nat
  ARM_MRS : Nat
  ARM_MSR : Nat
  ARM_DMB : Nat
  ARM_LDREX : Nat
  ARM_STREX : Nat
  ARM_CMP : Nat
  ARM_BIC : Nat
  ARM_STR : Nat
  ARM_ADD : Nat
  THUMB_BW : Nat
  THUMB_BLX : Nat
  THUMB_B : Nat
  THUMB_MOVW : Nat
  THUMB_MOVT : Nat
  THUMB_MOV : Nat
  THUMB_VPUSH : Nat
  THUMB_VPOP : Nat
  THUMB_PUSH_T1 : Nat
  THUMB_PUSH_T2 : Nat
  THUMB_POP : Nat
  THUMB_POPW : Nat
  THUMB_MRS : Nat
  THUMB_MSR : Nat
  THUMB_DMB : Nat
  THUMB_LDREX : Nat
  THUMB_STREX : Nat
  THUMB_CMP : Nat
  THUMB_CMPW : Nat
  THUMB_BIC : Nat
  THUMB_STR : Nat
  THUMB_ADD_SP : Nat

/-- A sample table with the skeletons of the architecture manual's encodings
(all operand fields clear), used to instantiate theorems at concrete inputs. -/
def sampleOpcodes : Opcodes where
  ARM_B := 0x0A000000
  ARM_BLX := 0x012FFF30
  ARM_MOVW := 0x03000000
  ARM_MOV := 0x01A00000
  ARM_MOVT := 0x03400000
  ARM_VPUSH := 0x0D2D0B00
  ARM_VPOP := 0x0CBD0B00
  ARM_PUSH_A1 := 0x092D0000
  ARM_PUSH_A2 := 0x052D0004
  ARM_POP_A1 := 0x08BD0000
  ARM_POP_A2 := 0x049D0004
  ARM_MRS := 0x010F0000
  ARM_MSR := 0x0120F000
  ARM_DMB := 0xF57FF050
  ARM_LDREX := 0x01900F9F
  ARM_STREX := 0x01800F90
  ARM_CMP := 0x03500000
  ARM_BIC := 0x03C00000
  ARM_STR := 0x04000000
  ARM_ADD := 0x00800000
  THUMB_BW := 0xF0008000
  THUMB_BLX := 0x4780
  THUMB_B := 0xD000
  THUMB_MOVW := 0xF2400000
  THUMB_MOVT := 0xF2C00000
  THUMB_MOV := 0x4600
  THUMB_VPUSH := 0xED2D0B00
  THUMB_VPOP := 0xECBD0B00
  THUMB_PUSH_T1 := 0xB400
  THUMB_PUSH_T2 := 0xE92D0000
  THUMB_POP := 0xBC00
  THUMB_POPW := 0xE8BD0000
  THUMB_MRS := 0xF3EF8000
  THUMB_MSR := 0xF3808000
  THUMB_DMB := 0xF3BF8F50
  THUMB_LDREX := 0xE8500F00
  THUMB_STREX := 0xE8400000
  THUMB_CMP := 0x2800
  THUMB_CMPW := 0xF1B00F00
  THUMB_BIC := 0xF0200000
  THUMB_STR := 0x6000
  THUMB_ADD_SP := 0xB000

/-- The macro `ABS` defined at the top of the source file. -/
def ABS (v : Int) : Int := if v < 0 then -v else v

/-! ## Branch distance and reachability -/

/-- The function `arm_arm_branch_adjusted_offset`. -/
def arm_arm_branch_adjusted_offset (offset : Nat) : Nat := sub32 offset 8

/-- The function `arm_thumb_branch_adjusted_offset`. -/
def arm_thumb_branch_adjusted_offset (offset : Nat) : Nat := sub32 offset 4

/-- The function `arm_arm_branch_relative_distance`. -/
def arm_arm_branch_relative_distance (frm tgt : Nat) : Nat :=
  arm_arm_branch_adjusted_offset (sub32 (tgt % 2 ^ 32) (frm % 2 ^ 32))

/-- The function `arm_thumb_branch_relative_distance`; `~1` converted to
`uint32_t` is `0xFFFFFFFE`. -/
def arm_thumb_branch_relative_distance (frm tgt : Nat) : Nat :=
  let from_ := (frm % 2 ^ 32) &&& 0xFFFFFFFE
  let to_ := (tgt % 2 ^ 32) &&& 0xFFFFFFFE
  arm_thumb_branch_adjusted_offset (sub32 to_ from_)

/-- The function `arm_thumb_to_arm_branch_relative_distance`; `~3` converted
to `uint32_t` is `0xFFFFFFFC`. -/
def arm_thumb_to_arm_branch_relative_distance (frm tgt : Nat) : Nat :=
  let from_ := (frm % 2 ^ 32) &&& 0xFFFFFFFC
  let to_ := (tgt % 2 ^ 32) &&& 0xFFFFFFFC
  arm_thumb_branch_adjusted_offset (sub32 to_ from_)

/-- The function `arm_arm_is_reachable`. -/
def arm_arm_is_reachable (frm tgt : Nat) : Nat :=
  let rel : Int := int32_of_uint32 (arm_arm_branch_relative_distance frm tgt)
  let rel : Int := rel >>> (25 : Nat)
  if rel = 0 ∨ rel + 1 = 0 then 1 else 0

/-- The function `arm_thumb_is_reachable`. -/
def arm_thumb_is_reachable (frm tgt : Nat) : Nat :=
  let rel : Int := int32_of_uint32 (arm_thumb_branch_relative_distance frm tgt)
  let rel : Int := rel >>> (24 : Nat)
  if rel = 0 ∨ rel + 1 = 0 then 1 else 0

/-! ## Branch and call emitters -/

/-- The function `arm_emit_arm_branch`; `l` and `x` are `uint8_t`. -/
def arm_emit_arm_branch (k : Opcodes) (m : CodeBuf) (buf cond : Nat)
    (operand : arm_operand) (l x : Nat) : Nat × CodeBuf :=
  match operand with
  | .Immediate imm =>
    -- BLX: `cond = 0xF; l = bit (operand.imm, 1);`
    let cond' := if l % 2 ^ 8 = 1 ∧ x % 2 ^ 8 = 1 then 0xF else cond
    let l' := if l % 2 ^ 8 = 1 ∧ x % 2 ^ 8 = 1 then bit imm 1 else l % 2 ^ 8
    arm_emit_arm_insn m buf (k.ARM_B
      ||| ENCODE l' 1 24
      ||| ENCODE cond' 4 28
      ||| ENCODE (imm >>> 2) 24 0)
  | .Register reg =>
    if l % 2 ^ 8 = 1 ∧ x % 2 ^ 8 = 1 then
      arm_emit_arm_insn m buf (k.ARM_BLX
        ||| ENCODE cond 4 28
        ||| ENCODE reg 4 0)
    else
      (0, m)
  | .Memory _ => (0, m)

/-- The function `arm_emit_thumb_branch`; `l` and `x` are `uint8_t`. -/
def arm_emit_thumb_branch (k : Opcodes) (m : CodeBuf) (buf : Nat)
    (operand : arm_operand) (l x : Nat) : Nat × CodeBuf :=
  match operand with
  | .Immediate imm =>
    let imm11 := if x % 2 ^ 8 = 0 then bits imm 1 11 else (bits imm 2 11) <<< 1
    let imm10 := bits imm 12 21
    let s := bit imm 24
    let j1 := s ^^^ lnot (bit imm 23)
    let j2 := s ^^^ lnot (bit imm 22)
    arm_emit_thumb_w_insn m buf (k.THUMB_BW
      ||| ENCODE s 1 26
      ||| ENCODE imm10 10 16
      ||| ENCODE (l % 2 ^ 8) 1 14
      ||| ENCODE j1 1 13
      ||| ENCODE (if x % 2 ^ 8 = 0 then 1 else 0) 1 12
      ||| ENCODE j2 1 11
      ||| ENCODE imm11 11 0)
  | .Register reg =>
    if l % 2 ^ 8 = 1 ∧ x % 2 ^ 8 = 1 then
      arm_emit_thumb_insn m buf (k.THUMB_BLX ||| ENCODE reg 4 3)
    else
      (0, m)
  | .Memory _ => (0, m)

/-- The function `arm_emit_arm_b`. -/
def arm_emit_arm_b (k : Opcodes) (m : CodeBuf) (buf cond rel : Nat) : Nat × CodeBuf :=
  arm_emit_arm_branch k m buf cond (immediate_operand rel) 0 0

/-- The function `arm_emit_arm_bl`. -/
def arm_emit_arm_bl (k : Opcodes) (m : CodeBuf) (buf cond rel : Nat) : Nat × CodeBuf :=
  arm_emit_arm_branch k m buf cond (immediate_operand rel) 1 0

/-- The function `arm_emit_thumb_bl`. -/
def arm_emit_thumb_bl (k : Opcodes) (m : CodeBuf) (buf rel : Nat) : Nat × CodeBuf :=
  arm_emit_thumb_branch k m buf (immediate_operand rel) 1 0

/-- The function `arm_emit_thumb_b`. -/
def arm_emit_thumb_b (k : Opcodes) (m : CodeBuf) (buf cond rel : Nat) : Nat × CodeBuf :=
  arm_emit_thumb_insn m buf (k.THUMB_B
    ||| ENCODE cond 4 8
    ||| ENCODE ((rel % 2 ^ 32) >>> 1) 8 0)

/-- The function `arm_emit_thumb_bw`. -/
def arm_emit_thumb_bw (k : Opcodes) (m : CodeBuf) (buf rel : Nat) : Nat × CodeBuf :=
  arm_emit_thumb_branch k m buf (immediate_operand rel) 0 0

/-- The function `arm_emit_thumb_bw_cond`; `rel` is `uint32_t`. -/
def arm_emit_thumb_bw_cond (k : Opcodes) (m : CodeBuf) (buf cond rel : Nat) : Nat × CodeBuf :=
  let imm11 := bits (rel % 2 ^ 32) 1 11
  let imm6 := bits (rel % 2 ^ 32) 12 17
  let s := bit (rel % 2 ^ 32) 24
  let j1 := s ^^^ lnot (bit (rel % 2 ^ 32) 23)
  let j2 := s ^^^ lnot (bit (rel % 2 ^ 32) 22)
  arm_emit_thumb_w_insn m buf (k.THUMB_BW
    ||| ENCODE s 1 26
    ||| ENCODE imm6 6 16
    ||| ENCODE cond 4 22
    ||| ENCODE j1 1 13
    ||| ENCODE j2 1 11
    ||| ENCODE imm11 11 0)

/-- The function `arm_emit_thumb_blx`. -/
def arm_emit_thumb_blx (k : Opcodes) (m : CodeBuf) (buf : Nat) (operand : arm_operand) :
    Nat × CodeBuf :=
  arm_emit_thumb_branch k m buf operand 1 1

/-- The function `arm_emit_arm_blx`. -/
def arm_emit_arm_blx (k : Opcodes) (m : CodeBuf) (buf cond : Nat) (operand : arm_operand) :
    Nat × CodeBuf :=
  arm_emit_arm_branch k m buf cond operand 1 1

/-! ## Data movement emitters -/

/-- The function `arm_emit_arm_movw`. -/
def arm_emit_arm_movw (k : Opcodes) (m : CodeBuf) (buf cond rd : Nat)
    (operand : arm_operand) : Nat × CodeBuf :=
  match operand with
  | .Immediate imm =>
    arm_emit_arm_insn m buf (k.ARM_MOVW
      ||| ENCODE cond 4 28
      ||| ENCODE (bits imm 12 15) 4 16
      ||| ENCODE rd 4 12
      ||| ENCODE (bits imm 0 11) 12 0)
  | _ => (0, m)

/-- The function `arm_emit_arm_mov`. -/
def arm_emit_arm_mov (k : Opcodes) (m : CodeBuf) (buf cond rd : Nat)
    (operand : arm_operand) : Nat × CodeBuf :=
  match operand with
  | .Immediate imm =>
    arm_emit_arm_insn m buf (k.ARM_MOV
      ||| ENCODE cond 4 28
      ||| ENCODE 1 1 25
      ||| ENCODE rd 4 12
      ||| ENCODE (bits imm 0 11) 12 0)
  | .Register reg =>
    arm_emit_arm_insn m buf (k.ARM_MOV
      ||| ENCODE cond 4 28
      ||| ENCODE rd 4 12
      ||| ENCODE reg 4 0)
  | .Memory _ => (0, m)

/-- The function `arm_emit_thumb_movw`. -/
def arm_emit_thumb_movw (k : Opcodes) (m : CodeBuf) (buf rd : Nat)
    (operand : arm_operand) : Nat × CodeBuf :=
  match operand with
  | .Immediate imm =>
    arm_emit_thumb_w_insn m buf (k.THUMB_MOVW
      ||| ENCODE (bit imm 11) 1 26
      ||| ENCODE (bits imm 12 15) 4 16
      ||| ENCODE (bits imm 8 10) 3 12
      ||| ENCODE rd 4 8
      ||| ENCODE (bits imm 0 7) 8 0)
  | _ => (0, m)

/-- The function `arm_emit_arm_movt`. -/
def arm_emit_arm_movt (k : Opcodes) (m : CodeBuf) (buf cond rd : Nat)
    (operand : arm_operand) : Nat × CodeBuf :=
  match operand with
  | .Immediate imm =>
    arm_emit_arm_insn m buf (k.ARM_MOVT
      ||| ENCODE cond 4 28
      ||| ENCODE (bits imm 12 15) 4 16
      ||| ENCODE rd 4 12
      ||| ENCODE (bits imm 0 11) 12 0)
  | _ => (0, m)

/-- The function `arm_emit_thumb_movt`. -/
def arm_emit_thumb_movt (k : Opcodes) (m : CodeBuf) (buf rd : Nat)
    (operand : arm_operand) : Nat × CodeBuf :=
  match operand with
  | .Immediate imm =>
    arm_emit_thumb_w_insn m buf (k.THUMB_MOVT
      ||| ENCODE (bit imm 11) 1 26
      ||| ENCODE (bits imm 12 15) 4 16
      ||| ENCODE (bits imm 8 10) 3 12
      ||| ENCODE rd 4 8
      ||| ENCODE (bits imm 0 7) 8 0)
  | _ => (0, m)

/-- The function `arm_emit_thumb_mov_32`; `reg` is a C `int` converted to the
`uint8_t` parameter of the callees.  The result is the advanced pointer and
the buffer. -/
def arm_emit_thumb_mov_32 (k : Opcodes) (m : CodeBuf) (mem : Nat) (reg : Int) (val : Nat) :
    Nat × CodeBuf :=
  let val_low := bits (val % 2 ^ 32) 0 15 % 2 ^ 16
  let val_high := bits (val % 2 ^ 32) 16 31 % 2 ^ 16
  let r1 := arm_emit_thumb_movw k m mem (reg % 2 ^ 8).toNat (immediate_operand val_low)
  let r2 := arm_emit_thumb_movt k r1.2 (mem + r1.1) (reg % 2 ^ 8).toNat
    (immediate_operand val_high)
  (mem + r1.1 + r2.1, r2.2)

/-- The function `arm_emit_arm_mov_32`; `reg` is a C `int` converted to the
`uint8_t` parameter of the callees.  The result is the advanced pointer and
the buffer. -/
def arm_emit_arm_mov_32 (k : Opcodes) (m : CodeBuf) (mem : Nat) (reg : Int) (val : Nat) :
    Nat × CodeBuf :=
  let val_low := bits (val % 2 ^ 32) 0 15 % 2 ^ 16
  let val_high := bits (val % 2 ^ 32) 16 31 % 2 ^ 16
  let r1 := arm_emit_arm_movw k m mem AL (reg % 2 ^ 8).toNat (immediate_operand val_low)
  let r2 := arm_emit_arm_movt k r1.2 (mem + r1.1) AL (reg % 2 ^ 8).toNat
    (immediate_operand val_high)
  (mem + r1.1 + r2.1, r2.2)

/-- The function `arm_emit_thumb_mov`. -/
def arm_emit_thumb_mov (k : Opcodes) (m : CodeBuf) (buf rd : Nat)
    (operand : arm_operand) : Nat × CodeBuf :=
  match operand with
  | .Register reg =>
    arm_emit_thumb_insn m buf (k.THUMB_MOV
      ||| ENCODE (bit rd 3) 1 7
      ||| ENCODE (bits rd 0 2) 3 0
      ||| ENCODE reg 4 3)
  | _ => (0, m)

/-- The function `arm_emit_arm_cmp`. -/
def arm_emit_arm_cmp (k : Opcodes) (m : CodeBuf) (buf cond rn : Nat)
    (operand : arm_operand) : Nat × CodeBuf :=
  match operand with
  | .Immediate imm =>
    arm_emit_arm_insn m buf (k.ARM_CMP
      ||| ENCODE cond 4 28
      ||| ENCODE rn 4 16
      ||| ENCODE (bits imm 0 11) 12 0)
  | _ => (0, m)

/-- The function `arm_emit_thumb_cmp`. -/
def arm_emit_thumb_cmp (k : Opcodes) (m : CodeBuf) (buf rn : Nat)
    (operand : arm_operand) : Nat × CodeBuf :=
  match operand with
  | .Immediate imm =>
    arm_emit_thumb_insn m buf (k.THUMB_CMP
      ||| ENCODE rn 3 8
      ||| ENCODE (bits imm 0 7) 8 0)
  | _ => (0, m)

/-- The function `arm_emit_thumb_cmpw`. -/
def arm_emit_thumb_cmpw (k : Opcodes) (m : CodeBuf) (buf rn : Nat)
    (operand : arm_operand) : Nat × CodeBuf :=
  match operand with
  | .Immediate imm =>
    arm_emit_thumb_w_insn m buf (k.THUMB_CMPW
      ||| ENCODE rn 4 16
      ||| ENCODE (bit imm 11) 1 26
      ||| ENCODE (bits imm 8 10) 3 12
      ||| ENCODE (bits imm 0 7) 8 0)
  | _ => (0, m)

/-- The function `arm_emit_arm_bic`. -/
def arm_emit_arm_bic (k : Opcodes) (m : CodeBuf) (buf cond rd rn : Nat)
    (operand : arm_operand) : Nat × CodeBuf :=
  match operand with
  | .Immediate imm =>
    arm_emit_arm_insn m buf (k.ARM_BIC
      ||| ENCODE cond 4 28
      ||| ENCODE rn 4 16
      ||| ENCODE rd 4 12
      ||| ENCODE (bits imm 0 11) 12 0)
  | _ => (0, m)

/-- The function `arm_emit_thumb_bic`. -/
def arm_emit_thumb_bic (k : Opcodes) (m : CodeBuf) (buf rd rn : Nat)
    (operand : arm_operand) : Nat × CodeBuf :=
  match operand with
  | .Immediate imm =>
    arm_emit_thumb_w_insn m buf (k.THUMB_BIC
      ||| ENCODE (bit imm 11) 1 26
      ||| ENCODE rn 4 16
      ||| ENCODE rd 4 8
      ||| ENCODE (bits imm 8 10) 3 12
      ||| ENCODE (bits imm 0 7) 8 0)
  | _ => (0, m)

/-- The function `arm_emit_arm_add`. -/
def arm_emit_arm_add (k : Opcodes) (m : CodeBuf) (buf cond rd rn : Nat)
    (operand : arm_operand) : Nat × CodeBuf :=
  match operand with
  | .Immediate imm =>
    arm_emit_arm_insn m buf (k.ARM_ADD
      ||| ENCODE 1 1 25
      ||| ENCODE cond 4 28
      ||| ENCODE 0 1 20
      ||| ENCODE rn 4 16
      ||| ENCODE rd 4 12
      ||| ENCODE imm 8 0)
  | _ => (0, m)

/-- The function `arm_emit_thumb_add_sp`. -/
def arm_emit_thumb_add_sp (k : Opcodes) (m : CodeBuf) (buf : Nat)
    (operand : arm_operand) : Nat × CodeBuf :=
  match operand with
  | .Immediate imm =>
    arm_emit_thumb_insn m buf (k.THUMB_ADD_SP ||| ENCODE (imm >>> 2) 7 0)
  | _ => (0, m)

/-! ## Stack and multi-register transfer emitters -/

/-- The function `arm_emit_arm_vpush`; `2 * len` is computed in `int`. -/
def arm_emit_arm_vpush (k : Opcodes) (m : CodeBuf) (buf cond rs len : Nat) : Nat × CodeBuf :=
  arm_emit_arm_insn m buf (k.ARM_VPUSH
    ||| ENCODE cond 4 28
    ||| ENCODE (bit rs 4) 1 22
    ||| ENCODE (bits rs 0 3) 4 12
    ||| ENCODE (2 * (len % 2 ^ 8)) 8 0)

/-- The function `arm_emit_thumb_vpush`. -/
def arm_emit_thumb_vpush (k : Opcodes) (m : CodeBuf) (buf rs len : Nat) : Nat × CodeBuf :=
  arm_emit_thumb_w_insn m buf (k.THUMB_VPUSH
    ||| ENCODE (bit rs 4) 1 22
    ||| ENCODE (bits rs 0 3) 4 12
    ||| ENCODE (2 * (len % 2 ^ 8)) 8 0)

/-- The function `arm_emit_arm_vpop`. -/
def arm_emit_arm_vpop (k : Opcodes) (m : CodeBuf) (buf cond rs len : Nat) : Nat × CodeBuf :=
  arm_emit_arm_insn m buf (k.ARM_VPOP
    ||| ENCODE cond 4 28
    ||| ENCODE (bit rs 4) 1 22
    ||| ENCODE (bits rs 0 3) 4 12
    ||| ENCODE (2 * (len % 2 ^ 8)) 8 0)

/-- The function `arm_emit_thumb_vpop`. -/
def arm_emit_thumb_vpop (k : Opcodes) (m : CodeBuf) (buf rs len : Nat) : Nat × CodeBuf :=
  arm_emit_thumb_w_insn m buf (k.THUMB_VPOP
    ||| ENCODE (bit rs 4) 1 22
    ||| ENCODE (bits rs 0 3) 4 12
    ||| ENCODE (2 * (len % 2 ^ 8)) 8 0)

/-- The function `arm_emit_arm_push_list`. -/
def arm_emit_arm_push_list (k : Opcodes) (m : CodeBuf) (buf cond register_list : Nat) :
    Nat × CodeBuf :=
  arm_emit_arm_insn m buf (k.ARM_PUSH_A1
    ||| ENCODE cond 4 28
    ||| ENCODE register_list 16 0)

/-- The function `arm_emit_arm_push_one`. -/
def arm_emit_arm_push_one (k : Opcodes) (m : CodeBuf) (buf cond rt : Nat) : Nat × CodeBuf :=
  arm_emit_arm_insn m buf (k.ARM_PUSH_A2
    ||| ENCODE cond 4 28
    ||| ENCODE rt 4 12)

/-- The function `arm_emit_thumb_push_one`. -/
def arm_emit_thumb_push_one (k : Opcodes) (m : CodeBuf) (buf register_list lr : Nat) :
    Nat × CodeBuf :=
  arm_emit_thumb_insn m buf (k.THUMB_PUSH_T1
    ||| ENCODE register_list 8 0
    ||| ENCODE lr 1 8)

/-- The function `arm_emit_thumb_push_list`. -/
def arm_emit_thumb_push_list (k : Opcodes) (m : CodeBuf) (buf register_list lr : Nat) :
    Nat × CodeBuf :=
  arm_emit_thumb_w_insn m buf (k.THUMB_PUSH_T2
    ||| ENCODE (bit lr 0) 1 14
    ||| ENCODE register_list 13 0)

/-- The function `arm_emit_arm_pop_one`. -/
def arm_emit_arm_pop_one (k : Opcodes) (m : CodeBuf) (buf cond rt : Nat) : Nat × CodeBuf :=
  arm_emit_arm_insn m buf (k.ARM_POP_A2
    ||| ENCODE cond 4 28
    ||| ENCODE rt 4 12)

/-- The function `arm_emit_arm_pop_list`. -/
def arm_emit_arm_pop_list (k : Opcodes) (m : CodeBuf) (buf cond register_list : Nat) :
    Nat × CodeBuf :=
  arm_emit_arm_insn m buf (k.ARM_POP_A1
    ||| ENCODE cond 4 28
    ||| ENCODE register_list 16 0)

/-- The function `arm_emit_thumb_pop`. -/
def arm_emit_thumb_pop (k : Opcodes) (m : CodeBuf) (buf register_list pc : Nat) :
    Nat × CodeBuf :=
  arm_emit_thumb_insn m buf (k.THUMB_POP
    ||| ENCODE pc 1 8
    ||| ENCODE register_list 8 0)

/-- The function `arm_emit_thumb_popw_list`. -/
def arm_emit_thumb_popw_list (k : Opcodes) (m : CodeBuf) (buf register_list pc lr : Nat) :
    Nat × CodeBuf :=
  arm_emit_thumb_w_insn m buf (k.THUMB_POPW
    ||| ENCODE pc 1 15
    ||| ENCODE lr 1 14
    ||| ENCODE register_list 13 0)

/-! ## Atomics, barriers, status-register and memory emitters -/

/-- The function `arm_emit_arm_mrs`. -/
def arm_emit_arm_mrs (k : Opcodes) (m : CodeBuf) (buf cond rd : Nat) : Nat × CodeBuf :=
  arm_emit_arm_insn m buf (k.ARM_MRS
    ||| ENCODE cond 4 28
    ||| ENCODE rd 4 12)

/-- The function `arm_emit_thumb_mrs`. -/
def arm_emit_thumb_mrs (k : Opcodes) (m : CodeBuf) (buf rd : Nat) : Nat × CodeBuf :=
  arm_emit_thumb_w_insn m buf (k.THUMB_MRS ||| ENCODE rd 4 12)

/-- The function `arm_emit_arm_msr`. -/
def arm_emit_arm_msr (k : Opcodes) (m : CodeBuf) (buf cond rn : Nat) : Nat × CodeBuf :=
  arm_emit_arm_insn m buf (k.ARM_MSR
    ||| ENCODE cond 4 28
    ||| ENCODE 3 2 18
    ||| ENCODE rn 4 0)

/-- The function `arm_emit_thumb_msr`. -/
def arm_emit_thumb_msr (k : Opcodes) (m : CodeBuf) (buf rn : Nat) : Nat × CodeBuf :=
  arm_emit_thumb_w_insn m buf (k.THUMB_MSR
    ||| ENCODE rn 4 16
    ||| ENCODE 3 2 10)

/-- The function `arm_emit_arm_dmb`. -/
def arm_emit_arm_dmb (k : Opcodes) (m : CodeBuf) (buf : Nat) : Nat × CodeBuf :=
  arm_emit_arm_insn m buf (k.ARM_DMB ||| ENCODE 0xF 4 0)

/-- The function `arm_emit_thumb_dmb`. -/
def arm_emit_thumb_dmb (k : Opcodes) (m : CodeBuf) (buf : Nat) : Nat × CodeBuf :=
  arm_emit_thumb_w_insn m buf (k.THUMB_DMB ||| ENCODE 0xF 4 0)

/-- The function `arm_emit_arm_ldrex`. -/
def arm_emit_arm_ldrex (k : Opcodes) (m : CodeBuf) (buf cond rt rn : Nat) : Nat × CodeBuf :=
  arm_emit_arm_insn m buf (k.ARM_LDREX
    ||| ENCODE cond 4 28
    ||| ENCODE rn 4 16
    ||| ENCODE rt 4 12)

/-- The function `arm_emit_thumb_ldrex`; its `rt` is declared `int8_t`, and the
mask of `ENCODE` acts on the two's complement bit pattern of the value. -/
def arm_emit_thumb_ldrex (k : Opcodes) (m : CodeBuf) (buf : Nat) (rt : Int) (rn : Nat)
    (operand : arm_operand) : Nat × CodeBuf :=
  match operand with
  | .Immediate imm =>
    arm_emit_thumb_w_insn m buf (k.THUMB_LDREX
      ||| ENCODE rn 4 16
      ||| ENCODE (rt % 2 ^ 8).toNat 4 12
      ||| ENCODE (bits imm 0 7) 8 0)
  | _ => (0, m)

/-- The function `arm_emit_arm_strex`. -/
def arm_emit_arm_strex (k : Opcodes) (m : CodeBuf) (buf cond rd rt rn : Nat) : Nat × CodeBuf :=
  arm_emit_arm_insn m buf (k.ARM_STREX
    ||| ENCODE cond 4 28
    ||| ENCODE rn 4 16
    ||| ENCODE rd 4 12
    ||| ENCODE rt 4 0)

/-- The function `arm_emit_thumb_strex`. -/
def arm_emit_thumb_strex (k : Opcodes) (m : CodeBuf) (buf rd rt rn : Nat)
    (operand : arm_operand) : Nat × CodeBuf :=
  match operand with
  | .Immediate imm =>
    arm_emit_thumb_w_insn m buf (k.THUMB_STREX
      ||| ENCODE rn 4 16
      ||| ENCODE rt 4 12
      ||| ENCODE rd 4 8
      ||| ENCODE imm 8 0)
  | _ => (0, m)

/-- The function `arm_emit_arm_str`; the `switch` on the addressing mode has
the single case `MEMORY_OPERAND_OFFSET` and a `default`. -/
def arm_emit_arm_str (k : Opcodes) (m : CodeBuf) (buf cond rt rn : Nat)
    (operand : arm_operand) : Nat × CodeBuf :=
  match operand with
  | .Memory mem =>
    if mem.type = MEMORY_OPERAND_OFFSET then
      arm_emit_arm_insn m buf (k.ARM_STR
        ||| ENCODE cond 4 28
        ||| ENCODE 1 1 24
        ||| ENCODE (if mem.index < 0 then 0 else 1) 1 23
        ||| ENCODE rn 4 16
        ||| ENCODE rt 4 12
        ||| ENCODE (bits (ABS mem.index).toNat 0 11) 12 0)
    else
      (0, m)
  | _ => (0, m)

/-- The function `arm_emit_thumb_str`. -/
def arm_emit_thumb_str (k : Opcodes) (m : CodeBuf) (buf rt rn : Nat)
    (operand : arm_operand) : Nat × CodeBuf :=
  match operand with
  | .Immediate imm =>
    arm_emit_thumb_insn m buf (k.THUMB_STR
      ||| ENCODE imm 5 6
      ||| ENCODE rn 3 3
      ||| ENCODE rt 3 0)
  | _ => (0, m)

/-! ## Specification-side helpers -/

/-- An integer reduced modulo `2 ^ 32` and read as a signed 32-bit value. -/
def signed32 (v : Int) : Int :=
  if v % 2 ^ 32 < 2 ^ 31 then v % 2 ^ 32 else v % 2 ^ 32 - 2 ^ 32

/-- The bit field of `v` that starts at bit `off` and is `w` bits wide. -/
def field (v off w : Nat) : Nat := v / 2 ^ off % 2 ^ w

/-- Sign extension of the low `w` bits of `v`. -/
def SignExtend (w v : Nat) : Int :=
  if v % 2 ^ w < 2 ^ (w - 1) then ((v % 2 ^ w : Nat) : Int) else ((v % 2 ^ w : Nat) : Int) - 2 ^ w

/-- The operand/flag combinations the specification lists as legal for the
unified ARM branch emitter: immediate with link and exchange, immediate
without exchange, register with link and exchange. -/
def arm_branch_legal_listed (operand : arm_operand) (l x : Nat) : Prop :=
  match operand with
  | .Immediate _ => (l = 1 ∧ x = 1) ∨ x = 0
  | .Register _ => l = 1 ∧ x = 1
  | .Memory _ => False

/-- The branch offset a Thumb-32 `BL` / `B.W` (encoding T4) pair of half-words
stands for: `SignExtend (S:I1:I2:imm10:imm11:0)` with `I1 = NOT (J1 XOR S)`,
`I2 = NOT (J2 XOR S)`. -/
def thumb_bl_decode (hw1 hw2 : Nat) : Int :=
  let S := bit hw1 10
  let imm10 := bits hw1 0 9
  let J1 := bit hw2 13
  let J2 := bit hw2 11
  let imm11 := bits hw2 0 10
  let I1 := lnot (J1 ^^^ S)
  let I2 := lnot (J2 ^^^ S)
  SignExtend 25 (S * 2 ^ 24 + I1 * 2 ^ 23 + I2 * 2 ^ 22 + imm10 * 2 ^ 12 + imm11 * 2)

/-- The branch offset a Thumb-32 conditional `B.W` (encoding T3) pair of
half-words stands for: `SignExtend (S:J2:J1:imm6:imm11:0)`. -/
def thumb_bw_cond_decode (hw1 hw2 : Nat) : Int :=
  let S := bit hw1 10
  let imm6 := bits hw1 0 5
  let J1 := bit hw2 13
  let J2 := bit hw2 11
  let imm11 := bits hw2 0 10
  SignExtend 21 (S * 2 ^ 20 + J2 * 2 ^ 19 + J1 * 2 ^ 18 + imm6 * 2 ^ 12 + imm11 * 2)

/-- The frame property of an emitter `f` (taking the buffer and the cursor):
a call at cursor `p` that returns `n` leaves every unit outside `[p, p + n)`
as it was, and the `n` units at `p .. p + n - 1` are overwritten, that is,
their new values do not depend on the old contents of the buffer. -/
def frame_ok (f : CodeBuf → Nat → Nat × CodeBuf) : Prop :=
  ∀ (m : CodeBuf) (p : Nat),
    (∀ i, i < p ∨ p + (f m p).1 ≤ i → (f m p).2 i = m i) ∧
    (∀ (m2 : CodeBuf) (i : Nat), p ≤ i → i < p + (f m p).1 → (f m p).2 i = (f m2 p).2 i)

/-- The 16-bit immediate an ARM `MOVW` / `MOVT` word carries:
`w[19:16] << 12 | w[11:0]`. -/
def arm_mov_imm16 (w : Nat) : Nat := (bits w 16 19) <<< 12 ||| bits w 0 11

/-- The 16-bit immediate a Thumb-32 `MOVW` / `MOVT` instruction word carries:
`i[19:16] << 12 | i[26] << 11 | i[14:12] << 8 | i[7:0]`. -/
def thumb_mov_imm16 (i : Nat) : Nat :=
  (bits i 16 19) <<< 12 ||| (bit i 26) <<< 11 ||| (bits i 12 14) <<< 8 ||| bits i 0 7

/-! ## Auxiliary lemmas -/

theorem int_shr25 (v : Int) : v >>> (25 : Nat) = v / 33554432 := by
  rw [Int.shiftRight_eq_div_pow]; norm_num

theorem int_shr24 (v : Int) : v >>> (24 : Nat) = v / 16777216 := by
  rw [Int.shiftRight_eq_div_pow]; norm_num

theorem sub32_cast (a b : Nat) : ((sub32 a b : Nat) : Int) = ((a : Int) - b) % 2 ^ 32 := by
  unfold sub32
  omega

theorem sub32_lt (a b : Nat) : sub32 a b < 2 ^ 32 := by
  unfold sub32
  omega

theorem int32_of_uint32_eq (x : Nat) (v : Int) (h : (x : Int) % 2 ^ 32 = v % 2 ^ 32) :
    int32_of_uint32 x = signed32 v := by
  unfold int32_of_uint32 signed32
  split_ifs <;> omega

theorem signed32_bounds (v : Int) : -2147483648 ≤ signed32 v ∧ signed32 v < 2147483648 := by
  unfold signed32
  split_ifs <;> omega

theorem arm_rel_cast (frm tgt : Nat) :
    ((arm_arm_branch_relative_distance frm tgt : Nat) : Int) % 2 ^ 32
      = ((tgt : Int) - frm - 8) % 2 ^ 32 := by
  unfold arm_arm_branch_relative_distance arm_arm_branch_adjusted_offset
  rw [sub32_cast, sub32_cast]
  omega

theorem thumb_rel_cast (frm tgt : Nat) :
    ((arm_thumb_branch_relative_distance frm tgt : Nat) : Int) % 2 ^ 32
      = ((((tgt % 2 ^ 32) &&& 0xFFFFFFFE : Nat) : Int)
          - (((frm % 2 ^ 32) &&& 0xFFFFFFFE : Nat) : Int) - 4) % 2 ^ 32 := by
  unfold arm_thumb_branch_relative_distance arm_thumb_branch_adjusted_offset
  dsimp only
  rw [sub32_cast, sub32_cast]
  omega

theorem testBit_field (v off w i : Nat) :
    (field v off w).testBit i = (decide (i < w) && v.testBit (off + i)) := by
  unfold field
  rw [Nat.testBit_mod_two_pow, ← Nat.shiftRight_eq_div_pow, Nat.testBit_shiftRight]

theorem bits_eq_field (v lo hi : Nat) : bits v lo hi = field v lo (hi - lo + 1) := by
  unfold bits field
  rw [Nat.and_pow_two_sub_one_eq_mod, Nat.shiftRight_eq_div_pow]

theorem bit_eq_field (v n : Nat) : bit v n = field v n 1 := by
  unfold bit field
  rw [Nat.and_one_is_mod, Nat.shiftRight_eq_div_pow, pow_one]

theorem testBit_ENCODE (v w off i : Nat) :
    (ENCODE v w off).testBit i = (decide (off ≤ i) && (decide (i - off < w) && v.testBit (i - off))) := by
  unfold ENCODE
  rw [Nat.testBit_shiftLeft, Nat.and_pow_two_sub_one_eq_mod, Nat.testBit_mod_two_pow]

theorem field_or (a b off w : Nat) :
    field (a ||| b) off w = field a off w ||| field b off w := by
  apply Nat.eq_of_testBit_eq
  intro i
  simp only [testBit_field, Nat.testBit_or, Bool.and_or_distrib_left]

theorem field_ENCODE_same (v w off : Nat) : field (ENCODE v w off) off w = v % 2 ^ w := by
  apply Nat.eq_of_testBit_eq
  intro i
  simp only [testBit_field, testBit_ENCODE, Nat.testBit_mod_two_pow, Nat.add_sub_cancel_left,
    Nat.le_add_right, decide_True, Bool.true_and, Bool.and_self_left]

theorem field_ENCODE_low (v w1 off1 off w : Nat) (h : off1 + w1 ≤ off) :
    field (ENCODE v w1 off1) off w = 0 := by
  apply Nat.eq_of_testBit_eq
  intro i
  simp only [testBit_field, testBit_ENCODE, Nat.zero_testBit]
  have : ¬ (off + i - off1 < w1) := by omega
  simp [this]

theorem field_ENCODE_high (v w1 off1 off w : Nat) (h : off + w ≤ off1) :
    field (ENCODE v w1 off1) off w = 0 := by
  apply Nat.eq_of_testBit_eq
  intro i
  simp only [testBit_field, testBit_ENCODE, Nat.zero_testBit]
  by_cases hi : i < w
  · have : ¬ (off1 ≤ off + i) := by omega
    simp [this]
  · simp [hi]

theorem field_mod (v n off w : Nat) (h : off + w ≤ n) :
    field (v % 2 ^ n) off w = field v off w := by
  apply Nat.eq_of_testBit_eq
  intro i
  simp only [testBit_field, Nat.testBit_mod_two_pow]
  by_cases hi : i < w
  · have : off + i < n := by omega
    simp [this]
  · simp [hi]

theorem field_field (v o1 w1 o2 w2 : Nat) (h : o2 + w2 ≤ w1) :
    field (field v o1 w1) o2 w2 = field v (o1 + o2) w2 := by
  apply Nat.eq_of_testBit_eq
  intro i
  simp only [testBit_field]
  by_cases hi : i < w2
  · have : o2 + i < w1 := by omega
    simp [this, hi, Nat.add_assoc]
  · simp [hi]


theorem store_same (m : CodeBuf) (p v : Nat) : store m p v p = v := by
  simp [store]

theorem ENCODE_lt (v w off : Nat) : ENCODE v w off < 2 ^ (w + off) := by
  unfold ENCODE
  rw [Nat.and_pow_two_sub_one_eq_mod, Nat.shiftLeft_eq, Nat.pow_add]
  exact Nat.mul_lt_mul_of_pos_right (Nat.mod_lt _ (by positivity)) (by positivity)

/-- The word emitted by `arm_emit_arm_branch` for an immediate operand that is
not a BLX. -/
theorem arm_emit_arm_b_eq (k : Opcodes) (m : CodeBuf) (buf cond rel : Nat) :
    arm_emit_arm_b k m buf cond rel = (1, store m buf ((k.ARM_B ||| ENCODE 0 1 24
      ||| ENCODE cond 4 28 ||| ENCODE ((rel % 2 ^ 32) >>> 2) 24 0) % 2 ^ 32)) := by
  simp [arm_emit_arm_b, arm_emit_arm_branch, immediate_operand, arm_emit_arm_insn]

theorem arm_emit_arm_bl_eq (k : Opcodes) (m : CodeBuf) (buf cond rel : Nat) :
    arm_emit_arm_bl k m buf cond rel = (1, store m buf ((k.ARM_B ||| ENCODE 1 1 24
      ||| ENCODE cond 4 28 ||| ENCODE ((rel % 2 ^ 32) >>> 2) 24 0) % 2 ^ 32)) := by
  simp [arm_emit_arm_bl, arm_emit_arm_branch, immediate_operand, arm_emit_arm_insn]


theorem or_mod_two_pow (a b n : Nat) (ha : a < 2 ^ n) (hb : b < 2 ^ n) :
    (a ||| b) % 2 ^ n = a ||| b :=
  Nat.mod_eq_of_lt (Nat.or_lt_two_pow ha hb)

theorem ENCODE_lt_32 (v w off : Nat) (h : w + off ≤ 32) : ENCODE v w off < 2 ^ 32 :=
  lt_of_lt_of_le (ENCODE_lt v w off) (Nat.pow_le_pow_right (by norm_num) h)

theorem bits_or (a b lo hi : Nat) : bits (a ||| b) lo hi = bits a lo hi ||| bits b lo hi := by
  rewrite [bits_eq_field, bits_eq_field, bits_eq_field]
  exact field_or a b lo _

theorem bit_or (a b n : Nat) : bit (a ||| b) n = bit a n ||| bit b n := by
  rewrite [bit_eq_field, bit_eq_field, bit_eq_field]
  exact field_or a b n 1

theorem bits_ENCODE_same (v w off hi : Nat) (h : hi + 1 = off + w) (hw : 0 < w) :
    bits (ENCODE v w off) off hi = v % 2 ^ w := by
  rewrite [bits_eq_field, show hi - off + 1 = w by omega]
  exact field_ENCODE_same v w off

theorem bits_ENCODE_low (v w off lo hi : Nat) (h : off + w ≤ lo) :
    bits (ENCODE v w off) lo hi = 0 := by
  rewrite [bits_eq_field]
  exact field_ENCODE_low v w off lo _ h

theorem bits_ENCODE_high (v w off lo hi : Nat) (h : hi < off) (hlo : lo ≤ hi) :
    bits (ENCODE v w off) lo hi = 0 := by
  rewrite [bits_eq_field]
  exact field_ENCODE_high v w off lo _ (by omega)

theorem bit_ENCODE_same (v off : Nat) : bit (ENCODE v 1 off) off = v % 2 := by
  rewrite [bit_eq_field, field_ENCODE_same, pow_one]
  rfl

theorem bit_ENCODE_low (v w off n : Nat) (h : off + w ≤ n) : bit (ENCODE v w off) n = 0 := by
  rewrite [bit_eq_field]
  exact field_ENCODE_low v w off n 1 h

theorem bit_ENCODE_high (v w off n : Nat) (h : n < off) : bit (ENCODE v w off) n = 0 := by
  rewrite [bit_eq_field]
  exact field_ENCODE_high v w off n 1 (by omega)

theorem bits_mod (v n lo hi : Nat) (h : hi < n) (hlo : lo ≤ hi) :
    bits (v % 2 ^ n) lo hi = bits v lo hi := by
  rewrite [bits_eq_field, bits_eq_field]
  exact field_mod v n lo _ (by omega)

theorem bit_mod (v n i : Nat) (h : i < n) : bit (v % 2 ^ n) i = bit v i := by
  rewrite [bit_eq_field, bit_eq_field]
  exact field_mod v n i 1 (by omega)

theorem bits_eq_div_mod (v lo hi : Nat) : bits v lo hi = v / 2 ^ lo % 2 ^ (hi - lo + 1) :=
  bits_eq_field v lo hi

theorem bit_eq_div_mod (v n : Nat) : bit v n = v / 2 ^ n % 2 := by
  rewrite [bit_eq_field]
  unfold field
  rw [pow_one]

/-- The fields of the word `arm_emit_arm_branch` composes for an immediate
operand. -/
theorem arm_branch_imm_fields (skel l c r : Nat) (h0 : bits skel 0 23 = 0) :
    bits (skel ||| ENCODE l 1 24 ||| ENCODE c 4 28 ||| ENCODE r 24 0) 0 23 = r % 2 ^ 24 ∧
    bits (skel ||| ENCODE l 1 24 ||| ENCODE c 4 28 ||| ENCODE r 24 0) 28 31
      = bits skel 28 31 ||| c % 2 ^ 4 ∧
    bit (skel ||| ENCODE l 1 24 ||| ENCODE c 4 28 ||| ENCODE r 24 0) 24
      = bit skel 24 ||| l % 2 := by
  refine ⟨?_, ?_, ?_⟩
  · rewrite [bits_or, bits_or, bits_or, h0, bits_ENCODE_high l 1 24 0 23 (by omega) (by omega),
      bits_ENCODE_high c 4 28 0 23 (by omega) (by omega),
      bits_ENCODE_same r 24 0 23 (by omega) (by omega)]
    simp only [Nat.zero_or, Nat.or_zero]
  · rewrite [bits_or, bits_or, bits_or, bits_ENCODE_low l 1 24 28 31 (by omega),
      bits_ENCODE_same c 4 28 31 (by omega) (by omega), bits_ENCODE_low r 24 0 28 31 (by omega)]
    simp only [Nat.zero_or, Nat.or_zero]
  · rewrite [bit_or, bit_or, bit_or, bit_ENCODE_same, bit_ENCODE_high c 4 28 24 (by omega),
      bit_ENCODE_low r 24 0 24 (by omega)]
    simp only [Nat.zero_or, Nat.or_zero]

theorem arm_branch_imm_lt (skel l c r : Nat) (hk : skel < 2 ^ 32) :
    (skel ||| ENCODE l 1 24 ||| ENCODE c 4 28 ||| ENCODE r 24 0) % 2 ^ 32
      = skel ||| ENCODE l 1 24 ||| ENCODE c 4 28 ||| ENCODE r 24 0 :=
  Nat.mod_eq_of_lt (Nat.or_lt_two_pow (Nat.or_lt_two_pow (Nat.or_lt_two_pow hk
    (ENCODE_lt_32 l 1 24 (by omega))) (ENCODE_lt_32 c 4 28 (by omega)))
    (ENCODE_lt_32 r 24 0 (by omega)))


theorem bit_lt_two (v n : Nat) : bit v n < 2 := by
  rewrite [bit_eq_div_mod]
  omega

theorem or_fifteen (v : Nat) (h : v < 16) : v ||| 15 = 15 := by
  interval_cases v <;> rfl

theorem arm_emit_arm_blx_imm_eq (k : Opcodes) (m : CodeBuf) (buf cond imm : Nat) :
    arm_emit_arm_blx k m buf cond (.Immediate imm) = (1, store m buf ((k.ARM_B
      ||| ENCODE (bit imm 1) 1 24 ||| ENCODE 0xF 4 28 ||| ENCODE (imm >>> 2) 24 0) % 2 ^ 32)) := by
  simp [arm_emit_arm_blx, arm_emit_arm_branch, arm_emit_arm_insn]

theorem arm_arm_is_reachable_val (frm tgt : Nat) :
    arm_arm_is_reachable frm tgt
      = if -33554432 ≤ signed32 ((tgt : Int) - frm - 8) ∧
          signed32 ((tgt : Int) - frm - 8) ≤ 33554431 then 1 else 0 := by
  unfold arm_arm_is_reachable
  rewrite [int32_of_uint32_eq _ _ (arm_rel_cast frm tgt)]
  dsimp only
  rewrite [int_shr25]
  split_ifs <;> omega

theorem arm_round_trip_arith (frm tgt rel : Nat) (ht : tgt < 2 ^ 32)
    (hc : (rel : Int) % 2 ^ 32 = ((tgt : Int) - frm - 8) % 2 ^ 32)
    (hal : ((tgt : Int) - frm) % 4 = 0)
    (hr : -33554432 ≤ signed32 ((tgt : Int) - frm - 8) ∧
      signed32 ((tgt : Int) - frm - 8) ≤ 33554431) :
    ((frm : Int) + 8 + 4 * SignExtend 24 ((rel % 2 ^ 32) >>> 2 % 2 ^ 24)) % 2 ^ 32 = tgt := by
  unfold signed32 at hr
  unfold SignExtend
  rewrite [Nat.shiftRight_eq_div_pow]
  norm_num only at hr hc ⊢
  split_ifs at hr ⊢ <;> omega

theorem arm_emit_arm_b_low (k : Opcodes) (m : CodeBuf) (buf cond rel : Nat)
    (hclear : bits k.ARM_B 0 23 = 0) :
    bits ((arm_emit_arm_b k m buf cond rel).2 buf) 0 23 = (rel % 2 ^ 32) >>> 2 % 2 ^ 24 := by
  rewrite [arm_emit_arm_b_eq]
  show bits (store m buf _ buf) 0 23 = _
  rewrite [store_same, bits_mod _ 32 0 23 (by omega) (by omega)]
  exact (arm_branch_imm_fields k.ARM_B 0 cond _ hclear).1

theorem arm_emit_arm_bl_low (k : Opcodes) (m : CodeBuf) (buf cond rel : Nat)
    (hclear : bits k.ARM_B 0 23 = 0) :
    bits ((arm_emit_arm_bl k m buf cond rel).2 buf) 0 23 = (rel % 2 ^ 32) >>> 2 % 2 ^ 24 := by
  rewrite [arm_emit_arm_bl_eq]
  show bits (store m buf _ buf) 0 23 = _
  rewrite [store_same, bits_mod _ 32 0 23 (by omega) (by omega)]
  exact (arm_branch_imm_fields k.ARM_B 1 cond _ hclear).1


theorem store_other (m : CodeBuf) (p v i : Nat) (h : i ≠ p) : store m p v i = m i := by
  simp [store, h]

/-- The return value and the two half-words of `arm_emit_thumb_w_insn`. -/
theorem arm_emit_thumb_w_insn_eq (m : CodeBuf) (buf insn : Nat) :
    (arm_emit_thumb_w_insn m buf insn).1 = 2 ∧
    (arm_emit_thumb_w_insn m buf insn).2 buf = bits (insn % 2 ^ 32) 16 31 % 2 ^ 16 ∧
    (arm_emit_thumb_w_insn m buf insn).2 (buf + 1) = bits (insn % 2 ^ 32) 0 15 % 2 ^ 16 := by
  refine ⟨rfl, ?_, ?_⟩
  · show store (store m buf _) (buf + 1) _ buf = _
    rewrite [store_other _ _ _ _ (by omega), store_same]
    rfl
  · show store (store m buf _) (buf + 1) _ (buf + 1) = _
    rewrite [store_same]
    rfl

theorem field_hi_half (v off w : Nat) (h : off + w ≤ 16) :
    field (bits (v % 2 ^ 32) 16 31 % 2 ^ 16) off w = field v (16 + off) w := by
  rewrite [bits_eq_field, field_mod _ 16 off w h, field_field _ 16 _ off w (by omega),
    field_mod _ 32 _ w (by omega)]
  rfl

theorem field_lo_half (v off w : Nat) (h : off + w ≤ 16) :
    field (bits (v % 2 ^ 32) 0 15 % 2 ^ 16) off w = field v off w := by
  rewrite [bits_eq_field, field_mod _ 16 off w h, field_field _ 0 _ off w (by omega),
    field_mod _ 32 _ w (by omega), Nat.zero_add]
  rfl

theorem field_lt (v off w : Nat) : field v off w < 2 ^ w :=
  Nat.mod_lt _ (by positivity)

theorem bit_hi_half (v n : Nat) (h : n < 16) :
    bit (bits (v % 2 ^ 32) 16 31 % 2 ^ 16) n = bit v (16 + n) := by
  rewrite [bit_eq_field, bit_eq_field]
  exact field_hi_half v n 1 (by omega)

theorem bits_hi_half (v lo hi : Nat) (h : hi < 16) (hlo : lo ≤ hi) :
    bits (bits (v % 2 ^ 32) 16 31 % 2 ^ 16) lo hi = bits v (16 + lo) (16 + hi) := by
  rewrite [bits_eq_field _ lo hi, bits_eq_field v, show 16 + hi - (16 + lo) + 1 = hi - lo + 1 by omega]
  exact field_hi_half v lo _ (by omega)

theorem bit_lo_half (v n : Nat) (h : n < 16) :
    bit (bits (v % 2 ^ 32) 0 15 % 2 ^ 16) n = bit v n := by
  rewrite [bit_eq_field, bit_eq_field]
  exact field_lo_half v n 1 (by omega)

theorem bits_lo_half (v lo hi : Nat) (h : hi < 16) (hlo : lo ≤ hi) :
    bits (bits (v % 2 ^ 32) 0 15 % 2 ^ 16) lo hi = bits v lo hi := by
  rewrite [bits_eq_field _ lo hi, bits_eq_field v]
  exact field_lo_half v lo _ (by omega)

/-- The fields of the instruction word `arm_emit_thumb_branch` composes for an
immediate operand. -/
theorem thumb_branch_imm_fields (skel s imm10 l j1 e j2 imm11 : Nat) :
    field (skel ||| ENCODE s 1 26 ||| ENCODE imm10 10 16 ||| ENCODE l 1 14 ||| ENCODE j1 1 13
      ||| ENCODE e 1 12 ||| ENCODE j2 1 11 ||| ENCODE imm11 11 0) 26 1
      = field skel 26 1 ||| s % 2 ^ 1 ∧
    field (skel ||| ENCODE s 1 26 ||| ENCODE imm10 10 16 ||| ENCODE l 1 14 ||| ENCODE j1 1 13
      ||| ENCODE e 1 12 ||| ENCODE j2 1 11 ||| ENCODE imm11 11 0) 16 10
      = field skel 16 10 ||| imm10 % 2 ^ 10 ∧
    field (skel ||| ENCODE s 1 26 ||| ENCODE imm10 10 16 ||| ENCODE l 1 14 ||| ENCODE j1 1 13
      ||| ENCODE e 1 12 ||| ENCODE j2 1 11 ||| ENCODE imm11 11 0) 14 1
      = field skel 14 1 ||| l % 2 ^ 1 ∧
    field (skel ||| ENCODE s 1 26 ||| ENCODE imm10 10 16 ||| ENCODE l 1 14 ||| ENCODE j1 1 13
      ||| ENCODE e 1 12 ||| ENCODE j2 1 11 ||| ENCODE imm11 11 0) 13 1
      = field skel 13 1 ||| j1 % 2 ^ 1 ∧
    field (skel ||| ENCODE s 1 26 ||| ENCODE imm10 10 16 ||| ENCODE l 1 14 ||| ENCODE j1 1 13
      ||| ENCODE e 1 12 ||| ENCODE j2 1 11 ||| ENCODE imm11 11 0) 12 1
      = field skel 12 1 ||| e % 2 ^ 1 ∧
    field (skel ||| ENCODE s 1 26 ||| ENCODE imm10 10 16 ||| ENCODE l 1 14 ||| ENCODE j1 1 13
      ||| ENCODE e 1 12 ||| ENCODE j2 1 11 ||| ENCODE imm11 11 0) 11 1
      = field skel 11 1 ||| j2 % 2 ^ 1 ∧
    field (skel ||| ENCODE s 1 26 ||| ENCODE imm10 10 16 ||| ENCODE l 1 14 ||| ENCODE j1 1 13
      ||| ENCODE e 1 12 ||| ENCODE j2 1 11 ||| ENCODE imm11 11 0) 0 11
      = field skel 0 11 ||| imm11 % 2 ^ 11 := by
  refine ⟨?_, ?_, ?_, ?_, ?_, ?_, ?_⟩
  · rewrite [field_or, field_or, field_or, field_or, field_or, field_or, field_or,
      field_ENCODE_same, field_ENCODE_low imm10 10 16 26 1 (by omega),
      field_ENCODE_low l 1 14 26 1 (by omega), field_ENCODE_low j1 1 13 26 1 (by omega),
      field_ENCODE_low e 1 12 26 1 (by omega), field_ENCODE_low j2 1 11 26 1 (by omega),
      field_ENCODE_low imm11 11 0 26 1 (by omega)]
    simp only [Nat.zero_or, Nat.or_zero]
  · rewrite [field_or, field_or, field_or, field_or, field_or, field_or, field_or,
      field_ENCODE_same, field_ENCODE_high s 1 26 16 10 (by omega),
      field_ENCODE_low l 1 14 16 10 (by omega), field_ENCODE_low j1 1 13 16 10 (by omega),
      field_ENCODE_low e 1 12 16 10 (by omega), field_ENCODE_low j2 1 11 16 10 (by omega),
      field_ENCODE_low imm11 11 0 16 10 (by omega)]
    simp only [Nat.zero_or, Nat.or_zero]
  · rewrite [field_or, field_or, field_or, field_or, field_or, field_or, field_or,
      field_ENCODE_same, field_ENCODE_high s 1 26 14 1 (by omega),
      field_ENCODE_high imm10 10 16 14 1 (by omega), field_ENCODE_low j1 1 13 14 1 (by omega),
      field_ENCODE_low e 1 12 14 1 (by omega), field_ENCODE_low j2 1 11 14 1 (by omega),
      field_ENCODE_low imm11 11 0 14 1 (by omega)]
    simp only [Nat.zero_or, Nat.or_zero]
  · rewrite [field_or, field_or, field_or, field_or, field_or, field_or, field_or,
      field_ENCODE_same, field_ENCODE_high s 1 26 13 1 (by omega),
      field_ENCODE_high imm10 10 16 13 1 (by omega), field_ENCODE_high l 1 14 13 1 (by omega),
      field_ENCODE_low e 1 12 13 1 (by omega), field_ENCODE_low j2 1 11 13 1 (by omega),
      field_ENCODE_low imm11 11 0 13 1 (by omega)]
    simp only [Nat.zero_or, Nat.or_zero]
  · rewrite [field_or, field_or, field_or, field_or, field_or, field_or, field_or,
      field_ENCODE_same, field_ENCODE_high s 1 26 12 1 (by omega),
      field_ENCODE_high imm10 10 16 12 1 (by omega), field_ENCODE_high l 1 14 12 1 (by omega),
      field_ENCODE_high j1 1 13 12 1 (by omega), field_ENCODE_low j2 1 11 12 1 (by omega),
      field_ENCODE_low imm11 11 0 12 1 (by omega)]
    simp only [Nat.zero_or, Nat.or_zero]
  · rewrite [field_or, field_or, field_or, field_or, field_or, field_or, field_or,
      field_ENCODE_same, field_ENCODE_high s 1 26 11 1 (by omega),
      field_ENCODE_high imm10 10 16 11 1 (by omega), field_ENCODE_high l 1 14 11 1 (by omega),
      field_ENCODE_high j1 1 13 11 1 (by omega), field_ENCODE_high e 1 12 11 1 (by omega),
      field_ENCODE_low imm11 11 0 11 1 (by omega)]
    simp only [Nat.zero_or, Nat.or_zero]
  · rewrite [field_or, field_or, field_or, field_or, field_or, field_or, field_or,
      field_ENCODE_same, field_ENCODE_high s 1 26 0 11 (by omega),
      field_ENCODE_high imm10 10 16 0 11 (by omega), field_ENCODE_high l 1 14 0 11 (by omega),
      field_ENCODE_high j1 1 13 0 11 (by omega), field_ENCODE_high e 1 12 0 11 (by omega),
      field_ENCODE_high j2 1 11 0 11 (by omega)]
    simp only [Nat.zero_or, Nat.or_zero]

theorem arm_emit_thumb_branch_imm_eq (k : Opcodes) (m : CodeBuf) (buf imm l x : Nat) :
    arm_emit_thumb_branch k m buf (.Immediate imm) l x
      = arm_emit_thumb_w_insn m buf (k.THUMB_BW
          ||| ENCODE (bit imm 24) 1 26
          ||| ENCODE (bits imm 12 21) 10 16
          ||| ENCODE (l % 2 ^ 8) 1 14
          ||| ENCODE (bit imm 24 ^^^ lnot (bit imm 23)) 1 13
          ||| ENCODE (if x % 2 ^ 8 = 0 then 1 else 0) 1 12
          ||| ENCODE (bit imm 24 ^^^ lnot (bit imm 22)) 1 11
          ||| ENCODE (if x % 2 ^ 8 = 0 then bits imm 1 11 else (bits imm 2 11) <<< 1) 11 0) :=
  rfl

theorem bit_cases (v n : Nat) : bit v n = 0 ∨ bit v n = 1 := by
  have := bit_lt_two v n
  omega

/-- The arithmetic of the T4 branch offset: reassembling the fields the
emitter extracts from an even offset in `[-2^24, 2^24)` gives the offset. -/
theorem thumb_bl_arith (imm : Nat) (himm : imm < 2 ^ 32) (hev : imm % 2 = 0)
    (hr : -16777216 ≤ int32_of_uint32 imm ∧ int32_of_uint32 imm < 16777216) :
    SignExtend 25 (bit imm 24 % 2 ^ 1 * 2 ^ 24
      + lnot ((bit imm 24 ^^^ lnot (bit imm 23)) % 2 ^ 1 ^^^ bit imm 24 % 2 ^ 1) * 2 ^ 23
      + lnot ((bit imm 24 ^^^ lnot (bit imm 22)) % 2 ^ 1 ^^^ bit imm 24 % 2 ^ 1) * 2 ^ 22
      + bits imm 12 21 % 2 ^ 10 * 2 ^ 12 + bits imm 1 11 % 2 ^ 11 * 2)
      = int32_of_uint32 imm := by
  have e24 := bit_eq_div_mod imm 24
  have e23 := bit_eq_div_mod imm 23
  have e22 := bit_eq_div_mod imm 22
  have e10 := bits_eq_div_mod imm 12 21
  have e11 := bits_eq_div_mod imm 1 11
  unfold int32_of_uint32 at hr ⊢
  unfold SignExtend
  rcases bit_cases imm 24 with h24 | h24 <;> rcases bit_cases imm 23 with h23 | h23 <;>
    rcases bit_cases imm 22 with h22 | h22 <;>
    · rewrite [h24] at e24
      rewrite [h23] at e23
      rewrite [h22] at e22
      rewrite [h24, h23, h22]
      generalize bits imm 12 21 = f10 at e10 ⊢
      generalize bits imm 1 11 = f11 at e11 ⊢
      norm_num [lnot] at e10 e11 e22 e23 e24 hr ⊢
      split_ifs at hr ⊢ <;> omega

theorem or_one_of_lt_two (v : Nat) (h : v < 2) : v ||| 1 = 1 := by
  interval_cases v <;> rfl

theorem bits_lt (v lo hi : Nat) : bits v lo hi < 2 ^ (hi - lo + 1) := by
  rewrite [bits_eq_field]
  exact field_lt v lo _

/-- The two completion bits of the instruction word `arm_emit_thumb_bw_cond`
composes. -/
theorem thumb_bw_cond_j_fields (skel s imm6 c j1 j2 imm11 : Nat) :
    bit (skel ||| ENCODE s 1 26 ||| ENCODE imm6 6 16 ||| ENCODE c 4 22 ||| ENCODE j1 1 13
      ||| ENCODE j2 1 11 ||| ENCODE imm11 11 0) 13 = bit skel 13 ||| j1 % 2 ^ 1 ∧
    bit (skel ||| ENCODE s 1 26 ||| ENCODE imm6 6 16 ||| ENCODE c 4 22 ||| ENCODE j1 1 13
      ||| ENCODE j2 1 11 ||| ENCODE imm11 11 0) 11 = bit skel 11 ||| j2 % 2 ^ 1 := by
  simp only [bit_eq_field]
  constructor
  · rewrite [field_or, field_or, field_or, field_or, field_or, field_or,
      field_ENCODE_same, field_ENCODE_high s 1 26 13 1 (by omega),
      field_ENCODE_high imm6 6 16 13 1 (by omega), field_ENCODE_high c 4 22 13 1 (by omega),
      field_ENCODE_low j2 1 11 13 1 (by omega), field_ENCODE_low imm11 11 0 13 1 (by omega)]
    simp only [Nat.zero_or, Nat.or_zero]
  · rewrite [field_or, field_or, field_or, field_or, field_or, field_or,
      field_ENCODE_same, field_ENCODE_high s 1 26 11 1 (by omega),
      field_ENCODE_high imm6 6 16 11 1 (by omega), field_ENCODE_high c 4 22 11 1 (by omega),
      field_ENCODE_high j1 1 13 11 1 (by omega), field_ENCODE_low imm11 11 0 11 1 (by omega)]
    simp only [Nat.zero_or, Nat.or_zero]

/-- The unit counts of the two unified branch emitters and of `arm_emit_arm_str`
never exceed 2, whatever the operand and flags. -/
theorem branch_str_count_le (k : Opcodes) (m : CodeBuf) (buf cond rt rn l x : Nat)
    (operand : arm_operand) :
    (arm_emit_arm_branch k m buf cond operand l x).1 ≤ 2 ∧
    (arm_emit_thumb_branch k m buf operand l x).1 ≤ 2 ∧
    (arm_emit_arm_str k m buf cond rt rn operand).1 ≤ 2 := by
  refine ⟨?_, ?_, ?_⟩
  · cases operand with
    | Immediate imm => exact Nat.le_succ 1
    | Register reg =>
      unfold arm_emit_arm_branch
      dsimp only
      split_ifs
      · exact Nat.le_succ 1
      · exact Nat.zero_le 2
    | Memory mem => exact Nat.zero_le 2
  · cases operand with
    | Immediate imm => exact Nat.le_refl 2
    | Register reg =>
      unfold arm_emit_thumb_branch
      dsimp only
      split_ifs
      · exact Nat.le_succ 1
      · exact Nat.zero_le 2
    | Memory mem => exact Nat.zero_le 2
  · cases operand with
    | Immediate imm => exact Nat.zero_le 2
    | Register reg => exact Nat.zero_le 2
    | Memory mem =>
      unfold arm_emit_arm_str
      dsimp only
      by_cases h : mem.type = MEMORY_OPERAND_OFFSET
      · rewrite [if_pos h]
        exact Nat.le_succ 1
      · rewrite [if_neg h]
        exact Nat.zero_le 2

theorem frame_ok_fail : frame_ok (fun m _ => (0, m)) := by
  intro m p
  refine ⟨fun i _ => rfl, fun m2 i h1 h2 => ?_⟩
  exact absurd h2 (by show ¬ i < p + 0; omega)

theorem frame_ok_arm_insn (insn : Nat) : frame_ok (fun m p => arm_emit_arm_insn m p insn) := by
  intro m p
  refine ⟨fun i h => ?_, fun m2 i h1 h2 => ?_⟩
  · have hi : i ≠ p := by
      have h' : i < p ∨ p + 1 ≤ i := h
      omega
    exact store_other m p _ i hi
  · have hi : i = p := by
      have h' : i < p + 1 := h2
      omega
    subst hi
    exact (store_same m i _).trans (store_same m2 i _).symm

theorem frame_ok_thumb_insn (insn : Nat) :
    frame_ok (fun m p => arm_emit_thumb_insn m p insn) := by
  intro m p
  refine ⟨fun i h => ?_, fun m2 i h1 h2 => ?_⟩
  · have hi : i ≠ p := by
      have h' : i < p ∨ p + 1 ≤ i := h
      omega
    exact store_other m p _ i hi
  · have hi : i = p := by
      have h' : i < p + 1 := h2
      omega
    subst hi
    exact (store_same m i _).trans (store_same m2 i _).symm

theorem frame_ok_thumb_w_insn (insn : Nat) :
    frame_ok (fun m p => arm_emit_thumb_w_insn m p insn) := by
  intro m p
  refine ⟨fun i h => ?_, fun m2 i h1 h2 => ?_⟩
  · have h' : i < p ∨ p + 2 ≤ i := h
    show store (store m p _) (p + 1) _ i = m i
    rewrite [store_other _ _ _ i (by omega), store_other _ _ _ i (by omega)]
    rfl
  · have h' : i < p + 2 := h2
    obtain ⟨-, a1, a2⟩ := arm_emit_thumb_w_insn_eq m p insn
    obtain ⟨-, b1, b2⟩ := arm_emit_thumb_w_insn_eq m2 p insn
    have hi : i = p ∨ i = p + 1 := by omega
    rcases hi with rfl | rfl
    · exact a1.trans b1.symm
    · exact a2.trans b2.symm

theorem frame_ok_ite (c : Prop) [Decidable c] (f g : CodeBuf → Nat → Nat × CodeBuf)
    (hf : frame_ok f) (hg : frame_ok g) : frame_ok (fun m p => if c then f m p else g m p) := by
  by_cases h : c
  · simp only [if_pos h]
    exact hf
  · simp only [if_neg h]
    exact hg

/-- The frame property of the emitters that branch on flags or on the
addressing mode. -/
theorem frame_ok_branch_str (k : Opcodes) (cond rt rn l x : Nat) (operand : arm_operand) :
    frame_ok (fun m p => arm_emit_arm_branch k m p cond operand l x) ∧
    frame_ok (fun m p => arm_emit_thumb_branch k m p operand l x) ∧
    frame_ok (fun m p => arm_emit_arm_str k m p cond rt rn operand) := by
  refine ⟨?_, ?_, ?_⟩
  · cases operand with
    | Immediate imm => exact frame_ok_arm_insn _
    | Register reg =>
      exact frame_ok_ite _ (fun m p => arm_emit_arm_insn m p _) (fun m _ => (0, m))
        (frame_ok_arm_insn _) frame_ok_fail
    | Memory mem => exact frame_ok_fail
  · cases operand with
    | Immediate imm => exact frame_ok_thumb_w_insn _
    | Register reg =>
      exact frame_ok_ite _ (fun m p => arm_emit_thumb_insn m p _) (fun m _ => (0, m))
        (frame_ok_thumb_insn _) frame_ok_fail
    | Memory mem => exact frame_ok_fail
  · cases operand with
    | Immediate imm => exact frame_ok_fail
    | Register reg => exact frame_ok_fail
    | Memory mem =>
      exact frame_ok_ite _ (fun m p => arm_emit_arm_insn m p _) (fun m _ => (0, m))
        (frame_ok_arm_insn _) frame_ok_fail

/-- The pointer returned by `arm_emit_arm_mov_32` and the units it leaves
unchanged. -/
theorem arm_emit_arm_mov_32_frame (k : Opcodes) (m : CodeBuf) (p : Nat) (reg : Int) (val : Nat) :
    (arm_emit_arm_mov_32 k m p reg val).1 = p + 2 ∧
    ∀ i, i < p ∨ p + 2 ≤ i → (arm_emit_arm_mov_32 k m p reg val).2 i = m i := by
  refine ⟨rfl, fun i h => ?_⟩
  show store (store m p _) (p + 1) _ i = m i
  rewrite [store_other _ _ _ i (by omega), store_other _ _ _ i (by omega)]
  rfl

/-- The pointer returned by `arm_emit_thumb_mov_32` and the units it leaves
unchanged. -/
theorem arm_emit_thumb_mov_32_frame (k : Opcodes) (m : CodeBuf) (p : Nat) (reg : Int)
    (val : Nat) :
    (arm_emit_thumb_mov_32 k m p reg val).1 = p + 4 ∧
    ∀ i, i < p ∨ p + 4 ≤ i → (arm_emit_thumb_mov_32 k m p reg val).2 i = m i := by
  refine ⟨rfl, fun i h => ?_⟩
  show store (store (store (store m p _) (p + 1) _) (p + 2) _) (p + 2 + 1) _ i = m i
  rewrite [store_other _ _ _ i (by omega), store_other _ _ _ i (by omega),
    store_other _ _ _ i (by omega), store_other _ _ _ i (by omega)]
  rfl

theorem shl_or_eq_add (a b n : Nat) (h : b < 2 ^ n) : a <<< n ||| b = a * 2 ^ n + b := by
  rewrite [Nat.shiftLeft_eq, Nat.mul_comm, ← Nat.mul_add_lt_is_or h a]
  rfl

/-- The fields of the word the ARM `MOVW` and `MOVT` emitters compose. -/
theorem arm_movw_fields (skel c i4 rd i12 : Nat) :
    bits (skel ||| ENCODE c 4 28 ||| ENCODE i4 4 16 ||| ENCODE rd 4 12 ||| ENCODE i12 12 0) 28 31
      = bits skel 28 31 ||| c % 2 ^ 4 ∧
    bits (skel ||| ENCODE c 4 28 ||| ENCODE i4 4 16 ||| ENCODE rd 4 12 ||| ENCODE i12 12 0) 16 19
      = bits skel 16 19 ||| i4 % 2 ^ 4 ∧
    bits (skel ||| ENCODE c 4 28 ||| ENCODE i4 4 16 ||| ENCODE rd 4 12 ||| ENCODE i12 12 0) 12 15
      = bits skel 12 15 ||| rd % 2 ^ 4 ∧
    bits (skel ||| ENCODE c 4 28 ||| ENCODE i4 4 16 ||| ENCODE rd 4 12 ||| ENCODE i12 12 0) 0 11
      = bits skel 0 11 ||| i12 % 2 ^ 12 := by
  refine ⟨?_, ?_, ?_, ?_⟩
  · rewrite [bits_or, bits_or, bits_or, bits_or, bits_ENCODE_same c 4 28 31 (by omega) (by omega),
      bits_ENCODE_low i4 4 16 28 31 (by omega), bits_ENCODE_low rd 4 12 28 31 (by omega),
      bits_ENCODE_low i12 12 0 28 31 (by omega)]
    simp only [Nat.zero_or, Nat.or_zero]
  · rewrite [bits_or, bits_or, bits_or, bits_or,
      bits_ENCODE_high c 4 28 16 19 (by omega) (by omega),
      bits_ENCODE_same i4 4 16 19 (by omega) (by omega),
      bits_ENCODE_low rd 4 12 16 19 (by omega), bits_ENCODE_low i12 12 0 16 19 (by omega)]
    simp only [Nat.zero_or, Nat.or_zero]
  · rewrite [bits_or, bits_or, bits_or, bits_or,
      bits_ENCODE_high c 4 28 12 15 (by omega) (by omega),
      bits_ENCODE_high i4 4 16 12 15 (by omega) (by omega),
      bits_ENCODE_same rd 4 12 15 (by omega) (by omega),
      bits_ENCODE_low i12 12 0 12 15 (by omega)]
    simp only [Nat.zero_or, Nat.or_zero]
  · rewrite [bits_or, bits_or, bits_or, bits_or,
      bits_ENCODE_high c 4 28 0 11 (by omega) (by omega),
      bits_ENCODE_high i4 4 16 0 11 (by omega) (by omega),
      bits_ENCODE_high rd 4 12 0 11 (by omega) (by omega),
      bits_ENCODE_same i12 12 0 11 (by omega) (by omega)]
    simp only [Nat.zero_or, Nat.or_zero]

/-- The two words `arm_emit_arm_mov_32` writes. -/
theorem arm_emit_arm_mov_32_words (k : Opcodes) (m : CodeBuf) (p : Nat) (reg : Int) (val : Nat) :
    (arm_emit_arm_mov_32 k m p reg val).2 p
      = (k.ARM_MOVW ||| ENCODE AL 4 28
          ||| ENCODE (bits ((bits (val % 2 ^ 32) 0 15 % 2 ^ 16) % 2 ^ 32) 12 15) 4 16
          ||| ENCODE (reg % 2 ^ 8).toNat 4 12
          ||| ENCODE (bits ((bits (val % 2 ^ 32) 0 15 % 2 ^ 16) % 2 ^ 32) 0 11) 12 0) % 2 ^ 32 ∧
    (arm_emit_arm_mov_32 k m p reg val).2 (p + 1)
      = (k.ARM_MOVT ||| ENCODE AL 4 28
          ||| ENCODE (bits ((bits (val % 2 ^ 32) 16 31 % 2 ^ 16) % 2 ^ 32) 12 15) 4 16
          ||| ENCODE (reg % 2 ^ 8).toNat 4 12
          ||| ENCODE (bits ((bits (val % 2 ^ 32) 16 31 % 2 ^ 16) % 2 ^ 32) 0 11) 12 0) % 2 ^ 32 := by
  constructor
  · show store (store m p _) (p + 1) _ p = _
    rewrite [store_other _ _ _ p (by omega), store_same]
    rfl
  · show store (store m p _) (p + 1) _ (p + 1) = _
    rewrite [store_same]
    rfl

/-- Reassembling the two 16-bit immediates of a `MOVW` / `MOVT` pair. -/
theorem mov_32_arith (val : Nat) (h : val < 2 ^ 32) :
    ((bits ((bits (val % 2 ^ 32) 16 31 % 2 ^ 16) % 2 ^ 32) 12 15 % 2 ^ 4) <<< 12
        ||| bits ((bits (val % 2 ^ 32) 16 31 % 2 ^ 16) % 2 ^ 32) 0 11 % 2 ^ 12) <<< 16
      ||| ((bits ((bits (val % 2 ^ 32) 0 15 % 2 ^ 16) % 2 ^ 32) 12 15 % 2 ^ 4) <<< 12
        ||| bits ((bits (val % 2 ^ 32) 0 15 % 2 ^ 16) % 2 ^ 32) 0 11 % 2 ^ 12) = val := by
  rewrite [shl_or_eq_add _ _ 12 (Nat.mod_lt _ (by norm_num)),
    shl_or_eq_add _ _ 12 (Nat.mod_lt _ (by norm_num))]
  have hlo : bits ((bits (val % 2 ^ 32) 0 15 % 2 ^ 16) % 2 ^ 32) 12 15 % 2 ^ 4 * 2 ^ 12
      + bits ((bits (val % 2 ^ 32) 0 15 % 2 ^ 16) % 2 ^ 32) 0 11 % 2 ^ 12 = val % 2 ^ 16 := by
    simp only [bits_eq_div_mod]
    omega
  have hhi : bits ((bits (val % 2 ^ 32) 16 31 % 2 ^ 16) % 2 ^ 32) 12 15 % 2 ^ 4 * 2 ^ 12
      + bits ((bits (val % 2 ^ 32) 16 31 % 2 ^ 16) % 2 ^ 32) 0 11 % 2 ^ 12
        = val / 2 ^ 16 := by
    simp only [bits_eq_div_mod]
    omega
  rewrite [hlo, hhi, shl_or_eq_add _ _ 16 (Nat.mod_lt _ (by norm_num))]
  omega

theorem thumb_imm16_join (a b c d : Nat) (hb : b < 2) (hc : c < 8) (hd : d < 256) :
    a <<< 12 ||| b <<< 11 ||| c <<< 8 ||| d = a * 4096 + b * 2048 + c * 256 + d := by
  rewrite [Nat.or_assoc, Nat.or_assoc, shl_or_eq_add c d 8 (by omega),
    shl_or_eq_add b _ 11 (by omega), shl_or_eq_add a _ 12 (by omega)]
  omega

theorem thumb_imm16_join_mod (a b c d : Nat) :
    a <<< 12 ||| (b % 2) <<< 11 ||| (c % 2 ^ 3) <<< 8 ||| d % 2 ^ 8
      = a * 4096 + b % 2 * 2048 + c % 2 ^ 3 * 256 + d % 2 ^ 8 :=
  thumb_imm16_join a (b % 2) (c % 2 ^ 3) (d % 2 ^ 8) (Nat.mod_lt _ (by norm_num))
    (Nat.mod_lt _ (by norm_num)) (Nat.mod_lt _ (by norm_num))

/-- The two half-words of `arm_emit_thumb_w_insn` joined again. -/
theorem arm_emit_thumb_w_insn_join (m : CodeBuf) (buf insn : Nat) :
    ((arm_emit_thumb_w_insn m buf insn).2 buf) <<< 16
      ||| (arm_emit_thumb_w_insn m buf insn).2 (buf + 1) = insn % 2 ^ 32 := by
  obtain ⟨-, h1, h2⟩ := arm_emit_thumb_w_insn_eq m buf insn
  rewrite [h1, h2, shl_or_eq_add _ _ 16 (Nat.mod_lt _ (by norm_num)), bits_eq_div_mod,
    bits_eq_div_mod]
  omega

/-- The fields of the instruction word the Thumb `MOVW` and `MOVT` emitters
compose. -/
theorem thumb_movw_fields (skel i1 i4 i3 rd i8 : Nat) :
    bit (skel ||| ENCODE i1 1 26 ||| ENCODE i4 4 16 ||| ENCODE i3 3 12 ||| ENCODE rd 4 8
      ||| ENCODE i8 8 0) 26 = bit skel 26 ||| i1 % 2 ∧
    bits (skel ||| ENCODE i1 1 26 ||| ENCODE i4 4 16 ||| ENCODE i3 3 12 ||| ENCODE rd 4 8
      ||| ENCODE i8 8 0) 16 19 = bits skel 16 19 ||| i4 % 2 ^ 4 ∧
    bits (skel ||| ENCODE i1 1 26 ||| ENCODE i4 4 16 ||| ENCODE i3 3 12 ||| ENCODE rd 4 8
      ||| ENCODE i8 8 0) 12 14 = bits skel 12 14 ||| i3 % 2 ^ 3 ∧
    bits (skel ||| ENCODE i1 1 26 ||| ENCODE i4 4 16 ||| ENCODE i3 3 12 ||| ENCODE rd 4 8
      ||| ENCODE i8 8 0) 8 11 = bits skel 8 11 ||| rd % 2 ^ 4 ∧
    bits (skel ||| ENCODE i1 1 26 ||| ENCODE i4 4 16 ||| ENCODE i3 3 12 ||| ENCODE rd 4 8
      ||| ENCODE i8 8 0) 0 7 = bits skel 0 7 ||| i8 % 2 ^ 8 := by
  refine ⟨?_, ?_, ?_, ?_, ?_⟩
  · rewrite [bit_or, bit_or, bit_or, bit_or, bit_or, bit_ENCODE_same,
      bit_ENCODE_low i4 4 16 26 (by omega), bit_ENCODE_low i3 3 12 26 (by omega),
      bit_ENCODE_low rd 4 8 26 (by omega), bit_ENCODE_low i8 8 0 26 (by omega)]
    simp only [Nat.zero_or, Nat.or_zero]
  · rewrite [bits_or, bits_or, bits_or, bits_or, bits_or,
      bits_ENCODE_high i1 1 26 16 19 (by omega) (by omega),
      bits_ENCODE_same i4 4 16 19 (by omega) (by omega),
      bits_ENCODE_low i3 3 12 16 19 (by omega), bits_ENCODE_low rd 4 8 16 19 (by omega),
      bits_ENCODE_low i8 8 0 16 19 (by omega)]
    simp only [Nat.zero_or, Nat.or_zero]
  · rewrite [bits_or, bits_or, bits_or, bits_or, bits_or,
      bits_ENCODE_high i1 1 26 12 14 (by omega) (by omega),
      bits_ENCODE_high i4 4 16 12 14 (by omega) (by omega),
      bits_ENCODE_same i3 3 12 14 (by omega) (by omega),
      bits_ENCODE_low rd 4 8 12 14 (by omega), bits_ENCODE_low i8 8 0 12 14 (by omega)]
    simp only [Nat.zero_or, Nat.or_zero]
  · rewrite [bits_or, bits_or, bits_or, bits_or, bits_or,
      bits_ENCODE_high i1 1 26 8 11 (by omega) (by omega),
      bits_ENCODE_high i4 4 16 8 11 (by omega) (by omega),
      bits_ENCODE_high i3 3 12 8 11 (by omega) (by omega),
      bits_ENCODE_same rd 4 8 11 (by omega) (by omega),
      bits_ENCODE_low i8 8 0 8 11 (by omega)]
    simp only [Nat.zero_or, Nat.or_zero]
  · rewrite [bits_or, bits_or, bits_or, bits_or, bits_or,
      bits_ENCODE_high i1 1 26 0 7 (by omega) (by omega),
      bits_ENCODE_high i4 4 16 0 7 (by omega) (by omega),
      bits_ENCODE_high i3 3 12 0 7 (by omega) (by omega),
      bits_ENCODE_high rd 4 8 0 7 (by omega) (by omega),
      bits_ENCODE_same i8 8 0 7 (by omega) (by omega)]
    simp only [Nat.zero_or, Nat.or_zero]

/-- The two instruction words `arm_emit_thumb_mov_32` writes, each joined from
its two half-words. -/
theorem arm_emit_thumb_mov_32_words (k : Opcodes) (m : CodeBuf) (p : Nat) (reg : Int)
    (val : Nat) :
    ((arm_emit_thumb_mov_32 k m p reg val).2 p) <<< 16
        ||| (arm_emit_thumb_mov_32 k m p reg val).2 (p + 1)
      = (k.THUMB_MOVW
          ||| ENCODE (bit ((bits (val % 2 ^ 32) 0 15 % 2 ^ 16) % 2 ^ 32) 11) 1 26
          ||| ENCODE (bits ((bits (val % 2 ^ 32) 0 15 % 2 ^ 16) % 2 ^ 32) 12 15) 4 16
          ||| ENCODE (bits ((bits (val % 2 ^ 32) 0 15 % 2 ^ 16) % 2 ^ 32) 8 10) 3 12
          ||| ENCODE (reg % 2 ^ 8).toNat 4 8
          ||| ENCODE (bits ((bits (val % 2 ^ 32) 0 15 % 2 ^ 16) % 2 ^ 32) 0 7) 8 0) % 2 ^ 32 ∧
    ((arm_emit_thumb_mov_32 k m p reg val).2 (p + 2)) <<< 16
        ||| (arm_emit_thumb_mov_32 k m p reg val).2 (p + 3)
      = (k.THUMB_MOVT
          ||| ENCODE (bit ((bits (val % 2 ^ 32) 16 31 % 2 ^ 16) % 2 ^ 32) 11) 1 26
          ||| ENCODE (bits ((bits (val % 2 ^ 32) 16 31 % 2 ^ 16) % 2 ^ 32) 12 15) 4 16
          ||| ENCODE (bits ((bits (val % 2 ^ 32) 16 31 % 2 ^ 16) % 2 ^ 32) 8 10) 3 12
          ||| ENCODE (reg % 2 ^ 8).toNat 4 8
          ||| ENCODE (bits ((bits (val % 2 ^ 32) 16 31 % 2 ^ 16) % 2 ^ 32) 0 7) 8 0) % 2 ^ 32 := by
  constructor
  · refine Eq.trans ?_ (arm_emit_thumb_w_insn_join m p _)
    show (store (store (store (store m p _) (p + 1) _) (p + 2) _) (p + 2 + 1) _ p) <<< 16
      ||| store (store (store (store m p _) (p + 1) _) (p + 2) _) (p + 2 + 1) _ (p + 1) = _
    rewrite [store_other _ _ _ p (by omega), store_other _ _ _ p (by omega),
      store_other _ _ _ (p + 1) (by omega), store_other _ _ _ (p + 1) (by omega)]
    rfl
  · refine Eq.trans ?_ (arm_emit_thumb_w_insn_join
      (arm_emit_thumb_movw k m p (reg % 2 ^ 8).toNat
        (immediate_operand (bits (val % 2 ^ 32) 0 15 % 2 ^ 16))).2 (p + 2) _)
    rfl

/-- Reassembling the two 16-bit immediates of a Thumb `MOVW` / `MOVT` pair. -/
theorem thumb_mov_32_arith (val : Nat) (h : val < 2 ^ 32) :
    ((bits ((bits (val % 2 ^ 32) 16 31 % 2 ^ 16) % 2 ^ 32) 12 15 % 2 ^ 4) <<< 12
        ||| (bit ((bits (val % 2 ^ 32) 16 31 % 2 ^ 16) % 2 ^ 32) 11 % 2) <<< 11
        ||| (bits ((bits (val % 2 ^ 32) 16 31 % 2 ^ 16) % 2 ^ 32) 8 10 % 2 ^ 3) <<< 8
        ||| bits ((bits (val % 2 ^ 32) 16 31 % 2 ^ 16) % 2 ^ 32) 0 7 % 2 ^ 8) <<< 16
      ||| ((bits ((bits (val % 2 ^ 32) 0 15 % 2 ^ 16) % 2 ^ 32) 12 15 % 2 ^ 4) <<< 12
        ||| (bit ((bits (val % 2 ^ 32) 0 15 % 2 ^ 16) % 2 ^ 32) 11 % 2) <<< 11
        ||| (bits ((bits (val % 2 ^ 32) 0 15 % 2 ^ 16) % 2 ^ 32) 8 10 % 2 ^ 3) <<< 8
        ||| bits ((bits (val % 2 ^ 32) 0 15 % 2 ^ 16) % 2 ^ 32) 0 7 % 2 ^ 8) = val := by
  rewrite [thumb_imm16_join_mod, thumb_imm16_join_mod]
  have hlo : bits ((bits (val % 2 ^ 32) 0 15 % 2 ^ 16) % 2 ^ 32) 12 15 % 2 ^ 4 * 4096
      + bit ((bits (val % 2 ^ 32) 0 15 % 2 ^ 16) % 2 ^ 32) 11 % 2 * 2048
      + bits ((bits (val % 2 ^ 32) 0 15 % 2 ^ 16) % 2 ^ 32) 8 10 % 2 ^ 3 * 256
      + bits ((bits (val % 2 ^ 32) 0 15 % 2 ^ 16) % 2 ^ 32) 0 7 % 2 ^ 8 = val % 2 ^ 16 := by
    simp only [bits_eq_div_mod, bit_eq_div_mod]
    omega
  have hhi : bits ((bits (val % 2 ^ 32) 16 31 % 2 ^ 16) % 2 ^ 32) 12 15 % 2 ^ 4 * 4096
      + bit ((bits (val % 2 ^ 32) 16 31 % 2 ^ 16) % 2 ^ 32) 11 % 2 * 2048
      + bits ((bits (val % 2 ^ 32) 16 31 % 2 ^ 16) % 2 ^ 32) 8 10 % 2 ^ 3 * 256
      + bits ((bits (val % 2 ^ 32) 16 31 % 2 ^ 16) % 2 ^ 32) 0 7 % 2 ^ 8 = val / 2 ^ 16 := by
    simp only [bits_eq_div_mod, bit_eq_div_mod]
    omega
  rewrite [hlo, hhi, shl_or_eq_add _ _ 16 (Nat.mod_lt _ (by norm_num))]
  omega

/-- The bits of the accumulator of the `repeat_bit` loop after `n` rounds. -/
theorem repeat_bit_loop_testBit (B F : Nat) (hB : B < 2) (n i : Nat) :
    ((List.range n).foldl (fun value j => (value ||| ENCODE B 1 (F + j)) % 2 ^ 16) 0).testBit i
        = true ↔ (i < 16 ∧ F ≤ i ∧ i < F + n ∧ B = 1) := by
  induction n with
  | zero =>
    simp only [List.range_zero, List.foldl_nil, Nat.zero_testBit, Nat.add_zero]
    constructor
    · intro h
      exact absurd h (by decide)
    · intro h
      omega
  | succ n ih =>
    rewrite [List.range_succ, List.foldl_append, List.foldl_cons, List.foldl_nil,
      Nat.testBit_mod_two_pow, Nat.testBit_or, testBit_ENCODE]
    simp only [Bool.and_eq_true, Bool.or_eq_true, decide_eq_true_eq, ih]
    have hB' : B = 0 ∨ B = 1 := by omega
    rcases hB' with rfl | rfl
    · simp only [Nat.zero_testBit]
      constructor
      · rintro ⟨-, h | h⟩
        · omega
        · exact absurd h.2.2 (by decide)
      · intro h
        omega
    · simp only [Nat.testBit_one_eq_true_iff_self_eq_zero]
      constructor
      · rintro ⟨h16, h | h⟩
        · exact ⟨h16, h.2.1, by omega, trivial⟩
        · exact ⟨h16, by omega, by omega, trivial⟩
      · intro h
        by_cases hlast : i = F + n
        · exact ⟨h.1, Or.inr ⟨by omega, by omega, by omega⟩⟩
        · exact ⟨h.1, Or.inl ⟨h.1, h.2.1, by omega, trivial⟩⟩

theorem and_one_lt_two (v : Nat) : v &&& 1 < 2 := by
  rewrite [Nat.and_one_is_mod]
  omega

theorem low_bit_of_u8 (b : Nat) : b % 2 ^ 8 &&& 1 = b &&& 1 := by
  rewrite [Nat.and_one_is_mod, Nat.and_one_is_mod]
  omega

theorem bit_eq_one_iff_testBit (v i : Nat) : bit v i = 1 ↔ v.testBit i = true := by
  rewrite [bit_eq_div_mod, Nat.testBit_to_div_mod, decide_eq_true_eq]
  rfl

/-- Which bits of `repeat_bit`'s result are set. -/
theorem repeat_bit_testBit (b frm length i : Nat) :
    (repeat_bit b frm length).testBit i = true ↔
      (i < 16 ∧ frm % 2 ^ 8 ≤ i ∧ i < frm % 2 ^ 8 + length % 2 ^ 8 ∧ b &&& 1 = 1) := by
  unfold repeat_bit
  rewrite [low_bit_of_u8]
  exact repeat_bit_loop_testBit (b &&& 1) (frm % 2 ^ 8) (and_one_lt_two b) (length % 2 ^ 8) i

theorem repeat_bit_lt (b frm length : Nat) : repeat_bit b frm length < 2 ^ 16 := by
  apply Nat.lt_pow_two_of_testBit
  intro i hi
  cases h : (repeat_bit b frm length).testBit i with
  | false => rfl
  | true =>
    have := (repeat_bit_testBit b frm length i).1 h
    omega

theorem repeat_bit_one_eq (frm length : Nat) (h : frm + length ≤ 16) :
    repeat_bit 1 frm length = (2 ^ length - 1) <<< frm := by
  apply Nat.eq_of_testBit_eq
  intro i
  rewrite [Bool.eq_iff_iff, repeat_bit_testBit, Nat.testBit_shiftLeft,
    Nat.testBit_two_pow_sub_one]
  simp only [Bool.and_eq_true, decide_eq_true_eq]
  have h1 : frm % 2 ^ 8 = frm := Nat.mod_eq_of_lt (by omega)
  have h2 : length % 2 ^ 8 = length := Nat.mod_eq_of_lt (by omega)
  rewrite [h1, h2]
  constructor
  · intro hh
    omega
  · intro hh
    exact ⟨by omega, by omega, by omega, rfl⟩

theorem and_mask_idem (v mask : Nat) (h : v < 2 ^ 32) :
    ((v &&& mask) % 2 ^ 32) &&& mask = (v % 2 ^ 32) &&& mask := by
  rewrite [Nat.mod_eq_of_lt (lt_of_le_of_lt Nat.and_le_left h), Nat.mod_eq_of_lt h,
    Nat.and_assoc, Nat.and_self]
  rfl

theorem ENCODE_mod (v w off : Nat) : ENCODE (v % 2 ^ w) w off = ENCODE v w off := by
  unfold ENCODE
  rewrite [Nat.and_pow_two_sub_one_eq_mod, Nat.and_pow_two_sub_one_eq_mod, Nat.mod_mod]
  rfl

theorem testBit_ENCODE_of_lt (v w off i : Nat) (h : i < off) :
    (ENCODE v w off).testBit i = false := by
  rewrite [testBit_ENCODE]
  have : ¬ off ≤ i := by omega
  simp [this]

theorem testBit_ENCODE_of_ge (v w off i : Nat) (h : off + w ≤ i) :
    (ENCODE v w off).testBit i = false := by
  rewrite [testBit_ENCODE]
  have : ¬ i - off < w := by omega
  simp [this]

theorem testBit_of_bit_eq_zero (v n : Nat) (h : bit v n = 0) : v.testBit n = false := by
  cases hb : v.testBit n with
  | false => rfl
  | true =>
    have := (bit_eq_one_iff_testBit v n).2 hb
    omega

theorem ENCODE_of_lt (v w off : Nat) (h : v < 2 ^ w) : ENCODE v w off = v <<< off := by
  unfold ENCODE
  rewrite [Nat.and_pow_two_sub_one_eq_mod, Nat.mod_eq_of_lt h]
  rfl

theorem ABS_toNat (d : Int) : (ABS d).toNat = d.natAbs := by
  unfold ABS
  split_ifs <;> omega

/-- The word `arm_emit_arm_str` composes for an offset-mode memory operand, and
its bound. -/
theorem arm_str_word_lt (skel c u rn rt a : Nat) (hk : skel < 2 ^ 32) :
    (skel ||| ENCODE c 4 28 ||| ENCODE 1 1 24 ||| ENCODE u 1 23 ||| ENCODE rn 4 16
      ||| ENCODE rt 4 12 ||| ENCODE a 12 0) % 2 ^ 32
      = skel ||| ENCODE c 4 28 ||| ENCODE 1 1 24 ||| ENCODE u 1 23 ||| ENCODE rn 4 16
        ||| ENCODE rt 4 12 ||| ENCODE a 12 0 :=
  Nat.mod_eq_of_lt (Nat.or_lt_two_pow (Nat.or_lt_two_pow (Nat.or_lt_two_pow (Nat.or_lt_two_pow
    (Nat.or_lt_two_pow (Nat.or_lt_two_pow hk (ENCODE_lt_32 c 4 28 (by omega)))
    (ENCODE_lt_32 1 1 24 (by omega))) (ENCODE_lt_32 u 1 23 (by omega)))
    (ENCODE_lt_32 rn 4 16 (by omega))) (ENCODE_lt_32 rt 4 12 (by omega)))
    (ENCODE_lt_32 a 12 0 (by omega)))

/-- Two words of `arm_emit_arm_str` that differ only in the U operand differ in
exactly bit 23, the skeleton being clear there. -/
theorem arm_str_word_xor (skel c rn rt a : Nat) (h23 : bit skel 23 = 0) :
    (skel ||| ENCODE c 4 28 ||| ENCODE 1 1 24 ||| ENCODE 1 1 23 ||| ENCODE rn 4 16
      ||| ENCODE rt 4 12 ||| ENCODE a 12 0)
      ^^^ (skel ||| ENCODE c 4 28 ||| ENCODE 1 1 24 ||| ENCODE 0 1 23 ||| ENCODE rn 4 16
        ||| ENCODE rt 4 12 ||| ENCODE a 12 0) = 1 <<< 23 := by
  have e1 : ENCODE 1 1 23 = 2 ^ 23 := by decide
  have e0 : ENCODE 0 1 23 = 0 := by decide
  have e2 : 1 <<< 23 = 2 ^ 23 := by decide
  rewrite [e1, e0, e2]
  apply Nat.eq_of_testBit_eq
  intro i
  simp only [Nat.testBit_xor, Nat.testBit_or, Nat.zero_testBit, Bool.or_false]
  by_cases hi : i = 23
  · subst hi
    rewrite [testBit_of_bit_eq_zero skel 23 h23, testBit_ENCODE_of_lt c 4 28 23 (by omega),
      testBit_ENCODE_of_lt 1 1 24 23 (by omega), testBit_ENCODE_of_ge rn 4 16 23 (by omega),
      testBit_ENCODE_of_ge rt 4 12 23 (by omega), testBit_ENCODE_of_ge a 12 0 23 (by omega),
      Nat.testBit_two_pow_self]
    rfl
  · rewrite [Nat.testBit_two_pow_of_ne (Ne.symm hi)]
    simp only [Bool.or_false, bne_self_eq_false]

/-- The fields of the half-word `arm_emit_thumb_str` composes. -/
theorem thumb_str_fields (skel imm rn rt : Nat) :
    bits (skel ||| ENCODE imm 5 6 ||| ENCODE rn 3 3 ||| ENCODE rt 3 0) 6 10
      = bits skel 6 10 ||| imm % 2 ^ 5 ∧
    bits (skel ||| ENCODE imm 5 6 ||| ENCODE rn 3 3 ||| ENCODE rt 3 0) 3 5
      = bits skel 3 5 ||| rn % 2 ^ 3 ∧
    bits (skel ||| ENCODE imm 5 6 ||| ENCODE rn 3 3 ||| ENCODE rt 3 0) 0 2
      = bits skel 0 2 ||| rt % 2 ^ 3 := by
  refine ⟨?_, ?_, ?_⟩ <;>
    simp (disch := omega) only [bits_or, bits_ENCODE_same, bits_ENCODE_low, bits_ENCODE_high,
      Nat.zero_or, Nat.or_zero]

theorem arm_emit_thumb_str_eq (k : Opcodes) (m : CodeBuf) (buf rt rn imm : Nat) :
    arm_emit_thumb_str k m buf rt rn (.Immediate imm)
      = (1, store m buf ((k.THUMB_STR ||| ENCODE imm 5 6 ||| ENCODE rn 3 3 ||| ENCODE rt 3 0)
          % 2 ^ 16)) :=
  rfl

theorem ENCODE_lt_16 (v w off : Nat) (h : w + off ≤ 16) : ENCODE v w off < 2 ^ 16 :=
  lt_of_lt_of_le (ENCODE_lt v w off) (Nat.pow_le_pow_right (by norm_num) h)

theorem bits_zero_three (v : Nat) : ENCODE (bits v 0 3) 4 12 = (v &&& 0xF) <<< 12 := by
  unfold ENCODE bits
  rewrite [Nat.shiftRight_zero, Nat.and_assoc, Nat.and_self]
  rfl

theorem ENCODE_bit (v n off : Nat) : ENCODE (bit v n) 1 off = (bit v n) <<< off :=
  ENCODE_of_lt (bit v n) 1 off (bit_lt_two v n)

theorem ENCODE_double_len (len : Nat) : ENCODE (2 * (len % 2 ^ 8)) 8 0 = (2 * len) % 256 := by
  unfold ENCODE
  rewrite [Nat.and_pow_two_sub_one_eq_mod, Nat.shiftLeft_zero]
  omega

/-- The word the ARM `VPUSH` / `VPOP` emitters compose from the skeleton
`skel`. -/
theorem arm_vpush_word (skel c rs len : Nat) (hk : skel < 2 ^ 32) (hc : c < 16) :
    (skel ||| ENCODE c 4 28 ||| ENCODE (bit rs 4) 1 22 ||| ENCODE (bits rs 0 3) 4 12
      ||| ENCODE (2 * (len % 2 ^ 8)) 8 0) % 2 ^ 32
      = skel ||| c <<< 28 ||| (bit rs 4) <<< 22 ||| (rs &&& 0xF) <<< 12 ||| (2 * len) % 256 := by
  rewrite [Nat.mod_eq_of_lt (Nat.or_lt_two_pow (Nat.or_lt_two_pow (Nat.or_lt_two_pow
    (Nat.or_lt_two_pow hk (ENCODE_lt_32 c 4 28 (by omega))) (ENCODE_lt_32 _ 1 22 (by omega)))
    (ENCODE_lt_32 _ 4 12 (by omega))) (ENCODE_lt_32 _ 8 0 (by omega))),
    ENCODE_of_lt c 4 28 hc, ENCODE_bit, bits_zero_three, ENCODE_double_len]
  rfl

/-- The instruction word the Thumb `VPUSH` / `VPOP` emitters compose from the
skeleton `skel`. -/
theorem thumb_vpush_word (skel rs len : Nat) (hk : skel < 2 ^ 32) :
    (skel ||| ENCODE (bit rs 4) 1 22 ||| ENCODE (bits rs 0 3) 4 12
      ||| ENCODE (2 * (len % 2 ^ 8)) 8 0) % 2 ^ 32
      = skel ||| (bit rs 4) <<< 22 ||| (rs &&& 0xF) <<< 12 ||| (2 * len) % 256 := by
  rewrite [Nat.mod_eq_of_lt (Nat.or_lt_two_pow (Nat.or_lt_two_pow
    (Nat.or_lt_two_pow hk (ENCODE_lt_32 _ 1 22 (by omega)))
    (ENCODE_lt_32 _ 4 12 (by omega))) (ENCODE_lt_32 _ 8 0 (by omega))),
    ENCODE_bit, bits_zero_three, ENCODE_double_len]
  rfl

/-- The low byte of the word the `VPUSH` / `VPOP` emitters compose. -/
theorem vpush_low_byte (skel c rs len : Nat) (hs : bits skel 0 7 = 0) (hl : len ≤ 127) :
    bits (skel ||| ENCODE c 4 28 ||| ENCODE (bit rs 4) 1 22 ||| ENCODE (bits rs 0 3) 4 12
      ||| ENCODE (2 * (len % 2 ^ 8)) 8 0) 0 7 = 2 * len ∧
    bits (skel ||| ENCODE (bit rs 4) 1 22 ||| ENCODE (bits rs 0 3) 4 12
      ||| ENCODE (2 * (len % 2 ^ 8)) 8 0) 0 7 = 2 * len := by
  constructor <;>
    · simp (disch := omega) only [bits_or, bits_ENCODE_same, bits_ENCODE_low,
        bits_ENCODE_high, Nat.zero_or, Nat.or_zero, hs]
      omega

theorem encode_register_list_or (frm n extra : Nat) (he : extra < 2 ^ 16) :
    encode_register_list frm n extra = repeat_bit 1 frm n ||| extra := by
  unfold encode_register_list
  rewrite [Nat.mod_eq_of_lt he]
  exact Nat.mod_eq_of_lt (Nat.or_lt_two_pow (repeat_bit_lt 1 frm n) he)

theorem encode_register_list_lt (frm n extra : Nat) : encode_register_list frm n extra < 2 ^ 16 :=
  Nat.mod_lt _ (by norm_num)

theorem bit_eq_toNat (v n : Nat) : bit v n = (v.testBit n).toNat := by
  rewrite [bit_eq_div_mod, Nat.toNat_testBit]
  rfl

theorem bits_zero_bit_zero (v lo hi r : Nat) (h : bits v lo hi = 0) (h1 : lo ≤ r) (h2 : r ≤ hi) :
    bit v r = 0 := by
  rewrite [bits_eq_field] at h
  have hf := field_field v lo (hi - lo + 1) (r - lo) 1 (by omega)
  rewrite [h, show lo + (r - lo) = r by omega] at hf
  rewrite [bit_eq_field, ← hf]
  unfold field
  simp

/-- The word the ARM list-form `PUSH` / `POP` emitters compose from the
skeleton `skel`, and its low 16 bits. -/
theorem arm_push_list_word (skel c list : Nat) (hk : skel < 2 ^ 32) :
    (skel ||| ENCODE c 4 28 ||| ENCODE list 16 0) % 2 ^ 32
        = skel ||| ENCODE c 4 28 ||| ENCODE list 16 0 ∧
    (c < 16 → list < 2 ^ 16 →
      skel ||| ENCODE c 4 28 ||| ENCODE list 16 0 = skel ||| c <<< 28 ||| list) ∧
    (bits skel 0 15 = 0 → ∀ r, r < 16 →
      bit (skel ||| ENCODE c 4 28 ||| ENCODE list 16 0) r = bit list r) := by
  refine ⟨?_, ?_, ?_⟩
  · exact Nat.mod_eq_of_lt (Nat.or_lt_two_pow (Nat.or_lt_two_pow hk
      (ENCODE_lt_32 c 4 28 (by omega))) (ENCODE_lt_32 list 16 0 (by omega)))
  · intro hc hl
    rewrite [ENCODE_of_lt c 4 28 hc, ENCODE_of_lt list 16 0 hl]
    rfl
  · intro hs r hr
    rewrite [bit_or, bit_or, bits_zero_bit_zero skel 0 15 r hs (by omega) (by omega),
      bit_ENCODE_high c 4 28 r (by omega), Nat.zero_or, Nat.zero_or, bit_eq_toNat, bit_eq_toNat,
      testBit_ENCODE]
    simp [hr]

theorem bit_zero_eq (v : Nat) : bit v 0 = v &&& 1 := by
  unfold bit
  rewrite [Nat.shiftRight_zero]
  rfl

theorem ENCODE_zero_off (v w : Nat) : ENCODE v w 0 = v &&& (2 ^ w - 1) := by
  unfold ENCODE
  rewrite [Nat.shiftLeft_zero]
  rfl

theorem ENCODE_congr (v v2 w off : Nat) (h : v2 &&& (2 ^ w - 1) = v &&& (2 ^ w - 1)) :
    ENCODE v2 w off = ENCODE v w off := by
  unfold ENCODE
  rewrite [h]
  rfl

theorem ENCODE_bits_zero_two (v : Nat) : ENCODE (bits v 0 2) 3 0 = v &&& 7 := by
  unfold ENCODE bits
  rewrite [Nat.shiftRight_zero, Nat.shiftLeft_zero, Nat.and_assoc, Nat.and_self]
  rfl

/-- The fields of the half-word `arm_emit_thumb_mov` composes. -/
theorem thumb_mov_fields (skel rd rm : Nat) :
    bit (skel ||| ENCODE (bit rd 3) 1 7 ||| ENCODE (bits rd 0 2) 3 0 ||| ENCODE rm 4 3) 7
      = bit skel 7 ||| bit rd 3 % 2 ∧
    bits (skel ||| ENCODE (bit rd 3) 1 7 ||| ENCODE (bits rd 0 2) 3 0 ||| ENCODE rm 4 3) 3 6
      = bits skel 3 6 ||| rm % 2 ^ 4 ∧
    bits (skel ||| ENCODE (bit rd 3) 1 7 ||| ENCODE (bits rd 0 2) 3 0 ||| ENCODE rm 4 3) 0 2
      = bits skel 0 2 ||| bits rd 0 2 % 2 ^ 3 := by
  refine ⟨?_, ?_, ?_⟩ <;>
    simp (disch := omega) only [bits_or, bit_or, bits_ENCODE_same, bits_ENCODE_low,
      bits_ENCODE_high, bit_ENCODE_same, bit_ENCODE_low, bit_ENCODE_high, Nat.zero_or,
      Nat.or_zero]

/-- The half-word `arm_emit_thumb_mov` writes for a register operand, and how
the two register numbers are read back from it. -/
theorem thumb_mov_halfword (k : Opcodes) (m : CodeBuf) (buf rd rm : Nat)
    (hclear : bit k.THUMB_MOV 7 = 0 ∧ bits k.THUMB_MOV 3 6 = 0 ∧ bits k.THUMB_MOV 0 2 = 0)
    (hrd : rd < 16) (hrm : rm < 16) :
    bit ((arm_emit_thumb_mov k m buf rd (.Register rm)).2 buf) 7 * 8
      + bits ((arm_emit_thumb_mov k m buf rd (.Register rm)).2 buf) 0 2 = rd ∧
    bits ((arm_emit_thumb_mov k m buf rd (.Register rm)).2 buf) 3 6 = rm := by
  obtain ⟨f7, f3, f0⟩ := thumb_mov_fields k.THUMB_MOV rd rm
  rewrite [hclear.1, Nat.zero_or] at f7
  rewrite [hclear.2.1, Nat.zero_or, Nat.mod_eq_of_lt (show rm < 2 ^ 4 from hrm)] at f3
  rewrite [hclear.2.2, Nat.zero_or] at f0
  show bit (store m buf _ buf) 7 * 8 + bits (store m buf _ buf) 0 2 = rd ∧
    bits (store m buf _ buf) 3 6 = rm
  rewrite [store_same]
  generalize k.THUMB_MOV ||| _ ||| _ ||| _ = w at f7 f3 f0
  rewrite [bit_mod w 16 7 (by omega), bits_mod w 16 0 2 (by omega) (by omega),
    bits_mod w 16 3 6 (by omega) (by omega), f7, f3, f0, bit_eq_div_mod, bits_eq_div_mod]
  exact ⟨by omega, rfl⟩

/-- The fields of the instruction word `arm_emit_thumb_cmpw` composes. -/
theorem thumb_cmpw_fields (skel rn i1 i3 i8 : Nat) :
    bit (skel ||| ENCODE rn 4 16 ||| ENCODE i1 1 26 ||| ENCODE i3 3 12 ||| ENCODE i8 8 0) 26
      = bit skel 26 ||| i1 % 2 ∧
    bits (skel ||| ENCODE rn 4 16 ||| ENCODE i1 1 26 ||| ENCODE i3 3 12 ||| ENCODE i8 8 0) 16 19
      = bits skel 16 19 ||| rn % 2 ^ 4 ∧
    bits (skel ||| ENCODE rn 4 16 ||| ENCODE i1 1 26 ||| ENCODE i3 3 12 ||| ENCODE i8 8 0) 12 14
      = bits skel 12 14 ||| i3 % 2 ^ 3 ∧
    bits (skel ||| ENCODE rn 4 16 ||| ENCODE i1 1 26 ||| ENCODE i3 3 12 ||| ENCODE i8 8 0) 0 7
      = bits skel 0 7 ||| i8 % 2 ^ 8 := by
  refine ⟨?_, ?_, ?_, ?_⟩ <;>
    simp (disch := omega) only [bits_or, bit_or, bits_ENCODE_same, bits_ENCODE_low,
      bits_ENCODE_high, bit_ENCODE_same, bit_ENCODE_low, bit_ENCODE_high, Nat.zero_or,
      Nat.or_zero]

/-- The fields of the instruction word `arm_emit_thumb_bic` composes. -/
theorem thumb_bic_fields (skel rn rd i1 i3 i8 : Nat) :
    bit (skel ||| ENCODE i1 1 26 ||| ENCODE rn 4 16 ||| ENCODE rd 4 8 ||| ENCODE i3 3 12
      ||| ENCODE i8 8 0) 26 = bit skel 26 ||| i1 % 2 ∧
    bits (skel ||| ENCODE i1 1 26 ||| ENCODE rn 4 16 ||| ENCODE rd 4 8 ||| ENCODE i3 3 12
      ||| ENCODE i8 8 0) 16 19 = bits skel 16 19 ||| rn % 2 ^ 4 ∧
    bits (skel ||| ENCODE i1 1 26 ||| ENCODE rn 4 16 ||| ENCODE rd 4 8 ||| ENCODE i3 3 12
      ||| ENCODE i8 8 0) 12 14 = bits skel 12 14 ||| i3 % 2 ^ 3 ∧
    bits (skel ||| ENCODE i1 1 26 ||| ENCODE rn 4 16 ||| ENCODE rd 4 8 ||| ENCODE i3 3 12
      ||| ENCODE i8 8 0) 8 11 = bits skel 8 11 ||| rd % 2 ^ 4 ∧
    bits (skel ||| ENCODE i1 1 26 ||| ENCODE rn 4 16 ||| ENCODE rd 4 8 ||| ENCODE i3 3 12
      ||| ENCODE i8 8 0) 0 7 = bits skel 0 7 ||| i8 % 2 ^ 8 := by
  refine ⟨?_, ?_, ?_, ?_, ?_⟩ <;>
    simp (disch := omega) only [bits_or, bit_or, bits_ENCODE_same, bits_ENCODE_low,
      bits_ENCODE_high, bit_ENCODE_same, bit_ENCODE_low, bit_ENCODE_high, Nat.zero_or,
      Nat.or_zero]

/-- Reassembling the 12-bit immediate from the three split fields. -/
theorem split_imm12_join (imm : Nat) :
    (bit imm 11 % 2) <<< 11 ||| (bits imm 8 10 % 2 ^ 3) <<< 8 ||| bits imm 0 7 % 2 ^ 8
      = imm &&& 0xFFF := by
  rewrite [Nat.or_assoc, shl_or_eq_add _ _ 8 (Nat.mod_lt _ (by norm_num)),
    shl_or_eq_add _ _ 11 (by
      have h1 : bits imm 8 10 % 2 ^ 3 < 8 := Nat.mod_lt _ (by norm_num)
      have h2 : bits imm 0 7 % 2 ^ 8 < 256 := Nat.mod_lt _ (by norm_num)
      omega),
    show imm &&& 0xFFF = imm % 2 ^ 12 from Nat.and_pow_two_sub_one_eq_mod imm 12,
    bit_eq_div_mod, bits_eq_div_mod, bits_eq_div_mod]
  omega

theorem or_three (v : Nat) (h : v < 4) : v ||| 3 = 3 := by
  interval_cases v <;> rfl

/-- The mask field of the words the `MSR` emitters compose. -/
theorem msr_mask_fields (skel c rn : Nat) :
    bits (skel ||| ENCODE c 4 28 ||| ENCODE 3 2 18 ||| ENCODE rn 4 0) 18 19 = 3 ∧
    bits (skel ||| ENCODE rn 4 16 ||| ENCODE 3 2 10) 10 11 = 3 := by
  have h18 : bits skel 18 19 < 4 := bits_lt skel 18 19
  have h10 : bits skel 10 11 < 4 := bits_lt skel 10 11
  constructor
  · simp (disch := omega) only [bits_or, bits_ENCODE_same, bits_ENCODE_low, bits_ENCODE_high,
      Nat.zero_or, Nat.or_zero]
    exact or_three _ h18
  · simp (disch := omega) only [bits_or, bits_ENCODE_same, bits_ENCODE_low, bits_ENCODE_high,
      Nat.zero_or, Nat.or_zero]
    exact or_three _ h10

/-- The link bit, the exchange bit and the low offset field of the
instruction word `arm_emit_thumb_branch` composes for an immediate operand. -/
theorem thumb_branch_flag_fields (skel s imm10 l j1 e j2 imm11 : Nat) :
    bit (skel ||| ENCODE s 1 26 ||| ENCODE imm10 10 16 ||| ENCODE l 1 14 ||| ENCODE j1 1 13
      ||| ENCODE e 1 12 ||| ENCODE j2 1 11 ||| ENCODE imm11 11 0) 14 = bit skel 14 ||| l % 2 ∧
    bit (skel ||| ENCODE s 1 26 ||| ENCODE imm10 10 16 ||| ENCODE l 1 14 ||| ENCODE j1 1 13
      ||| ENCODE e 1 12 ||| ENCODE j2 1 11 ||| ENCODE imm11 11 0) 12 = bit skel 12 ||| e % 2 ∧
    bits (skel ||| ENCODE s 1 26 ||| ENCODE imm10 10 16 ||| ENCODE l 1 14 ||| ENCODE j1 1 13
      ||| ENCODE e 1 12 ||| ENCODE j2 1 11 ||| ENCODE imm11 11 0) 0 10
      = bits skel 0 10 ||| imm11 % 2 ^ 11 := by
  refine ⟨?_, ?_, ?_⟩ <;>
    simp (disch := omega) only [bits_or, bit_or, bits_ENCODE_same, bits_ENCODE_low,
      bits_ENCODE_high, bit_ENCODE_same, bit_ENCODE_low, bit_ENCODE_high, Nat.zero_or,
      Nat.or_zero]

/-- Bit 0 and bits [10:1] of a word, from its bits [10:0]. -/
theorem low_field_split (i b : Nat) (hb : b < 2 ^ 10) (h : bits i 0 10 = (b <<< 1) % 2 ^ 11) :
    bit i 0 = 0 ∧ bits i 1 10 = b := by
  rewrite [bits_eq_div_mod, Nat.shiftLeft_eq] at h
  rewrite [bit_eq_div_mod, bits_eq_div_mod]
  norm_num only at h hb ⊢
  omega

theorem xor_lnot_lt_two (v n b : Nat) : bit v n ^^^ lnot b < 2 := by
  unfold lnot
  rcases bit_cases v n with h | h <;> rewrite [h] <;> split_ifs <;> decide

/-- The sign bit and the link bit position of the instruction word
`arm_emit_thumb_bw_cond` composes. -/
theorem thumb_bw_cond_s_fields (skel s imm6 c j1 j2 imm11 : Nat) :
    bit (skel ||| ENCODE s 1 26 ||| ENCODE imm6 6 16 ||| ENCODE c 4 22 ||| ENCODE j1 1 13
      ||| ENCODE j2 1 11 ||| ENCODE imm11 11 0) 26 = bit skel 26 ||| s % 2 ∧
    bit (skel ||| ENCODE s 1 26 ||| ENCODE imm6 6 16 ||| ENCODE c 4 22 ||| ENCODE j1 1 13
      ||| ENCODE j2 1 11 ||| ENCODE imm11 11 0) 14 = bit skel 14 := by
  constructor <;>
    simp (disch := omega) only [bits_or, bit_or, bits_ENCODE_same, bits_ENCODE_low,
      bits_ENCODE_high, bit_ENCODE_same, bit_ENCODE_low, bit_ENCODE_high, Nat.zero_or,
      Nat.or_zero]

/-- The sign bit and the two completion bits of the instruction word
`arm_emit_thumb_branch` composes for an immediate operand. -/
theorem thumb_branch_sj_fields (skel s imm10 l j1 e j2 imm11 : Nat) :
    bit (skel ||| ENCODE s 1 26 ||| ENCODE imm10 10 16 ||| ENCODE l 1 14 ||| ENCODE j1 1 13
      ||| ENCODE e 1 12 ||| ENCODE j2 1 11 ||| ENCODE imm11 11 0) 26 = bit skel 26 ||| s % 2 ∧
    bit (skel ||| ENCODE s 1 26 ||| ENCODE imm10 10 16 ||| ENCODE l 1 14 ||| ENCODE j1 1 13
      ||| ENCODE e 1 12 ||| ENCODE j2 1 11 ||| ENCODE imm11 11 0) 13 = bit skel 13 ||| j1 % 2 ∧
    bit (skel ||| ENCODE s 1 26 ||| ENCODE imm10 10 16 ||| ENCODE l 1 14 ||| ENCODE j1 1 13
      ||| ENCODE e 1 12 ||| ENCODE j2 1 11 ||| ENCODE imm11 11 0) 11 = bit skel 11 ||| j2 % 2 := by
  refine ⟨?_, ?_, ?_⟩ <;>
    simp (disch := omega) only [bits_or, bit_or, bits_ENCODE_same, bits_ENCODE_low,
      bits_ENCODE_high, bit_ENCODE_same, bit_ENCODE_low, bit_ENCODE_high, Nat.zero_or,
      Nat.or_zero]

theorem or_swap_third (a b c d : Nat) : a ||| b ||| c ||| d = a ||| b ||| d ||| c := by
  rewrite [Nat.or_assoc (a ||| b) c d, Nat.or_comm c d, ← Nat.or_assoc]
  rfl

/-- The instruction word `arm_emit_thumb_bw_cond` composes, with the fields
written as shifts. -/
theorem thumb_bw_cond_word (skel c rel : Nat) (hk : skel < 2 ^ 32) :
    (skel ||| ENCODE (bit (rel % 2 ^ 32) 24) 1 26 ||| ENCODE (bits (rel % 2 ^ 32) 12 17) 6 16
      ||| ENCODE c 4 22
      ||| ENCODE (bit (rel % 2 ^ 32) 24 ^^^ lnot (bit (rel % 2 ^ 32) 23)) 1 13
      ||| ENCODE (bit (rel % 2 ^ 32) 24 ^^^ lnot (bit (rel % 2 ^ 32) 22)) 1 11
      ||| ENCODE (bits (rel % 2 ^ 32) 1 11) 11 0) % 2 ^ 32
      = skel ||| (bit rel 24) <<< 26 ||| (c &&& 0xF) <<< 22 ||| (bits rel 12 17) <<< 16
        ||| (bit rel 24 ^^^ lnot (bit rel 23)) <<< 13
        ||| (bit rel 24 ^^^ lnot (bit rel 22)) <<< 11 ||| bits rel 1 11 := by
  rewrite [Nat.mod_eq_of_lt (Nat.or_lt_two_pow (Nat.or_lt_two_pow (Nat.or_lt_two_pow
    (Nat.or_lt_two_pow (Nat.or_lt_two_pow (Nat.or_lt_two_pow hk
    (ENCODE_lt_32 _ 1 26 (by omega))) (ENCODE_lt_32 _ 6 16 (by omega)))
    (ENCODE_lt_32 _ 4 22 (by omega))) (ENCODE_lt_32 _ 1 13 (by omega)))
    (ENCODE_lt_32 _ 1 11 (by omega))) (ENCODE_lt_32 _ 11 0 (by omega))),
    bit_mod rel 32 24 (by omega), bit_mod rel 32 23 (by omega), bit_mod rel 32 22 (by omega),
    bits_mod rel 32 12 17 (by omega) (by omega), bits_mod rel 32 1 11 (by omega) (by omega),
    ENCODE_bit, ENCODE_of_lt _ 6 16 (bits_lt rel 12 17),
    ENCODE_of_lt _ 1 13 (xor_lnot_lt_two rel 24 _), ENCODE_of_lt _ 1 11 (xor_lnot_lt_two rel 24 _),
    ENCODE_of_lt _ 11 0 (bits_lt rel 1 11), Nat.shiftLeft_zero,
    show ENCODE c 4 22 = (c &&& 0xF) <<< 22 from rfl,
    or_swap_third skel _ ((bits rel 12 17) <<< 16) ((c &&& 0xF) <<< 22)]
  rfl

/-- The fields of the half-word `arm_emit_thumb_b` composes. -/
theorem thumb_b_fields (skel c v : Nat) :
    bits (skel ||| ENCODE c 4 8 ||| ENCODE v 8 0) 8 11 = bits skel 8 11 ||| c % 2 ^ 4 ∧
    bits (skel ||| ENCODE c 4 8 ||| ENCODE v 8 0) 0 7 = bits skel 0 7 ||| v % 2 ^ 8 := by
  constructor <;>
    simp (disch := omega) only [bits_or, bit_or, bits_ENCODE_same, bits_ENCODE_low,
      bits_ENCODE_high, bit_ENCODE_same, bit_ENCODE_low, bit_ENCODE_high, Nat.zero_or,
      Nat.or_zero]

/-- The offset field of `arm_emit_thumb_b`: the conversion of `rel` to
`uint32_t` does not reach the eight bits that are kept. -/
theorem thumb_b_offset_field (rel : Nat) :
    ENCODE ((rel % 2 ^ 32) >>> 1) 8 0 = (rel >>> 1) &&& 0xFF := by
  rewrite [ENCODE_zero_off, show (0xFF : Nat) = 2 ^ 8 - 1 by decide,
    Nat.and_pow_two_sub_one_eq_mod, Nat.and_pow_two_sub_one_eq_mod, Nat.shiftRight_eq_div_pow,
    Nat.shiftRight_eq_div_pow]
  omega

/-- Twice the sign-extended offset field of `arm_emit_thumb_b` is the offset,
for an even offset in `[-256, 254]`. -/
theorem thumb_b_arith (rel : Nat) (hev : rel % 2 = 0)
    (hr : -256 ≤ int32_of_uint32 rel ∧ int32_of_uint32 rel ≤ 254) :
    2 * SignExtend 8 ((rel % 2 ^ 32) >>> 1 % 2 ^ 8) = int32_of_uint32 rel := by
  unfold int32_of_uint32 at hr ⊢
  unfold SignExtend
  rewrite [Nat.shiftRight_eq_div_pow]
  norm_num only at hr ⊢
  split_ifs at hr ⊢ <;> omega

theorem bits_low_of_zero (v : Nat) (h : bits v 0 11 = 0) :
    bits v 0 7 = 0 ∧ bits v 8 11 = 0 := by
  rewrite [bits_eq_div_mod] at h ⊢
  rewrite [bits_eq_div_mod]
  norm_num only at h ⊢
  omega

/-- Clearing bit 0 of a 32-bit value, as `& ~1` does. -/
theorem and_clear_bit_zero (y : Nat) (h : y < 2 ^ 32) : y &&& 0xFFFFFFFE = y / 2 * 2 := by
  have hm : (0xFFFFFFFE : Nat) = (2 ^ 31 - 1) <<< 1 := by decide
  have hy : y / 2 * 2 = (y >>> 1) <<< 1 := by
    rewrite [Nat.shiftRight_eq_div_pow, Nat.shiftLeft_eq]
    rfl
  rewrite [hy, hm]
  apply Nat.eq_of_testBit_eq
  intro i
  simp only [Nat.testBit_and, Nat.testBit_shiftLeft, Nat.testBit_shiftRight,
    Nat.testBit_two_pow_sub_one]
  by_cases hi : 1 ≤ i
  · have e : 1 + (i - 1) = i := by omega
    rewrite [e]
    by_cases h31 : i - 1 < 31
    · simp [hi, h31]
    · have hf : y.testBit i = false :=
        Nat.testBit_eq_false_of_lt
          (lt_of_lt_of_le h (Nat.pow_le_pow_right (by norm_num) (by omega)))
      simp [hf]
  · simp [hi]

/-- Adding the same displacement to both addresses leaves the ARM branch
distance as it was. -/
theorem arm_rel_translate (frm tgt d : Nat) :
    arm_arm_branch_relative_distance ((frm + d) % 2 ^ 32) ((tgt + d) % 2 ^ 32)
      = arm_arm_branch_relative_distance frm tgt := by
  unfold arm_arm_branch_relative_distance arm_arm_branch_adjusted_offset sub32
  omega

/-- Adding the same even displacement to both addresses leaves the Thumb
branch distance as it was. -/
theorem thumb_rel_translate (frm tgt d : Nat) (hd : d % 2 = 0) :
    arm_thumb_branch_relative_distance ((frm + d) % 2 ^ 32) ((tgt + d) % 2 ^ 32)
      = arm_thumb_branch_relative_distance frm tgt := by
  unfold arm_thumb_branch_relative_distance arm_thumb_branch_adjusted_offset sub32
  dsimp only
  rewrite [and_clear_bit_zero _ (Nat.mod_lt ((frm + d) % 2 ^ 32) (by norm_num)),
    and_clear_bit_zero _ (Nat.mod_lt ((tgt + d) % 2 ^ 32) (by norm_num)),
    and_clear_bit_zero _ (Nat.mod_lt frm (by norm_num)),
    and_clear_bit_zero _ (Nat.mod_lt tgt (by norm_num))]
  omega

theorem arm_emit_arm_blx_reg_eq (k : Opcodes) (m : CodeBuf) (buf cond reg : Nat) :
    arm_emit_arm_blx k m buf cond (.Register reg)
      = (1, store m buf ((k.ARM_BLX ||| ENCODE cond 4 28 ||| ENCODE reg 4 0) % 2 ^ 32)) := by
  simp [arm_emit_arm_blx, arm_emit_arm_branch, arm_emit_arm_insn]

/-- The condition field of the word `arm_emit_arm_branch` composes for a
register operand. -/
theorem arm_blx_reg_cond_field (skel c r : Nat) :
    bits (skel ||| ENCODE c 4 28 ||| ENCODE r 4 0) 28 31 = bits skel 28 31 ||| c % 2 ^ 4 := by
  simp (disch := omega) only [bits_or, bit_or, bits_ENCODE_same, bits_ENCODE_low,
    bits_ENCODE_high, bit_ENCODE_same, bit_ENCODE_low, bit_ENCODE_high, Nat.zero_or, Nat.or_zero]

/-- The low half of a constant, as the operand fields of `MOVW` read it. -/
theorem mov_32_low_bits (val lo hi : Nat) (h : hi < 16) (hlo : lo ≤ hi) :
    bits ((bits (val % 2 ^ 32) 0 15 % 2 ^ 16) % 2 ^ 32) lo hi = bits val lo hi := by
  rewrite [bits_mod _ 32 lo hi (by omega) hlo]
  exact bits_lo_half val lo hi h hlo

/-- The high half of a constant, as the operand fields of `MOVT` read it. -/
theorem mov_32_high_bits (val lo hi : Nat) (h : hi < 16) (hlo : lo ≤ hi) :
    bits ((bits (val % 2 ^ 32) 16 31 % 2 ^ 16) % 2 ^ 32) lo hi
      = bits val (16 + lo) (16 + hi) := by
  rewrite [bits_mod _ 32 lo hi (by omega) hlo]
  exact bits_hi_half val lo hi h hlo

theorem mov_32_low_bit (val n : Nat) (h : n < 16) :
    bit ((bits (val % 2 ^ 32) 0 15 % 2 ^ 16) % 2 ^ 32) n = bit val n := by
  rewrite [bit_mod _ 32 n (by omega)]
  exact bit_lo_half val n h

theorem mov_32_high_bit (val n : Nat) (h : n < 16) :
    bit ((bits (val % 2 ^ 32) 16 31 % 2 ^ 16) % 2 ^ 32) n = bit val (16 + n) := by
  rewrite [bit_mod _ 32 n (by omega)]
  exact bit_hi_half val n h

/-- The word the ARM `MOVW` and `MOVT` emitters compose, with the fields
written as shifts. -/
theorem arm_mov_word_shifts (skel c i4 rd i12 : Nat) (hk : skel < 2 ^ 32) (hc : c < 2 ^ 4)
    (h4 : i4 < 2 ^ 4) (h12 : i12 < 2 ^ 12) :
    (skel ||| ENCODE c 4 28 ||| ENCODE i4 4 16 ||| ENCODE rd 4 12 ||| ENCODE i12 12 0) % 2 ^ 32
      = skel ||| c <<< 28 ||| i4 <<< 16 ||| (rd % 2 ^ 4) <<< 12 ||| i12 := by
  rewrite [Nat.mod_eq_of_lt (Nat.or_lt_two_pow (Nat.or_lt_two_pow (Nat.or_lt_two_pow
    (Nat.or_lt_two_pow hk (ENCODE_lt_32 c 4 28 (by omega))) (ENCODE_lt_32 i4 4 16 (by omega)))
    (ENCODE_lt_32 rd 4 12 (by omega))) (ENCODE_lt_32 i12 12 0 (by omega))),
    ENCODE_of_lt c 4 28 hc, ENCODE_of_lt i4 4 16 h4, ← ENCODE_mod rd 4 12,
    ENCODE_of_lt (rd % 2 ^ 4) 4 12 (Nat.mod_lt _ (by norm_num)), ENCODE_of_lt i12 12 0 h12,
    Nat.shiftLeft_zero]
  rfl

/-- The instruction word the Thumb `MOVW` and `MOVT` emitters compose, with
the fields written as shifts. -/
theorem thumb_mov_word_shifts (skel i1 i4 i3 rd i8 : Nat) (hk : skel < 2 ^ 32) (h1 : i1 < 2 ^ 1)
    (h4 : i4 < 2 ^ 4) (h3 : i3 < 2 ^ 3) (h8 : i8 < 2 ^ 8) :
    (skel ||| ENCODE i1 1 26 ||| ENCODE i4 4 16 ||| ENCODE i3 3 12 ||| ENCODE rd 4 8
      ||| ENCODE i8 8 0) % 2 ^ 32
      = skel ||| i1 <<< 26 ||| i4 <<< 16 ||| i3 <<< 12 ||| (rd % 2 ^ 4) <<< 8 ||| i8 := by
  rewrite [Nat.mod_eq_of_lt (Nat.or_lt_two_pow (Nat.or_lt_two_pow (Nat.or_lt_two_pow
    (Nat.or_lt_two_pow (Nat.or_lt_two_pow hk (ENCODE_lt_32 i1 1 26 (by omega)))
    (ENCODE_lt_32 i4 4 16 (by omega))) (ENCODE_lt_32 i3 3 12 (by omega)))
    (ENCODE_lt_32 rd 4 8 (by omega))) (ENCODE_lt_32 i8 8 0 (by omega))),
    ENCODE_of_lt i1 1 26 h1, ENCODE_of_lt i4 4 16 h4, ENCODE_of_lt i3 3 12 h3,
    ← ENCODE_mod rd 4 8, ENCODE_of_lt (rd % 2 ^ 4) 4 8 (Nat.mod_lt _ (by norm_num)),
    ENCODE_of_lt i8 8 0 h8, Nat.shiftLeft_zero]
  rfl

/-- The opcode bits of the word the ARM `MOVW` and `MOVT` emitters compose are
those of the skeleton. -/
theorem arm_movw_opcode_bits (skel c i4 rd i12 : Nat) :
    bits (skel ||| ENCODE c 4 28 ||| ENCODE i4 4 16 ||| ENCODE rd 4 12 ||| ENCODE i12 12 0) 20 27
      = bits skel 20 27 := by
  simp (disch := omega) only [bits_or, bit_or, bits_ENCODE_same, bits_ENCODE_low,
    bits_ENCODE_high, bit_ENCODE_same, bit_ENCODE_low, bit_ENCODE_high, Nat.zero_or, Nat.or_zero]

/-- The opcode bits of the instruction word the Thumb `MOVW` and `MOVT`
emitters compose are those of the skeleton. -/
theorem thumb_movw_opcode_bits (skel i1 i4 i3 rd i8 : Nat) :
    bits (skel ||| ENCODE i1 1 26 ||| ENCODE i4 4 16 ||| ENCODE i3 3 12 ||| ENCODE rd 4 8
      ||| ENCODE i8 8 0) 27 31 = bits skel 27 31 ∧
    bits (skel ||| ENCODE i1 1 26 ||| ENCODE i4 4 16 ||| ENCODE i3 3 12 ||| ENCODE rd 4 8
      ||| ENCODE i8 8 0) 20 25 = bits skel 20 25 ∧
    bit (skel ||| ENCODE i1 1 26 ||| ENCODE i4 4 16 ||| ENCODE i3 3 12 ||| ENCODE rd 4 8
      ||| ENCODE i8 8 0) 15 = bit skel 15 := by
  refine ⟨?_, ?_, ?_⟩ <;>
    simp (disch := omega) only [bits_or, bit_or, bits_ENCODE_same, bits_ENCODE_low,
      bits_ENCODE_high, bit_ENCODE_same, bit_ENCODE_low, bit_ENCODE_high, Nat.zero_or,
      Nat.or_zero]

/-! ## Theorems -/

/-- C1: `arm_arm_is_reachable (from, to)` is non-zero exactly when
`(to - from - 8) mod 2^32`, read as a signed 32-bit integer, lies in
`[-33554432, 33554431]`; a value of 33554431 is reachable and a value of
33554432 is not. -/
theorem arm_arm_is_reachable_iff (frm tgt : Nat) :
    (arm_arm_is_reachable frm tgt ≠ 0 ↔
      (-33554432 ≤ signed32 ((tgt : Int) - frm - 8) ∧
        signed32 ((tgt : Int) - frm - 8) ≤ 33554431)) ∧
    (signed32 ((tgt : Int) - frm - 8) = 33554431 → arm_arm_is_reachable frm tgt = 1) ∧
    (signed32 ((tgt : Int) - frm - 8) = 33554432 → arm_arm_is_reachable frm tgt = 0) := by
  have hv := arm_arm_is_reachable_val frm tgt
  have hb := signed32_bounds ((tgt : Int) - frm - 8)
  refine ⟨?_, ?_, ?_⟩
  · rewrite [hv]
    split_ifs <;> omega
  · intro h
    rewrite [hv]
    split_ifs <;> omega
  · intro h
    rewrite [hv]
    split_ifs <;> omega

/-- Witness for C1: from address 0 the targets at the two boundary values. -/
theorem arm_arm_is_reachable_iff_witness :
    arm_arm_is_reachable 0 33554439 = 1 ∧ arm_arm_is_reachable 0 33554440 = 0 :=
  ⟨(arm_arm_is_reachable_iff 0 33554439).2.1 (by decide),
    (arm_arm_is_reachable_iff 0 33554440).2.2 (by decide)⟩

/-- C2: `arm_thumb_is_reachable (from, to)` is non-zero exactly when
`((to & ~1) - (from & ~1) - 4) mod 2^32`, read as a signed 32-bit integer,
lies in `[-16777216, 16777215]`; a value of 16777215 is reachable and a value
of 16777216 is not. -/
theorem arm_thumb_is_reachable_iff (frm tgt : Nat) (hf : frm < 2 ^ 32) (ht : tgt < 2 ^ 32) :
    (arm_thumb_is_reachable frm tgt ≠ 0 ↔
      (-16777216 ≤ signed32 (((tgt &&& 0xFFFFFFFE : Nat) : Int) - (frm &&& 0xFFFFFFFE : Nat) - 4) ∧
        signed32 (((tgt &&& 0xFFFFFFFE : Nat) : Int) - (frm &&& 0xFFFFFFFE : Nat) - 4)
          ≤ 16777215)) ∧
    (signed32 (((tgt &&& 0xFFFFFFFE : Nat) : Int) - (frm &&& 0xFFFFFFFE : Nat) - 4) = 16777215 →
      arm_thumb_is_reachable frm tgt = 1) ∧
    (signed32 (((tgt &&& 0xFFFFFFFE : Nat) : Int) - (frm &&& 0xFFFFFFFE : Nat) - 4) = 16777216 →
      arm_thumb_is_reachable frm tgt = 0) := by
  have hb := signed32_bounds
    (((tgt &&& 0xFFFFFFFE : Nat) : Int) - (frm &&& 0xFFFFFFFE : Nat) - 4)
  have hc := thumb_rel_cast frm tgt
  rw [Nat.mod_eq_of_lt hf, Nat.mod_eq_of_lt ht] at hc
  unfold arm_thumb_is_reachable
  rw [int32_of_uint32_eq _ _ hc]
  dsimp only
  rw [int_shr24]
  refine ⟨?_, ?_, ?_⟩ <;> split_ifs <;> omega

/-- Witness for C2 at `from = 0x1001`, `to = 0x2003`. -/
theorem arm_thumb_is_reachable_iff_witness :
    (arm_thumb_is_reachable 0x1001 0x2003 ≠ 0 ↔
      (-16777216 ≤ signed32 (((0x2003 &&& 0xFFFFFFFE : Nat) : Int)
          - (0x1001 &&& 0xFFFFFFFE : Nat) - 4) ∧
        signed32 (((0x2003 &&& 0xFFFFFFFE : Nat) : Int) - (0x1001 &&& 0xFFFFFFFE : Nat) - 4)
          ≤ 16777215)) :=
  (arm_thumb_is_reachable_iff 0x1001 0x2003 (by norm_num) (by norm_num)).1

/-- C3: for addresses `from` and `to` (the target a 32-bit value) with
`to - from` a multiple of 4 and `arm_arm_is_reachable (from, to)` true, the
word written by `arm_emit_arm_b` (and by `arm_emit_arm_bl`) for
`rel = arm_arm_branch_relative_distance (from, to)` decodes back to the
target: `(from + 8 + 4 * SignExtend24 (w[23:0])) mod 2^32 = to`, the skeleton
`ARM_B` being clear in bits [23:0]. -/
theorem arm_branch_round_trip (k : Opcodes) (m : CodeBuf) (buf cond frm tgt : Nat)
    (ht : tgt < 2 ^ 32) (hal : ((tgt : Int) - frm) % 4 = 0)
    (hr : arm_arm_is_reachable frm tgt ≠ 0) (hclear : bits k.ARM_B 0 23 = 0) :
    ((frm : Int) + 8 + 4 * SignExtend 24 (bits ((arm_emit_arm_b k m buf cond
        (arm_arm_branch_relative_distance frm tgt)).2 buf) 0 23)) % 2 ^ 32 = tgt ∧
    ((frm : Int) + 8 + 4 * SignExtend 24 (bits ((arm_emit_arm_bl k m buf cond
        (arm_arm_branch_relative_distance frm tgt)).2 buf) 0 23)) % 2 ^ 32 = tgt := by
  have hv := arm_arm_is_reachable_val frm tgt
  have hr2 : -33554432 ≤ signed32 ((tgt : Int) - frm - 8) ∧
      signed32 ((tgt : Int) - frm - 8) ≤ 33554431 := by
    by_contra hn
    rewrite [hv, if_neg hn] at hr
    exact hr rfl
  rewrite [arm_emit_arm_b_low k m buf cond _ hclear, arm_emit_arm_bl_low k m buf cond _ hclear]
  exact ⟨arm_round_trip_arith frm tgt _ ht (arm_rel_cast frm tgt) hal hr2,
    arm_round_trip_arith frm tgt _ ht (arm_rel_cast frm tgt) hal hr2⟩

/-- Witness for C3: a backward branch from `0x10000` to `0x8000` with
condition NE. -/
theorem arm_branch_round_trip_witness :
    ((0x10000 : Int) + 8 + 4 * SignExtend 24 (bits ((arm_emit_arm_b sampleOpcodes (fun _ => 0) 0 1
        (arm_arm_branch_relative_distance 0x10000 0x8000)).2 0) 0 23)) % 2 ^ 32
      = (0x8000 : Nat) :=
  (arm_branch_round_trip sampleOpcodes (fun _ => 0) 0 1 0x10000 0x8000 (by decide) (by decide)
    (by decide) (by decide)).1

/-- C4: for every even `rel` whose signed 32-bit value lies in `[-2^24, 2^24)`,
the two half-words written by `arm_emit_thumb_bl` and by `arm_emit_thumb_bw`
decode, by the T4 rule `SignExtend (S:I1:I2:imm10:imm11:0)` with
`I1 = NOT (J1 XOR S)`, `I2 = NOT (J2 XOR S)`, back to `rel` (the skeleton
`THUMB_BW` being clear in the field bits). -/
theorem thumb_bl_bw_round_trip (k : Opcodes) (m : CodeBuf) (buf rel : Nat)
    (hrel : rel < 2 ^ 32) (hev : rel % 2 = 0)
    (hr : -16777216 ≤ int32_of_uint32 rel ∧ int32_of_uint32 rel < 16777216)
    (hclear : bit k.THUMB_BW 26 = 0 ∧ bits k.THUMB_BW 16 25 = 0 ∧ bit k.THUMB_BW 13 = 0 ∧
      bit k.THUMB_BW 11 = 0 ∧ bits k.THUMB_BW 0 10 = 0) :
    thumb_bl_decode ((arm_emit_thumb_bl k m buf rel).2 buf)
        ((arm_emit_thumb_bl k m buf rel).2 (buf + 1)) = int32_of_uint32 rel ∧
    thumb_bl_decode ((arm_emit_thumb_bw k m buf rel).2 buf)
        ((arm_emit_thumb_bw k m buf rel).2 (buf + 1)) = int32_of_uint32 rel := by
  obtain ⟨c26, c16, c13, c11, c0⟩ := hclear
  rewrite [bit_eq_field] at c26 c13 c11
  rewrite [bits_eq_field] at c16 c0
  have hmod : rel % 2 ^ 32 = rel := Nat.mod_eq_of_lt hrel
  have key : ∀ l, thumb_bl_decode
      ((arm_emit_thumb_branch k m buf (.Immediate rel) l 0).2 buf)
      ((arm_emit_thumb_branch k m buf (.Immediate rel) l 0).2 (buf + 1))
        = int32_of_uint32 rel := by
    intro l
    rewrite [arm_emit_thumb_branch_imm_eq]
    generalize hw : k.THUMB_BW ||| ENCODE (bit rel 24) 1 26 ||| _ ||| _ ||| _ ||| _ ||| _ ||| _ = w
    have hf := thumb_branch_imm_fields k.THUMB_BW (bit rel 24) (bits rel 12 21) (l % 2 ^ 8)
      (bit rel 24 ^^^ lnot (bit rel 23)) (if 0 % 2 ^ 8 = 0 then 1 else 0)
      (bit rel 24 ^^^ lnot (bit rel 22))
      (if 0 % 2 ^ 8 = 0 then bits rel 1 11 else (bits rel 2 11) <<< 1)
    rewrite [hw, c26, c16, c13, c11, c0] at hf
    simp only [Nat.zero_or] at hf
    obtain ⟨f26, f16, -, f13, -, f11, f0⟩ := hf
    obtain ⟨-, h1, h2⟩ := arm_emit_thumb_w_insn_eq m buf w
    rewrite [h1, h2]
    unfold thumb_bl_decode
    dsimp only
    rewrite [bit_hi_half w 10 (by omega), bits_hi_half w 0 9 (by omega) (by omega),
      bit_lo_half w 13 (by omega), bit_lo_half w 11 (by omega),
      bits_lo_half w 0 10 (by omega) (by omega)]
    have g26 : bit w (16 + 10) = bit rel 24 % 2 ^ 1 := (bit_eq_field w 26).trans f26
    have g16 : bits w (16 + 0) (16 + 9) = bits rel 12 21 % 2 ^ 10 :=
      (bits_eq_field w 16 25).trans f16
    have g13 : bit w 13 = (bit rel 24 ^^^ lnot (bit rel 23)) % 2 ^ 1 :=
      (bit_eq_field w 13).trans f13
    have g11 : bit w 11 = (bit rel 24 ^^^ lnot (bit rel 22)) % 2 ^ 1 :=
      (bit_eq_field w 11).trans f11
    have g0 : bits w 0 10 = bits rel 1 11 % 2 ^ 11 := (bits_eq_field w 0 10).trans f0
    rewrite [g26, g16, g13, g11, g0]
    exact thumb_bl_arith rel hrel hev hr
  unfold arm_emit_thumb_bl arm_emit_thumb_bw immediate_operand
  rewrite [hmod]
  exact ⟨key 1, key 0⟩

/-- Witness for C4: `BL` with the offset `-4` (`0xFFFFFFFC`). -/
theorem thumb_bl_bw_round_trip_witness :
    thumb_bl_decode ((arm_emit_thumb_bl sampleOpcodes (fun _ => 0) 0 0xFFFFFFFC).2 0)
        ((arm_emit_thumb_bl sampleOpcodes (fun _ => 0) 0 0xFFFFFFFC).2 (0 + 1))
      = int32_of_uint32 0xFFFFFFFC :=
  (thumb_bl_bw_round_trip sampleOpcodes (fun _ => 0) 0 0xFFFFFFFC (by decide) (by decide)
    (by decide) (by decide)).1

/-- C5 fails on the code: at `rel = 0` the half-words written by
`arm_emit_thumb_bw_cond` carry `J1 = J2 = 1` (computed from bits 23 and 22 of
`rel` as for the unconditional form), so under the T3 rule
`SignExtend (S:J2:J1:imm6:imm11:0)` they never decode to 0, whatever the
skeleton, buffer and condition; with the sample skeleton table they decode to
`0xC0000`. -/
theorem thumb_bw_cond_zero_offset_decodes_wrong (k : Opcodes) (m : CodeBuf) (buf cond : Nat) :
    thumb_bw_cond_decode ((arm_emit_thumb_bw_cond k m buf cond 0).2 buf)
        ((arm_emit_thumb_bw_cond k m buf cond 0).2 (buf + 1)) ≠ int32_of_uint32 0 ∧
    thumb_bw_cond_decode ((arm_emit_thumb_bw_cond sampleOpcodes (fun _ => 0) 0 0 0).2 0)
        ((arm_emit_thumb_bw_cond sampleOpcodes (fun _ => 0) 0 0 0).2 1) = 0xC0000 := by
  constructor
  · unfold arm_emit_thumb_bw_cond
    dsimp only
    generalize hw : k.THUMB_BW ||| _ ||| _ ||| _ ||| _ ||| _ ||| _ = w
    have hf := thumb_bw_cond_j_fields k.THUMB_BW (bit (0 % 2 ^ 32) 24) (bits (0 % 2 ^ 32) 12 17)
      cond (bit (0 % 2 ^ 32) 24 ^^^ lnot (bit (0 % 2 ^ 32) 23))
      (bit (0 % 2 ^ 32) 24 ^^^ lnot (bit (0 % 2 ^ 32) 22)) (bits (0 % 2 ^ 32) 1 11)
    rewrite [hw] at hf
    have hj1 : (bit (0 % 2 ^ 32) 24 ^^^ lnot (bit (0 % 2 ^ 32) 23)) % 2 ^ 1 = 1 := by decide
    have hj2 : (bit (0 % 2 ^ 32) 24 ^^^ lnot (bit (0 % 2 ^ 32) 22)) % 2 ^ 1 = 1 := by decide
    rewrite [hj1, hj2, or_one_of_lt_two _ (bit_lt_two _ 13),
      or_one_of_lt_two _ (bit_lt_two _ 11)] at hf
    obtain ⟨-, h1, h2⟩ := arm_emit_thumb_w_insn_eq m buf w
    rewrite [h1, h2]
    unfold thumb_bw_cond_decode
    dsimp only
    rewrite [bit_lo_half w 13 (by omega), bit_lo_half w 11 (by omega), hf.1, hf.2]
    have b1 := bit_lt_two (bits (w % 2 ^ 32) 16 31 % 2 ^ 16) 10
    have b2 := bits_lt (bits (w % 2 ^ 32) 16 31 % 2 ^ 16) 0 5
    have b3 := bits_lt (bits (w % 2 ^ 32) 0 15 % 2 ^ 16) 0 10
    generalize bit (bits (w % 2 ^ 32) 16 31 % 2 ^ 16) 10 = S at b1 ⊢
    generalize bits (bits (w % 2 ^ 32) 16 31 % 2 ^ 16) 0 5 = imm6 at b2 ⊢
    generalize bits (bits (w % 2 ^ 32) 0 15 % 2 ^ 16) 0 10 = imm11 at b3 ⊢
    unfold SignExtend int32_of_uint32
    norm_num at b2 b3 ⊢
    split_ifs <;> omega
  · decide


/-- C6: `arm_emit_arm_b` returns 1 and writes the single word
`ARM_B | (cond & 0xF) << 28 | ((rel >> 2) & 0xFFFFFF)`; with the skeleton clear
in those fields, bits [23:0] are `rel >> 2` truncated to 24 bits and bits
[31:28] are the condition; `arm_emit_arm_bl` writes the same word with bit 24
set in addition.  For B (AL) and `rel = 8`, bits [23:0] are 2 and bits
[31:28] are `0xE`. -/
theorem arm_emit_arm_b_word (k : Opcodes) (m : CodeBuf) (buf cond rel : Nat)
    (hk : k.ARM_B < 2 ^ 32) (hcond : cond < 16) (hrel : rel < 2 ^ 32)
    (hclear : bits k.ARM_B 0 23 = 0 ∧ bits k.ARM_B 28 31 = 0) :
    arm_emit_arm_b k m buf cond rel
      = (1, store m buf (k.ARM_B ||| (cond &&& 0xF) <<< 28 ||| ((rel >>> 2) &&& 0xFFFFFF))) ∧
    bits ((arm_emit_arm_b k m buf cond rel).2 buf) 0 23 = (rel >>> 2) % 2 ^ 24 ∧
    bits ((arm_emit_arm_b k m buf cond rel).2 buf) 28 31 = cond ∧
    arm_emit_arm_bl k m buf cond rel
      = (1, store m buf ((arm_emit_arm_b k m buf cond rel).2 buf ||| 1 <<< 24)) ∧
    bits ((arm_emit_arm_b k m buf AL 8).2 buf) 0 23 = 2 ∧
    bits ((arm_emit_arm_b k m buf AL 8).2 buf) 28 31 = 0xE := by
  have e0 : ENCODE 0 1 24 = 0 := by simp [ENCODE]
  have e1 : ENCODE 1 1 24 = 1 <<< 24 := by simp [ENCODE]
  have e2 : ENCODE cond 4 28 = (cond &&& 0xF) <<< 28 := rfl
  have e3 : ENCODE ((rel % 2 ^ 32) >>> 2) 24 0 = ((rel >>> 2) &&& 0xFFFFFF) := by
    rewrite [Nat.mod_eq_of_lt hrel]; rfl
  have hf := fun c r => arm_branch_imm_fields k.ARM_B 0 c r hclear.1
  have hb : ∀ c r, (arm_emit_arm_b k m buf c r).2 buf
      = k.ARM_B ||| ENCODE 0 1 24 ||| ENCODE c 4 28 ||| ENCODE ((r % 2 ^ 32) >>> 2) 24 0 := by
    intro c r
    rewrite [arm_emit_arm_b_eq]
    exact (store_same _ _ _).trans (arm_branch_imm_lt k.ARM_B 0 c _ hk)
  refine ⟨?_, ?_, ?_, ?_, ?_, ?_⟩
  · rewrite [arm_emit_arm_b_eq, arm_branch_imm_lt k.ARM_B 0 _ _ hk, e0, e2, e3, Nat.or_zero]
    rfl
  · rewrite [hb, (hf _ _).1, Nat.mod_eq_of_lt hrel]
    rfl
  · rewrite [hb, (hf _ _).2.1, hclear.2, Nat.zero_or]
    exact Nat.mod_eq_of_lt hcond
  · rewrite [hb, arm_emit_arm_bl_eq, arm_branch_imm_lt k.ARM_B 1 _ _ hk, e0, e1, Nat.or_zero]
    refine congrArg (fun w => (1, store m buf w)) ?_
    generalize ENCODE cond 4 28 = a
    generalize ENCODE _ 24 0 = b
    generalize 1 <<< 24 = c
    generalize k.ARM_B = d
    ac_rfl
  · rewrite [hb, (hf _ _).1]
    decide
  · rewrite [hb, (hf _ _).2.1, hclear.2, Nat.zero_or]
    decide

/-- Witness for C6 with the sample skeleton table, B (EQ) and `rel = 16`. -/
theorem arm_emit_arm_b_word_witness :
    bits ((arm_emit_arm_b sampleOpcodes (fun _ => 0) 0 0 16).2 0) 0 23 = (16 >>> 2) % 2 ^ 24 :=
  (arm_emit_arm_b_word sampleOpcodes (fun _ => 0) 0 0 16 (by decide) (by decide) (by decide)
    (by decide)).2.1

/-- C7: for an immediate operand `arm_emit_arm_blx` writes the same word
whatever condition argument it is given; in that word bits [31:28] are `0xF`,
bit 24 is bit 1 of the immediate and the low 24 bits are `imm >> 2` truncated
to 24 bits (the skeleton `ARM_B` being clear in bits [24:0]). -/
theorem arm_emit_arm_blx_immediate (k : Opcodes) (m : CodeBuf) (buf c1 c2 imm : Nat)
    (hclear : bits k.ARM_B 0 23 = 0 ∧ bit k.ARM_B 24 = 0) :
    arm_emit_arm_blx k m buf c1 (.Immediate imm)
      = arm_emit_arm_blx k m buf c2 (.Immediate imm) ∧
    (arm_emit_arm_blx k m buf c1 (.Immediate imm)).1 = 1 ∧
    bits ((arm_emit_arm_blx k m buf c1 (.Immediate imm)).2 buf) 28 31 = 0xF ∧
    bit ((arm_emit_arm_blx k m buf c1 (.Immediate imm)).2 buf) 24 = bit imm 1 ∧
    bits ((arm_emit_arm_blx k m buf c1 (.Immediate imm)).2 buf) 0 23
      = (imm >>> 2) % 2 ^ 24 := by
  have hf := arm_branch_imm_fields k.ARM_B (bit imm 1) 0xF (imm >>> 2) hclear.1
  have h28 : bits k.ARM_B 28 31 < 16 := by
    rewrite [bits_eq_div_mod]
    exact Nat.mod_lt _ (by norm_num)
  refine ⟨?_, ?_, ?_, ?_, ?_⟩
  · rewrite [arm_emit_arm_blx_imm_eq, arm_emit_arm_blx_imm_eq]
    rfl
  · rewrite [arm_emit_arm_blx_imm_eq]
    rfl
  · rewrite [arm_emit_arm_blx_imm_eq]
    show bits (store m buf _ buf) 28 31 = 0xF
    rewrite [store_same, bits_mod _ 32 28 31 (by omega) (by omega), hf.2.1]
    exact or_fifteen _ h28
  · rewrite [arm_emit_arm_blx_imm_eq]
    show bit (store m buf _ buf) 24 = bit imm 1
    rewrite [store_same, bit_mod _ 32 24 (by omega), hf.2.2, hclear.2, Nat.zero_or]
    exact Nat.mod_eq_of_lt (bit_lt_two imm 1)
  · rewrite [arm_emit_arm_blx_imm_eq]
    show bits (store m buf _ buf) 0 23 = (imm >>> 2) % 2 ^ 24
    rewrite [store_same, bits_mod _ 32 0 23 (by omega) (by omega), hf.1]
    rfl

/-- Witness for C7 with the sample skeleton table, conditions EQ and AL and the
immediate `0x1002`. -/
theorem arm_emit_arm_blx_immediate_witness :
    arm_emit_arm_blx sampleOpcodes (fun _ => 0) 0 0 (.Immediate 0x1002)
      = arm_emit_arm_blx sampleOpcodes (fun _ => 0) 0 14 (.Immediate 0x1002) ∧
    bit ((arm_emit_arm_blx sampleOpcodes (fun _ => 0) 0 0 (.Immediate 0x1002)).2 0) 24
      = bit 0x1002 1 :=
  ⟨(arm_emit_arm_blx_immediate sampleOpcodes (fun _ => 0) 0 0 14 0x1002 (by decide)).1,
    (arm_emit_arm_blx_immediate sampleOpcodes (fun _ => 0) 0 0 14 0x1002 (by decide)).2.2.2.1⟩

/-- C8, as the specification states it, fails: an immediate operand with
`x = 1` and `l = 0` is outside the listed legal set, yet the emitter returns 1
and writes a word. -/
theorem arm_emit_arm_branch_listed_counterexample :
    ¬ ((arm_emit_arm_branch sampleOpcodes (fun _ => 0) 0 AL (.Immediate 0) 0 1).1 = 1 ↔
        arm_branch_legal_listed (.Immediate 0) 0 1) ∧
    (arm_emit_arm_branch sampleOpcodes (fun _ => 0) 0 AL (.Immediate 0) 0 1).2 0
      = 0xEA000000 := by
  constructor
  · intro h
    have h1 := h.1 (by decide)
    simp [arm_branch_legal_listed] at h1
  · decide

/-- C8 (amended): `arm_emit_arm_branch` returns 1 exactly when the operand is
an immediate (whatever `l` and `x` are) or a register with `l = 1` and
`x = 1`; in every other case (a register without both flags, any memory
operand) it returns 0 and leaves the buffer unchanged. -/
theorem arm_emit_arm_branch_accepts (k : Opcodes) (m : CodeBuf) (buf cond : Nat)
    (operand : arm_operand) (l x : Nat) (hl : l < 256) (hx : x < 256) :
    ((arm_emit_arm_branch k m buf cond operand l x).1 = 1 ↔
      ((∃ imm, operand = .Immediate imm) ∨
        ((∃ reg, operand = .Register reg) ∧ l = 1 ∧ x = 1))) ∧
    ((arm_emit_arm_branch k m buf cond operand l x).1 ≠ 1 →
      arm_emit_arm_branch k m buf cond operand l x = (0, m)) := by
  have hl8 : l % 2 ^ 8 = l := Nat.mod_eq_of_lt hl
  have hx8 : x % 2 ^ 8 = x := Nat.mod_eq_of_lt hx
  cases operand with
  | Immediate imm =>
    simp [arm_emit_arm_branch, arm_emit_arm_insn]
  | Register reg =>
    by_cases h : l = 1 ∧ x = 1
    · simp [arm_emit_arm_branch, arm_emit_arm_insn, h]
    · simp only [arm_emit_arm_branch, hl8, hx8, if_neg h]
      simp [h]
  | Memory mem =>
    simp [arm_emit_arm_branch]

/-- Witness for C8 (amended): a register operand with `l = 1`, `x = 0`. -/
theorem arm_emit_arm_branch_accepts_witness :
    arm_emit_arm_branch sampleOpcodes (fun _ => 0) 0 AL (.Register 3) 1 0 = (0, fun _ => 0) :=
  (arm_emit_arm_branch_accepts sampleOpcodes (fun _ => 0) 0 AL (.Register 3) 1 0
    (by decide) (by decide)).2 (by decide)


/-- C9: for a register operand `arm_emit_thumb_branch` returns 1 and writes
exactly the one half-word `THUMB_BLX | (reg & 0xF) << 3` when `l = 1` and
`x = 1`, and returns 0 leaving the buffer unchanged for every other `(l, x)`;
for a memory operand it always returns 0 and leaves the buffer unchanged. -/
theorem arm_emit_thumb_branch_register (k : Opcodes) (m : CodeBuf) (buf reg l x : Nat)
    (mem : arm_memory_operand) (hk : k.THUMB_BLX < 2 ^ 16) (hl : l < 256) (hx : x < 256) :
    (l = 1 ∧ x = 1 → arm_emit_thumb_branch k m buf (.Register reg) l x
      = (1, store m buf (k.THUMB_BLX ||| (reg &&& 0xF) <<< 3))) ∧
    (¬ (l = 1 ∧ x = 1) → arm_emit_thumb_branch k m buf (.Register reg) l x = (0, m)) ∧
    arm_emit_thumb_branch k m buf (.Memory mem) l x = (0, m) ∧
    arm_emit_thumb_blx k m buf (.Register reg)
      = (1, store m buf (k.THUMB_BLX ||| (reg &&& 0xF) <<< 3)) := by
  have hl8 : l % 2 ^ 8 = l := Nat.mod_eq_of_lt hl
  have hx8 : x % 2 ^ 8 = x := Nat.mod_eq_of_lt hx
  have he : ENCODE reg 4 3 = (reg &&& 0xF) <<< 3 := rfl
  have hlt : (k.THUMB_BLX ||| ENCODE reg 4 3) % 2 ^ 16 = k.THUMB_BLX ||| ENCODE reg 4 3 :=
    Nat.mod_eq_of_lt (Nat.or_lt_two_pow hk
      (lt_of_lt_of_le (ENCODE_lt reg 4 3) (by norm_num)))
  have hone : arm_emit_thumb_branch k m buf (.Register reg) 1 1
      = (1, store m buf (k.THUMB_BLX ||| (reg &&& 0xF) <<< 3)) := by
    rewrite [← he, ← hlt]
    rfl
  refine ⟨?_, ?_, rfl, hone⟩
  · rintro ⟨rfl, rfl⟩
    exact hone
  · intro h
    simp only [arm_emit_thumb_branch, hl8, hx8, if_neg h]

/-- Witness for C9 with the sample skeleton table and register 3. -/
theorem arm_emit_thumb_branch_register_witness :
    arm_emit_thumb_branch sampleOpcodes (fun _ => 0) 0 (.Register 3) 1 1
      = (1, store (fun _ => 0) 0 (sampleOpcodes.THUMB_BLX ||| (3 &&& 0xF) <<< 3)) ∧
    arm_emit_thumb_branch sampleOpcodes (fun _ => 0) 0 (.Register 3) 1 0 = (0, fun _ => 0) :=
  ⟨(arm_emit_thumb_branch_register sampleOpcodes (fun _ => 0) 0 3 1 1 ⟨0, 0⟩
      (by decide) (by decide) (by decide)).1 ⟨rfl, rfl⟩,
    (arm_emit_thumb_branch_register sampleOpcodes (fun _ => 0) 0 3 1 0 ⟨0, 0⟩
      (by decide) (by decide) (by decide)).2.1 (by decide)⟩

/-- C10: every operand-taking emitter returns 0 and leaves the buffer
unchanged when it is given an operand variant outside its legal set: a
register or memory operand for the movw, movt, cmp, cmpw, bic emitters, ARM
add, Thumb add_sp, Thumb ldrex, Thumb strex and Thumb str; an immediate or
memory operand for Thumb mov; a memory operand for ARM mov; an immediate or
register operand for ARM str. -/
theorem wrong_operand_variant_rejected (k : Opcodes) (m : CodeBuf)
    (buf cond rd rn rt reg imm : Nat) (rti : Int) (mem : arm_memory_operand) :
    (arm_emit_arm_movw k m buf cond rd (.Register reg) = (0, m) ∧
      arm_emit_arm_movw k m buf cond rd (.Memory mem) = (0, m)) ∧
    (arm_emit_thumb_movw k m buf rd (.Register reg) = (0, m) ∧
      arm_emit_thumb_movw k m buf rd (.Memory mem) = (0, m)) ∧
    (arm_emit_arm_movt k m buf cond rd (.Register reg) = (0, m) ∧
      arm_emit_arm_movt k m buf cond rd (.Memory mem) = (0, m)) ∧
    (arm_emit_thumb_movt k m buf rd (.Register reg) = (0, m) ∧
      arm_emit_thumb_movt k m buf rd (.Memory mem) = (0, m)) ∧
    (arm_emit_arm_cmp k m buf cond rn (.Register reg) = (0, m) ∧
      arm_emit_arm_cmp k m buf cond rn (.Memory mem) = (0, m)) ∧
    (arm_emit_thumb_cmp k m buf rn (.Register reg) = (0, m) ∧
      arm_emit_thumb_cmp k m buf rn (.Memory mem) = (0, m)) ∧
    (arm_emit_thumb_cmpw k m buf rn (.Register reg) = (0, m) ∧
      arm_emit_thumb_cmpw k m buf rn (.Memory mem) = (0, m)) ∧
    (arm_emit_arm_bic k m buf cond rd rn (.Register reg) = (0, m) ∧
      arm_emit_arm_bic k m buf cond rd rn (.Memory mem) = (0, m)) ∧
    (arm_emit_thumb_bic k m buf rd rn (.Register reg) = (0, m) ∧
      arm_emit_thumb_bic k m buf rd rn (.Memory mem) = (0, m)) ∧
    (arm_emit_arm_add k m buf cond rd rn (.Register reg) = (0, m) ∧
      arm_emit_arm_add k m buf cond rd rn (.Memory mem) = (0, m)) ∧
    (arm_emit_thumb_add_sp k m buf (.Register reg) = (0, m) ∧
      arm_emit_thumb_add_sp k m buf (.Memory mem) = (0, m)) ∧
    (arm_emit_thumb_ldrex k m buf rti rn (.Register reg) = (0, m) ∧
      arm_emit_thumb_ldrex k m buf rti rn (.Memory mem) = (0, m)) ∧
    (arm_emit_thumb_strex k m buf rd rt rn (.Register reg) = (0, m) ∧
      arm_emit_thumb_strex k m buf rd rt rn (.Memory mem) = (0, m)) ∧
    (arm_emit_thumb_str k m buf rt rn (.Register reg) = (0, m) ∧
      arm_emit_thumb_str k m buf rt rn (.Memory mem) = (0, m)) ∧
    (arm_emit_thumb_mov k m buf rd (.Immediate imm) = (0, m) ∧
      arm_emit_thumb_mov k m buf rd (.Memory mem) = (0, m)) ∧
    arm_emit_arm_mov k m buf cond rd (.Memory mem) = (0, m) ∧
    (arm_emit_arm_str k m buf cond rt rn (.Immediate imm) = (0, m) ∧
      arm_emit_arm_str k m buf cond rt rn (.Register reg) = (0, m)) :=
  ⟨⟨rfl, rfl⟩, ⟨rfl, rfl⟩, ⟨rfl, rfl⟩, ⟨rfl, rfl⟩, ⟨rfl, rfl⟩, ⟨rfl, rfl⟩, ⟨rfl, rfl⟩,
    ⟨rfl, rfl⟩, ⟨rfl, rfl⟩, ⟨rfl, rfl⟩, ⟨rfl, rfl⟩, ⟨rfl, rfl⟩, ⟨rfl, rfl⟩, ⟨rfl, rfl⟩,
    ⟨rfl, rfl⟩, rfl, ⟨rfl, rfl⟩⟩

/-- C11: given a legal operand variant and flag combination, every ARM and
Thumb-16 emitter returns exactly 1 and every Thumb-32 wide emitter returns
exactly 2; and no emitter returns a unit count other than 0, 1 or 2, whatever
its operand and flags. -/
theorem emitters_unit_count (k : Opcodes) (m : CodeBuf)
    (buf cond rd rn rt rs len register_list lr pc reg imm rel l x insn : Nat) (rti index : Int)
    (operand : arm_operand) :
    -- the raw emitters
    ((arm_emit_arm_insn m buf insn).1 = 1 ∧ (arm_emit_thumb_insn m buf insn).1 = 1 ∧
      (arm_emit_thumb_w_insn m buf insn).1 = 2) ∧
    -- ARM emitters: one word
    ((arm_emit_arm_branch k m buf cond (.Immediate imm) l x).1 = 1 ∧
      (arm_emit_arm_branch k m buf cond (.Register reg) 1 1).1 = 1 ∧
      (arm_emit_arm_b k m buf cond rel).1 = 1 ∧
      (arm_emit_arm_bl k m buf cond rel).1 = 1 ∧
      (arm_emit_arm_blx k m buf cond (.Immediate imm)).1 = 1 ∧
      (arm_emit_arm_blx k m buf cond (.Register reg)).1 = 1 ∧
      (arm_emit_arm_movw k m buf cond rd (.Immediate imm)).1 = 1 ∧
      (arm_emit_arm_mov k m buf cond rd (.Immediate imm)).1 = 1 ∧
      (arm_emit_arm_mov k m buf cond rd (.Register reg)).1 = 1 ∧
      (arm_emit_arm_movt k m buf cond rd (.Immediate imm)).1 = 1 ∧
      (arm_emit_arm_vpush k m buf cond rs len).1 = 1 ∧
      (arm_emit_arm_vpop k m buf cond rs len).1 = 1 ∧
      (arm_emit_arm_push_list k m buf cond register_list).1 = 1 ∧
      (arm_emit_arm_push_one k m buf cond rt).1 = 1 ∧
      (arm_emit_arm_pop_list k m buf cond register_list).1 = 1 ∧
      (arm_emit_arm_pop_one k m buf cond rt).1 = 1 ∧
      (arm_emit_arm_mrs k m buf cond rd).1 = 1 ∧
      (arm_emit_arm_msr k m buf cond rn).1 = 1 ∧
      (arm_emit_arm_dmb k m buf).1 = 1 ∧
      (arm_emit_arm_ldrex k m buf cond rt rn).1 = 1 ∧
      (arm_emit_arm_strex k m buf cond rd rt rn).1 = 1 ∧
      (arm_emit_arm_cmp k m buf cond rn (.Immediate imm)).1 = 1 ∧
      (arm_emit_arm_bic k m buf cond rd rn (.Immediate imm)).1 = 1 ∧
      (arm_emit_arm_add k m buf cond rd rn (.Immediate imm)).1 = 1 ∧
      (arm_emit_arm_str k m buf cond rt rn (.Memory ⟨MEMORY_OPERAND_OFFSET, index⟩)).1 = 1) ∧
    -- Thumb-16 emitters: one half-word
    ((arm_emit_thumb_b k m buf cond rel).1 = 1 ∧
      (arm_emit_thumb_mov k m buf rd (.Register reg)).1 = 1 ∧
      (arm_emit_thumb_cmp k m buf rn (.Immediate imm)).1 = 1 ∧
      (arm_emit_thumb_str k m buf rt rn (.Immediate imm)).1 = 1 ∧
      (arm_emit_thumb_add_sp k m buf (.Immediate imm)).1 = 1 ∧
      (arm_emit_thumb_push_one k m buf register_list lr).1 = 1 ∧
      (arm_emit_thumb_pop k m buf register_list pc).1 = 1 ∧
      (arm_emit_thumb_branch k m buf (.Register reg) 1 1).1 = 1 ∧
      (arm_emit_thumb_blx k m buf (.Register reg)).1 = 1) ∧
    -- Thumb-32 wide emitters: two half-words
    ((arm_emit_thumb_branch k m buf (.Immediate imm) l x).1 = 2 ∧
      (arm_emit_thumb_bl k m buf rel).1 = 2 ∧
      (arm_emit_thumb_bw k m buf rel).1 = 2 ∧
      (arm_emit_thumb_bw_cond k m buf cond rel).1 = 2 ∧
      (arm_emit_thumb_blx k m buf (.Immediate imm)).1 = 2 ∧
      (arm_emit_thumb_movw k m buf rd (.Immediate imm)).1 = 2 ∧
      (arm_emit_thumb_movt k m buf rd (.Immediate imm)).1 = 2 ∧
      (arm_emit_thumb_cmpw k m buf rn (.Immediate imm)).1 = 2 ∧
      (arm_emit_thumb_bic k m buf rd rn (.Immediate imm)).1 = 2 ∧
      (arm_emit_thumb_ldrex k m buf rti rn (.Immediate imm)).1 = 2 ∧
      (arm_emit_thumb_strex k m buf rd rt rn (.Immediate imm)).1 = 2 ∧
      (arm_emit_thumb_vpush k m buf rs len).1 = 2 ∧
      (arm_emit_thumb_vpop k m buf rs len).1 = 2 ∧
      (arm_emit_thumb_push_list k m buf register_list lr).1 = 2 ∧
      (arm_emit_thumb_popw_list k m buf register_list pc lr).1 = 2 ∧
      (arm_emit_thumb_mrs k m buf rd).1 = 2 ∧
      (arm_emit_thumb_msr k m buf rn).1 = 2 ∧
      (arm_emit_thumb_dmb k m buf).1 = 2) ∧
    -- whatever the operand and the flags, the count is 0, 1 or 2
    ((arm_emit_arm_branch k m buf cond operand l x).1 ≤ 2 ∧
      (arm_emit_thumb_branch k m buf operand l x).1 ≤ 2 ∧
      (arm_emit_arm_blx k m buf cond operand).1 ≤ 2 ∧
      (arm_emit_thumb_blx k m buf operand).1 ≤ 2 ∧
      (arm_emit_arm_movw k m buf cond rd operand).1 ≤ 2 ∧
      (arm_emit_arm_mov k m buf cond rd operand).1 ≤ 2 ∧
      (arm_emit_arm_movt k m buf cond rd operand).1 ≤ 2 ∧
      (arm_emit_arm_cmp k m buf cond rn operand).1 ≤ 2 ∧
      (arm_emit_arm_bic k m buf cond rd rn operand).1 ≤ 2 ∧
      (arm_emit_arm_add k m buf cond rd rn operand).1 ≤ 2 ∧
      (arm_emit_arm_str k m buf cond rt rn operand).1 ≤ 2 ∧
      (arm_emit_thumb_mov k m buf rd operand).1 ≤ 2 ∧
      (arm_emit_thumb_movw k m buf rd operand).1 ≤ 2 ∧
      (arm_emit_thumb_movt k m buf rd operand).1 ≤ 2 ∧
      (arm_emit_thumb_cmp k m buf rn operand).1 ≤ 2 ∧
      (arm_emit_thumb_cmpw k m buf rn operand).1 ≤ 2 ∧
      (arm_emit_thumb_bic k m buf rd rn operand).1 ≤ 2 ∧
      (arm_emit_thumb_ldrex k m buf rti rn operand).1 ≤ 2 ∧
      (arm_emit_thumb_strex k m buf rd rt rn operand).1 ≤ 2 ∧
      (arm_emit_thumb_str k m buf rt rn operand).1 ≤ 2 ∧
      (arm_emit_thumb_add_sp k m buf operand).1 ≤ 2) := by
  have hb := branch_str_count_le k m buf cond rt rn l x operand
  have hb1 := branch_str_count_le k m buf cond rt rn 1 1 operand
  refine ⟨⟨rfl, rfl, rfl⟩,
    ⟨rfl, rfl, rfl, rfl, rfl, rfl, rfl, rfl, rfl, rfl, rfl, rfl, rfl, rfl, rfl, rfl, rfl, rfl,
      rfl, rfl, rfl, rfl, rfl, rfl, rfl⟩,
    ⟨rfl, rfl, rfl, rfl, rfl, rfl, rfl, rfl, rfl⟩,
    ⟨rfl, rfl, rfl, rfl, rfl, rfl, rfl, rfl, rfl, rfl, rfl, rfl, rfl, rfl, rfl, rfl, rfl, rfl⟩,
    ⟨hb.1, hb.2.1, hb1.1, hb1.2.1, ?_, ?_, ?_, ?_, ?_, ?_, hb.2.2, ?_, ?_, ?_, ?_, ?_, ?_, ?_,
      ?_, ?_, ?_⟩⟩ <;>
    cases operand <;>
      first
        | exact Nat.zero_le 2
        | exact Nat.le_succ 1
        | exact Nat.le_refl 2

/-- C12: with the code buffer a map from index to unit and the cursor an index
`p`, every emitter call that returns `n` leaves the units outside `[p, p + n)`
unchanged and overwrites the `n` units at `p .. p + n - 1` (`frame_ok`);
`arm_emit_arm_mov_32` returns `p + 2` and changes only the units `p`, `p + 1`,
and `arm_emit_thumb_mov_32` returns `p + 4` and changes only the units
`p .. p + 3`. -/
theorem emitters_frame (k : Opcodes)
    (cond rd rn rt rs len register_list lr pc rel l x insn val : Nat) (rti reg : Int)
    (operand : arm_operand) :
    -- the raw emitters
    (frame_ok (fun m p => arm_emit_arm_insn m p insn) ∧
      frame_ok (fun m p => arm_emit_thumb_insn m p insn) ∧
      frame_ok (fun m p => arm_emit_thumb_w_insn m p insn)) ∧
    -- branch and call emitters
    (frame_ok (fun m p => arm_emit_arm_branch k m p cond operand l x) ∧
      frame_ok (fun m p => arm_emit_thumb_branch k m p operand l x) ∧
      frame_ok (fun m p => arm_emit_arm_b k m p cond rel) ∧
      frame_ok (fun m p => arm_emit_arm_bl k m p cond rel) ∧
      frame_ok (fun m p => arm_emit_arm_blx k m p cond operand) ∧
      frame_ok (fun m p => arm_emit_thumb_b k m p cond rel) ∧
      frame_ok (fun m p => arm_emit_thumb_bl k m p rel) ∧
      frame_ok (fun m p => arm_emit_thumb_bw k m p rel) ∧
      frame_ok (fun m p => arm_emit_thumb_bw_cond k m p cond rel) ∧
      frame_ok (fun m p => arm_emit_thumb_blx k m p operand)) ∧
    -- data movement emitters
    (frame_ok (fun m p => arm_emit_arm_movw k m p cond rd operand) ∧
      frame_ok (fun m p => arm_emit_arm_mov k m p cond rd operand) ∧
      frame_ok (fun m p => arm_emit_arm_movt k m p cond rd operand) ∧
      frame_ok (fun m p => arm_emit_arm_cmp k m p cond rn operand) ∧
      frame_ok (fun m p => arm_emit_arm_bic k m p cond rd rn operand) ∧
      frame_ok (fun m p => arm_emit_arm_add k m p cond rd rn operand) ∧
      frame_ok (fun m p => arm_emit_thumb_movw k m p rd operand) ∧
      frame_ok (fun m p => arm_emit_thumb_movt k m p rd operand) ∧
      frame_ok (fun m p => arm_emit_thumb_mov k m p rd operand) ∧
      frame_ok (fun m p => arm_emit_thumb_cmp k m p rn operand) ∧
      frame_ok (fun m p => arm_emit_thumb_cmpw k m p rn operand) ∧
      frame_ok (fun m p => arm_emit_thumb_bic k m p rd rn operand) ∧
      frame_ok (fun m p => arm_emit_thumb_add_sp k m p operand)) ∧
    -- stack and multi-register transfer emitters
    (frame_ok (fun m p => arm_emit_arm_vpush k m p cond rs len) ∧
      frame_ok (fun m p => arm_emit_arm_vpop k m p cond rs len) ∧
      frame_ok (fun m p => arm_emit_arm_push_list k m p cond register_list) ∧
      frame_ok (fun m p => arm_emit_arm_push_one k m p cond rt) ∧
      frame_ok (fun m p => arm_emit_arm_pop_list k m p cond register_list) ∧
      frame_ok (fun m p => arm_emit_arm_pop_one k m p cond rt) ∧
      frame_ok (fun m p => arm_emit_thumb_vpush k m p rs len) ∧
      frame_ok (fun m p => arm_emit_thumb_vpop k m p rs len) ∧
      frame_ok (fun m p => arm_emit_thumb_push_one k m p register_list lr) ∧
      frame_ok (fun m p => arm_emit_thumb_push_list k m p register_list lr) ∧
      frame_ok (fun m p => arm_emit_thumb_pop k m p register_list pc) ∧
      frame_ok (fun m p => arm_emit_thumb_popw_list k m p register_list pc lr)) ∧
    -- atomics, barriers, status-register and memory emitters
    (frame_ok (fun m p => arm_emit_arm_mrs k m p cond rd) ∧
      frame_ok (fun m p => arm_emit_arm_msr k m p cond rn) ∧
      frame_ok (fun m p => arm_emit_arm_dmb k m p) ∧
      frame_ok (fun m p => arm_emit_arm_ldrex k m p cond rt rn) ∧
      frame_ok (fun m p => arm_emit_arm_strex k m p cond rd rt rn) ∧
      frame_ok (fun m p => arm_emit_arm_str k m p cond rt rn operand) ∧
      frame_ok (fun m p => arm_emit_thumb_mrs k m p rd) ∧
      frame_ok (fun m p => arm_emit_thumb_msr k m p rn) ∧
      frame_ok (fun m p => arm_emit_thumb_dmb k m p) ∧
      frame_ok (fun m p => arm_emit_thumb_ldrex k m p rti rn operand) ∧
      frame_ok (fun m p => arm_emit_thumb_strex k m p rd rt rn operand) ∧
      frame_ok (fun m p => arm_emit_thumb_str k m p rt rn operand)) ∧
    -- the two constant synthesis sequences
    (∀ (m : CodeBuf) (p : Nat), (arm_emit_arm_mov_32 k m p reg val).1 = p + 2 ∧
      ∀ i, i < p ∨ p + 2 ≤ i → (arm_emit_arm_mov_32 k m p reg val).2 i = m i) ∧
    (∀ (m : CodeBuf) (p : Nat), (arm_emit_thumb_mov_32 k m p reg val).1 = p + 4 ∧
      ∀ i, i < p ∨ p + 4 ≤ i → (arm_emit_thumb_mov_32 k m p reg val).2 i = m i) := by
  have hb := frame_ok_branch_str k cond rt rn l x operand
  have hb1 := frame_ok_branch_str k cond rt rn 1 1 operand
  refine ⟨⟨frame_ok_arm_insn _, frame_ok_thumb_insn _, frame_ok_thumb_w_insn _⟩,
    ⟨hb.1, hb.2.1, frame_ok_arm_insn _, frame_ok_arm_insn _, hb1.1, frame_ok_thumb_insn _,
      frame_ok_thumb_w_insn _, frame_ok_thumb_w_insn _, frame_ok_thumb_w_insn _, hb1.2.1⟩,
    ⟨?_, ?_, ?_, ?_, ?_, ?_, ?_, ?_, ?_, ?_, ?_, ?_, ?_⟩,
    ⟨frame_ok_arm_insn _, frame_ok_arm_insn _, frame_ok_arm_insn _, frame_ok_arm_insn _,
      frame_ok_arm_insn _, frame_ok_arm_insn _, frame_ok_thumb_w_insn _,
      frame_ok_thumb_w_insn _, frame_ok_thumb_insn _, frame_ok_thumb_w_insn _,
      frame_ok_thumb_insn _, frame_ok_thumb_w_insn _⟩,
    ⟨frame_ok_arm_insn _, frame_ok_arm_insn _, frame_ok_arm_insn _, frame_ok_arm_insn _,
      frame_ok_arm_insn _, hb.2.2, frame_ok_thumb_w_insn _, frame_ok_thumb_w_insn _,
      frame_ok_thumb_w_insn _, ?_, ?_, ?_⟩,
    fun m p => arm_emit_arm_mov_32_frame k m p reg val,
    fun m p => arm_emit_thumb_mov_32_frame k m p reg val⟩ <;>
    cases operand <;>
      first
        | exact frame_ok_fail
        | exact frame_ok_arm_insn _
        | exact frame_ok_thumb_insn _
        | exact frame_ok_thumb_w_insn _

/-- Witness for C12: `arm_emit_thumb_bl` at cursor 3 of a buffer of `0xFFFF`
half-words leaves unit 5 as it was. -/
theorem emitters_frame_witness :
    (arm_emit_thumb_bl sampleOpcodes (fun _ => 0xFFFF) 3 8).2 5 = 0xFFFF :=
  ((emitters_frame sampleOpcodes 0 0 0 0 0 0 0 0 0 8 0 0 0 0 0 0 (.Immediate 0)).2.1.2.2.2.2.2.2.1
    (fun _ => 0xFFFF) 3).1 5 (Or.inr (Nat.le_refl 5))

/-- C13: for every 32-bit instruction word `insn`, `arm_emit_thumb_w_insn`
returns 2 and writes the high half-word `insn[31:16]` at `buf[0]` and the low
half-word `insn[15:0]` at `buf[1]`, so that `(buf[0] << 16) | buf[1] = insn`. -/
theorem arm_emit_thumb_w_insn_order (m : CodeBuf) (buf insn : Nat) (h : insn < 2 ^ 32) :
    (arm_emit_thumb_w_insn m buf insn).1 = 2 ∧
    (arm_emit_thumb_w_insn m buf insn).2 buf = bits insn 16 31 ∧
    (arm_emit_thumb_w_insn m buf insn).2 (buf + 1) = bits insn 0 15 ∧
    ((arm_emit_thumb_w_insn m buf insn).2 buf) <<< 16
      ||| (arm_emit_thumb_w_insn m buf insn).2 (buf + 1) = insn := by
  obtain ⟨h0, h1, h2⟩ := arm_emit_thumb_w_insn_eq m buf insn
  have hmod : insn % 2 ^ 32 = insn := Nat.mod_eq_of_lt h
  have b1 : bits insn 16 31 % 2 ^ 16 = bits insn 16 31 := Nat.mod_eq_of_lt (bits_lt insn 16 31)
  have b2 : bits insn 0 15 % 2 ^ 16 = bits insn 0 15 := Nat.mod_eq_of_lt (bits_lt insn 0 15)
  rewrite [hmod, b1] at h1
  rewrite [hmod, b2] at h2
  refine ⟨h0, h1, h2, ?_⟩
  rewrite [h1, h2, Nat.shiftLeft_eq, Nat.mul_comm,
    ← Nat.mul_add_lt_is_or (bits_lt insn 0 15) (bits insn 16 31)]
  rewrite [bits_eq_div_mod, bits_eq_div_mod]
  omega

/-- Witness for C13: the instruction word `0xF000A800`. -/
theorem arm_emit_thumb_w_insn_order_witness :
    (arm_emit_thumb_w_insn (fun _ => 0) 0 0xF000A800).2 0 = bits 0xF000A800 16 31 ∧
    (arm_emit_thumb_w_insn (fun _ => 0) 0 0xF000A800).2 (0 + 1) = bits 0xF000A800 0 15 :=
  ⟨(arm_emit_thumb_w_insn_order (fun _ => 0) 0 0xF000A800 (by decide)).2.1,
    (arm_emit_thumb_w_insn_order (fun _ => 0) 0 0xF000A800 (by decide)).2.2.1⟩

/-- C14: for every 32-bit `val` and register `reg`, `arm_emit_arm_mov_32`
returns `mem + 2` and writes the `MOVW` word
`w0 = ARM_MOVW | AL << 28 | val[15:12] << 16 | (reg & 0xF) << 12 | val[11:0]`
followed by the `MOVT` word
`w1 = ARM_MOVT | AL << 28 | val[31:28] << 16 | (reg & 0xF) << 12 | val[27:16]`
(the skeletons being 32-bit constants), so that the opcode bits [27:20] of
`w0` are those of `ARM_MOVW` and those of `w1` are those of `ARM_MOVT`; both
words have condition AL and destination field [15:12] equal to `reg & 0xF`,
and their immediates `field (w) = w[19:16] << 12 | w[11:0]` reassemble to the
constant: `field (w1) << 16 | field (w0) = val` (the skeletons `ARM_MOVW` and
`ARM_MOVT` being clear in these fields). -/
theorem arm_mov_32_round_trip (k : Opcodes) (m : CodeBuf) (mem : Nat) (reg : Int) (val : Nat)
    (hval : val < 2 ^ 32)
    (hw : bits k.ARM_MOVW 28 31 = 0 ∧ bits k.ARM_MOVW 16 19 = 0 ∧ bits k.ARM_MOVW 12 15 = 0 ∧
      bits k.ARM_MOVW 0 11 = 0)
    (ht : bits k.ARM_MOVT 28 31 = 0 ∧ bits k.ARM_MOVT 16 19 = 0 ∧ bits k.ARM_MOVT 12 15 = 0 ∧
      bits k.ARM_MOVT 0 11 = 0) :
    (k.ARM_MOVW < 2 ^ 32 →
      (arm_emit_arm_mov_32 k m mem reg val).2 mem
        = k.ARM_MOVW ||| AL <<< 28 ||| (bits val 12 15) <<< 16 ||| (reg % 16).toNat <<< 12
          ||| bits val 0 11) ∧
    (k.ARM_MOVT < 2 ^ 32 →
      (arm_emit_arm_mov_32 k m mem reg val).2 (mem + 1)
        = k.ARM_MOVT ||| AL <<< 28 ||| (bits val 28 31) <<< 16 ||| (reg % 16).toNat <<< 12
          ||| bits val 16 27) ∧
    bits ((arm_emit_arm_mov_32 k m mem reg val).2 mem) 20 27 = bits k.ARM_MOVW 20 27 ∧
    bits ((arm_emit_arm_mov_32 k m mem reg val).2 (mem + 1)) 20 27 = bits k.ARM_MOVT 20 27 ∧
    (arm_emit_arm_mov_32 k m mem reg val).1 = mem + 2 ∧
    bits ((arm_emit_arm_mov_32 k m mem reg val).2 mem) 28 31 = AL ∧
    bits ((arm_emit_arm_mov_32 k m mem reg val).2 (mem + 1)) 28 31 = AL ∧
    bits ((arm_emit_arm_mov_32 k m mem reg val).2 mem) 12 15 = (reg % 16).toNat ∧
    bits ((arm_emit_arm_mov_32 k m mem reg val).2 (mem + 1)) 12 15 = (reg % 16).toNat ∧
    (arm_mov_imm16 ((arm_emit_arm_mov_32 k m mem reg val).2 (mem + 1))) <<< 16
      ||| arm_mov_imm16 ((arm_emit_arm_mov_32 k m mem reg val).2 mem) = val := by
  obtain ⟨e0, e1⟩ := arm_emit_arm_mov_32_words k m mem reg val
  have hreg : (reg % 2 ^ 8).toNat % 2 ^ 4 = (reg % 16).toNat := by
    norm_num
    omega
  have n0 : k.ARM_MOVW < 2 ^ 32 →
      (arm_emit_arm_mov_32 k m mem reg val).2 mem
        = k.ARM_MOVW ||| AL <<< 28 ||| (bits val 12 15) <<< 16 ||| (reg % 16).toNat <<< 12
          ||| bits val 0 11 := by
    intro hk
    rewrite [e0, mov_32_low_bits val 12 15 (by omega) (by omega),
      mov_32_low_bits val 0 11 (by omega) (by omega), ← hreg]
    exact arm_mov_word_shifts k.ARM_MOVW AL _ _ _ hk (by decide) (bits_lt val 12 15)
      (bits_lt val 0 11)
  have n1 : k.ARM_MOVT < 2 ^ 32 →
      (arm_emit_arm_mov_32 k m mem reg val).2 (mem + 1)
        = k.ARM_MOVT ||| AL <<< 28 ||| (bits val 28 31) <<< 16 ||| (reg % 16).toNat <<< 12
          ||| bits val 16 27 := by
    intro hk
    rewrite [e1, mov_32_high_bits val 12 15 (by omega) (by omega),
      mov_32_high_bits val 0 11 (by omega) (by omega), ← hreg]
    exact arm_mov_word_shifts k.ARM_MOVT AL _ _ _ hk (by decide) (bits_lt val 28 31)
      (bits_lt val 16 27)
  have o0 : bits ((arm_emit_arm_mov_32 k m mem reg val).2 mem) 20 27
      = bits k.ARM_MOVW 20 27 := by
    rewrite [e0, bits_mod _ 32 20 27 (by omega) (by omega)]
    exact arm_movw_opcode_bits k.ARM_MOVW _ _ _ _
  have o1 : bits ((arm_emit_arm_mov_32 k m mem reg val).2 (mem + 1)) 20 27
      = bits k.ARM_MOVT 20 27 := by
    rewrite [e1, bits_mod _ 32 20 27 (by omega) (by omega)]
    exact arm_movw_opcode_bits k.ARM_MOVT _ _ _ _
  refine ⟨n0, n1, o0, o1, ?_⟩
  obtain ⟨a28, a16, a12, a0⟩ := arm_movw_fields k.ARM_MOVW AL
    (bits ((bits (val % 2 ^ 32) 0 15 % 2 ^ 16) % 2 ^ 32) 12 15) (reg % 2 ^ 8).toNat
    (bits ((bits (val % 2 ^ 32) 0 15 % 2 ^ 16) % 2 ^ 32) 0 11)
  obtain ⟨b28, b16, b12, b0⟩ := arm_movw_fields k.ARM_MOVT AL
    (bits ((bits (val % 2 ^ 32) 16 31 % 2 ^ 16) % 2 ^ 32) 12 15) (reg % 2 ^ 8).toNat
    (bits ((bits (val % 2 ^ 32) 16 31 % 2 ^ 16) % 2 ^ 32) 0 11)
  rewrite [hw.1, Nat.zero_or] at a28
  rewrite [hw.2.1, Nat.zero_or] at a16
  rewrite [hw.2.2.1, Nat.zero_or] at a12
  rewrite [hw.2.2.2, Nat.zero_or] at a0
  rewrite [ht.1, Nat.zero_or] at b28
  rewrite [ht.2.1, Nat.zero_or] at b16
  rewrite [ht.2.2.1, Nat.zero_or] at b12
  rewrite [ht.2.2.2, Nat.zero_or] at b0
  have hal : AL % 2 ^ 4 = AL := by decide
  rewrite [hreg] at a12 b12
  rewrite [hal] at a28 b28
  generalize k.ARM_MOVW ||| _ ||| _ ||| _ ||| _ = w0 at e0 a28 a16 a12 a0
  generalize k.ARM_MOVT ||| _ ||| _ ||| _ ||| _ = w1 at e1 b28 b16 b12 b0
  unfold arm_mov_imm16
  rewrite [e0, e1]
  rewrite [bits_mod w0 32 28 31 (by omega) (by omega), bits_mod w1 32 28 31 (by omega) (by omega),
    bits_mod w0 32 12 15 (by omega) (by omega), bits_mod w1 32 12 15 (by omega) (by omega),
    bits_mod w0 32 16 19 (by omega) (by omega), bits_mod w1 32 16 19 (by omega) (by omega),
    bits_mod w0 32 0 11 (by omega) (by omega), bits_mod w1 32 0 11 (by omega) (by omega)]
  rewrite [a28, a16, a12, a0, b28, b16, b12, b0]
  exact ⟨rfl, rfl, rfl, rfl, rfl, mov_32_arith val hval⟩

/-- Witness for C14: the constant `0x12345678` into register 3 with the sample
skeleton table gives `movw r3, #0x5678` (`0xE3053678`) followed by
`movt r3, #0x1234` (`0xE3413234`); the round trip at `0x00000000`,
`0x12345678` and `0xFFFFFFFF`. -/
theorem arm_mov_32_round_trip_witness :
    (arm_emit_arm_mov_32 sampleOpcodes (fun _ => 0) 0 3 0x12345678).2 0 = 0xE3053678 ∧
    (arm_emit_arm_mov_32 sampleOpcodes (fun _ => 0) 0 3 0x12345678).2 (0 + 1) = 0xE3413234 ∧
    ((arm_mov_imm16 ((arm_emit_arm_mov_32 sampleOpcodes (fun _ => 0) 0 3 0x00000000).2 (0 + 1)))
        <<< 16
      ||| arm_mov_imm16 ((arm_emit_arm_mov_32 sampleOpcodes (fun _ => 0) 0 3 0x00000000).2 0)
        = 0x00000000) ∧
    ((arm_mov_imm16 ((arm_emit_arm_mov_32 sampleOpcodes (fun _ => 0) 0 3 0x12345678).2 (0 + 1)))
        <<< 16
      ||| arm_mov_imm16 ((arm_emit_arm_mov_32 sampleOpcodes (fun _ => 0) 0 3 0x12345678).2 0)
        = 0x12345678) ∧
    ((arm_mov_imm16 ((arm_emit_arm_mov_32 sampleOpcodes (fun _ => 0) 0 3 0xFFFFFFFF).2 (0 + 1)))
        <<< 16
      ||| arm_mov_imm16 ((arm_emit_arm_mov_32 sampleOpcodes (fun _ => 0) 0 3 0xFFFFFFFF).2 0)
        = 0xFFFFFFFF) :=
  ⟨(arm_mov_32_round_trip sampleOpcodes (fun _ => 0) 0 3 0x12345678 (by decide) (by decide)
      (by decide)).1 (by decide),
    (arm_mov_32_round_trip sampleOpcodes (fun _ => 0) 0 3 0x12345678 (by decide) (by decide)
      (by decide)).2.1 (by decide),
    (arm_mov_32_round_trip sampleOpcodes (fun _ => 0) 0 3 0x00000000 (by decide) (by decide)
      (by decide)).2.2.2.2.2.2.2.2.2,
    (arm_mov_32_round_trip sampleOpcodes (fun _ => 0) 0 3 0x12345678 (by decide) (by decide)
      (by decide)).2.2.2.2.2.2.2.2.2,
    (arm_mov_32_round_trip sampleOpcodes (fun _ => 0) 0 3 0xFFFFFFFF (by decide) (by decide)
      (by decide)).2.2.2.2.2.2.2.2.2⟩

/-- C15: for every 32-bit `val` and register `reg`, `arm_emit_thumb_mov_32`
returns `mem + 4` and writes four half-words that form the `MOVW` instruction
word `i0 = mem[0] << 16 | mem[1]`, equal to
`THUMB_MOVW | val[11] << 26 | val[15:12] << 16 | val[10:8] << 12 | (reg & 0xF) << 8 | val[7:0]`,
followed by the `MOVT` word `i1 = mem[2] << 16 | mem[3]`, equal to
`THUMB_MOVT | val[27] << 26 | val[31:28] << 16 | val[26:24] << 12 | (reg & 0xF) << 8 | val[23:16]`
(the skeletons being 32-bit constants), so that the opcode bits [31:27],
[25:20] and 15 of `i0` are those of `THUMB_MOVW` and those of `i1` are those
of `THUMB_MOVT`; both words have destination field [11:8] equal to
`reg & 0xF`, and their immediates
`field (i) = i[19:16] << 12 | i[26] << 11 | i[14:12] << 8 | i[7:0]` reassemble
to the constant: `field (i1) << 16 | field (i0) = val` (the skeletons
`THUMB_MOVW` and `THUMB_MOVT` being clear in these fields). -/
theorem thumb_mov_32_round_trip (k : Opcodes) (m : CodeBuf) (mem : Nat) (reg : Int) (val : Nat)
    (hval : val < 2 ^ 32)
    (hw : bit k.THUMB_MOVW 26 = 0 ∧ bits k.THUMB_MOVW 16 19 = 0 ∧ bits k.THUMB_MOVW 12 14 = 0 ∧
      bits k.THUMB_MOVW 8 11 = 0 ∧ bits k.THUMB_MOVW 0 7 = 0)
    (ht : bit k.THUMB_MOVT 26 = 0 ∧ bits k.THUMB_MOVT 16 19 = 0 ∧ bits k.THUMB_MOVT 12 14 = 0 ∧
      bits k.THUMB_MOVT 8 11 = 0 ∧ bits k.THUMB_MOVT 0 7 = 0) :
    (k.THUMB_MOVW < 2 ^ 32 →
      ((arm_emit_thumb_mov_32 k m mem reg val).2 mem) <<< 16
          ||| (arm_emit_thumb_mov_32 k m mem reg val).2 (mem + 1)
        = k.THUMB_MOVW ||| (bit val 11) <<< 26 ||| (bits val 12 15) <<< 16
          ||| (bits val 8 10) <<< 12 ||| (reg % 16).toNat <<< 8 ||| bits val 0 7) ∧
    (k.THUMB_MOVT < 2 ^ 32 →
      ((arm_emit_thumb_mov_32 k m mem reg val).2 (mem + 2)) <<< 16
          ||| (arm_emit_thumb_mov_32 k m mem reg val).2 (mem + 3)
        = k.THUMB_MOVT ||| (bit val 27) <<< 26 ||| (bits val 28 31) <<< 16
          ||| (bits val 24 26) <<< 12 ||| (reg % 16).toNat <<< 8 ||| bits val 16 23) ∧
    (bits (((arm_emit_thumb_mov_32 k m mem reg val).2 mem) <<< 16
        ||| (arm_emit_thumb_mov_32 k m mem reg val).2 (mem + 1)) 27 31 = bits k.THUMB_MOVW 27 31 ∧
      bits (((arm_emit_thumb_mov_32 k m mem reg val).2 mem) <<< 16
        ||| (arm_emit_thumb_mov_32 k m mem reg val).2 (mem + 1)) 20 25 = bits k.THUMB_MOVW 20 25 ∧
      bit (((arm_emit_thumb_mov_32 k m mem reg val).2 mem) <<< 16
        ||| (arm_emit_thumb_mov_32 k m mem reg val).2 (mem + 1)) 15 = bit k.THUMB_MOVW 15) ∧
    (bits (((arm_emit_thumb_mov_32 k m mem reg val).2 (mem + 2)) <<< 16
        ||| (arm_emit_thumb_mov_32 k m mem reg val).2 (mem + 3)) 27 31 = bits k.THUMB_MOVT 27 31 ∧
      bits (((arm_emit_thumb_mov_32 k m mem reg val).2 (mem + 2)) <<< 16
        ||| (arm_emit_thumb_mov_32 k m mem reg val).2 (mem + 3)) 20 25 = bits k.THUMB_MOVT 20 25 ∧
      bit (((arm_emit_thumb_mov_32 k m mem reg val).2 (mem + 2)) <<< 16
        ||| (arm_emit_thumb_mov_32 k m mem reg val).2 (mem + 3)) 15 = bit k.THUMB_MOVT 15) ∧
    (arm_emit_thumb_mov_32 k m mem reg val).1 = mem + 4 ∧
    bits (((arm_emit_thumb_mov_32 k m mem reg val).2 mem) <<< 16
      ||| (arm_emit_thumb_mov_32 k m mem reg val).2 (mem + 1)) 8 11 = (reg % 16).toNat ∧
    bits (((arm_emit_thumb_mov_32 k m mem reg val).2 (mem + 2)) <<< 16
      ||| (arm_emit_thumb_mov_32 k m mem reg val).2 (mem + 3)) 8 11 = (reg % 16).toNat ∧
    (thumb_mov_imm16 (((arm_emit_thumb_mov_32 k m mem reg val).2 (mem + 2)) <<< 16
        ||| (arm_emit_thumb_mov_32 k m mem reg val).2 (mem + 3))) <<< 16
      ||| thumb_mov_imm16 (((arm_emit_thumb_mov_32 k m mem reg val).2 mem) <<< 16
        ||| (arm_emit_thumb_mov_32 k m mem reg val).2 (mem + 1)) = val := by
  obtain ⟨e0, e1⟩ := arm_emit_thumb_mov_32_words k m mem reg val
  have hreg : (reg % 2 ^ 8).toNat % 2 ^ 4 = (reg % 16).toNat := by
    norm_num
    omega
  have n0 : k.THUMB_MOVW < 2 ^ 32 →
      ((arm_emit_thumb_mov_32 k m mem reg val).2 mem) <<< 16
          ||| (arm_emit_thumb_mov_32 k m mem reg val).2 (mem + 1)
        = k.THUMB_MOVW ||| (bit val 11) <<< 26 ||| (bits val 12 15) <<< 16
          ||| (bits val 8 10) <<< 12 ||| (reg % 16).toNat <<< 8 ||| bits val 0 7 := by
    intro hk
    rewrite [e0, mov_32_low_bit val 11 (by omega),
      mov_32_low_bits val 12 15 (by omega) (by omega),
      mov_32_low_bits val 8 10 (by omega) (by omega),
      mov_32_low_bits val 0 7 (by omega) (by omega), ← hreg]
    exact thumb_mov_word_shifts k.THUMB_MOVW _ _ _ _ _ hk (bit_lt_two val 11)
      (bits_lt val 12 15) (bits_lt val 8 10) (bits_lt val 0 7)
  have n1 : k.THUMB_MOVT < 2 ^ 32 →
      ((arm_emit_thumb_mov_32 k m mem reg val).2 (mem + 2)) <<< 16
          ||| (arm_emit_thumb_mov_32 k m mem reg val).2 (mem + 3)
        = k.THUMB_MOVT ||| (bit val 27) <<< 26 ||| (bits val 28 31) <<< 16
          ||| (bits val 24 26) <<< 12 ||| (reg % 16).toNat <<< 8 ||| bits val 16 23 := by
    intro hk
    rewrite [e1, mov_32_high_bit val 11 (by omega),
      mov_32_high_bits val 12 15 (by omega) (by omega),
      mov_32_high_bits val 8 10 (by omega) (by omega),
      mov_32_high_bits val 0 7 (by omega) (by omega), ← hreg]
    exact thumb_mov_word_shifts k.THUMB_MOVT _ _ _ _ _ hk (bit_lt_two val 27)
      (bits_lt val 28 31) (bits_lt val 24 26) (bits_lt val 16 23)
  have o0 := thumb_movw_opcode_bits k.THUMB_MOVW
    (bit ((bits (val % 2 ^ 32) 0 15 % 2 ^ 16) % 2 ^ 32) 11)
    (bits ((bits (val % 2 ^ 32) 0 15 % 2 ^ 16) % 2 ^ 32) 12 15)
    (bits ((bits (val % 2 ^ 32) 0 15 % 2 ^ 16) % 2 ^ 32) 8 10) (reg % 2 ^ 8).toNat
    (bits ((bits (val % 2 ^ 32) 0 15 % 2 ^ 16) % 2 ^ 32) 0 7)
  have o1 := thumb_movw_opcode_bits k.THUMB_MOVT
    (bit ((bits (val % 2 ^ 32) 16 31 % 2 ^ 16) % 2 ^ 32) 11)
    (bits ((bits (val % 2 ^ 32) 16 31 % 2 ^ 16) % 2 ^ 32) 12 15)
    (bits ((bits (val % 2 ^ 32) 16 31 % 2 ^ 16) % 2 ^ 32) 8 10) (reg % 2 ^ 8).toNat
    (bits ((bits (val % 2 ^ 32) 16 31 % 2 ^ 16) % 2 ^ 32) 0 7)
  refine ⟨n0, n1, ?_, ?_, ?_⟩
  · rewrite [e0, bits_mod _ 32 27 31 (by omega) (by omega),
      bits_mod _ 32 20 25 (by omega) (by omega), bit_mod _ 32 15 (by omega)]
    exact o0
  · rewrite [e1, bits_mod _ 32 27 31 (by omega) (by omega),
      bits_mod _ 32 20 25 (by omega) (by omega), bit_mod _ 32 15 (by omega)]
    exact o1
  obtain ⟨a26, a16, a12, a8, a0⟩ := thumb_movw_fields k.THUMB_MOVW
    (bit ((bits (val % 2 ^ 32) 0 15 % 2 ^ 16) % 2 ^ 32) 11)
    (bits ((bits (val % 2 ^ 32) 0 15 % 2 ^ 16) % 2 ^ 32) 12 15)
    (bits ((bits (val % 2 ^ 32) 0 15 % 2 ^ 16) % 2 ^ 32) 8 10) (reg % 2 ^ 8).toNat
    (bits ((bits (val % 2 ^ 32) 0 15 % 2 ^ 16) % 2 ^ 32) 0 7)
  obtain ⟨b26, b16, b12, b8, b0⟩ := thumb_movw_fields k.THUMB_MOVT
    (bit ((bits (val % 2 ^ 32) 16 31 % 2 ^ 16) % 2 ^ 32) 11)
    (bits ((bits (val % 2 ^ 32) 16 31 % 2 ^ 16) % 2 ^ 32) 12 15)
    (bits ((bits (val % 2 ^ 32) 16 31 % 2 ^ 16) % 2 ^ 32) 8 10) (reg % 2 ^ 8).toNat
    (bits ((bits (val % 2 ^ 32) 16 31 % 2 ^ 16) % 2 ^ 32) 0 7)
  rewrite [hw.1, Nat.zero_or] at a26
  rewrite [hw.2.1, Nat.zero_or] at a16
  rewrite [hw.2.2.1, Nat.zero_or] at a12
  rewrite [hw.2.2.2.1, Nat.zero_or] at a8
  rewrite [hw.2.2.2.2, Nat.zero_or] at a0
  rewrite [ht.1, Nat.zero_or] at b26
  rewrite [ht.2.1, Nat.zero_or] at b16
  rewrite [ht.2.2.1, Nat.zero_or] at b12
  rewrite [ht.2.2.2.1, Nat.zero_or] at b8
  rewrite [ht.2.2.2.2, Nat.zero_or] at b0
  rewrite [hreg] at a8 b8
  generalize k.THUMB_MOVW ||| _ ||| _ ||| _ ||| _ ||| _ = i0 at e0 a26 a16 a12 a8 a0
  generalize k.THUMB_MOVT ||| _ ||| _ ||| _ ||| _ ||| _ = i1 at e1 b26 b16 b12 b8 b0
  unfold thumb_mov_imm16
  rewrite [e0, e1]
  rewrite [bit_mod i0 32 26 (by omega), bit_mod i1 32 26 (by omega),
    bits_mod i0 32 16 19 (by omega) (by omega), bits_mod i1 32 16 19 (by omega) (by omega),
    bits_mod i0 32 12 14 (by omega) (by omega), bits_mod i1 32 12 14 (by omega) (by omega),
    bits_mod i0 32 8 11 (by omega) (by omega), bits_mod i1 32 8 11 (by omega) (by omega),
    bits_mod i0 32 0 7 (by omega) (by omega), bits_mod i1 32 0 7 (by omega) (by omega)]
  rewrite [a26, a16, a12, a8, a0, b26, b16, b12, b8, b0]
  exact ⟨rfl, rfl, rfl, thumb_mov_32_arith val hval⟩

/-- Witness for C15: the constant `0x12345678` into register 3 with the sample
skeleton table gives `movw r3, #0x5678` (`0xF2456378`) followed by
`movt r3, #0x1234` (`0xF2C12334`) and returns `mem + 4`; the round trip at
`0x00000000`, `0x12345678` and `0xFFFFFFFF`. -/
theorem thumb_mov_32_round_trip_witness :
    (((arm_emit_thumb_mov_32 sampleOpcodes (fun _ => 0) 0 3 0x12345678).2 0) <<< 16
        ||| (arm_emit_thumb_mov_32 sampleOpcodes (fun _ => 0) 0 3 0x12345678).2 (0 + 1)
      = 0xF2456378) ∧
    (((arm_emit_thumb_mov_32 sampleOpcodes (fun _ => 0) 0 3 0x12345678).2 (0 + 2)) <<< 16
        ||| (arm_emit_thumb_mov_32 sampleOpcodes (fun _ => 0) 0 3 0x12345678).2 (0 + 3)
      = 0xF2C12334) ∧
    (arm_emit_thumb_mov_32 sampleOpcodes (fun _ => 0) 0 3 0x12345678).1 = 0 + 4 ∧
    ((thumb_mov_imm16 (((arm_emit_thumb_mov_32 sampleOpcodes (fun _ => 0) 0 3 0x00000000).2
          (0 + 2)) <<< 16
        ||| (arm_emit_thumb_mov_32 sampleOpcodes (fun _ => 0) 0 3 0x00000000).2 (0 + 3))) <<< 16
      ||| thumb_mov_imm16 (((arm_emit_thumb_mov_32 sampleOpcodes (fun _ => 0) 0 3 0x00000000).2
          0) <<< 16
        ||| (arm_emit_thumb_mov_32 sampleOpcodes (fun _ => 0) 0 3 0x00000000).2 (0 + 1))
      = 0x00000000) ∧
    ((thumb_mov_imm16 (((arm_emit_thumb_mov_32 sampleOpcodes (fun _ => 0) 0 3 0x12345678).2
          (0 + 2)) <<< 16
        ||| (arm_emit_thumb_mov_32 sampleOpcodes (fun _ => 0) 0 3 0x12345678).2 (0 + 3))) <<< 16
      ||| thumb_mov_imm16 (((arm_emit_thumb_mov_32 sampleOpcodes (fun _ => 0) 0 3 0x12345678).2
          0) <<< 16
        ||| (arm_emit_thumb_mov_32 sampleOpcodes (fun _ => 0) 0 3 0x12345678).2 (0 + 1))
      = 0x12345678) ∧
    ((thumb_mov_imm16 (((arm_emit_thumb_mov_32 sampleOpcodes (fun _ => 0) 0 3 0xFFFFFFFF).2
          (0 + 2)) <<< 16
        ||| (arm_emit_thumb_mov_32 sampleOpcodes (fun _ => 0) 0 3 0xFFFFFFFF).2 (0 + 3))) <<< 16
      ||| thumb_mov_imm16 (((arm_emit_thumb_mov_32 sampleOpcodes (fun _ => 0) 0 3 0xFFFFFFFF).2
          0) <<< 16
        ||| (arm_emit_thumb_mov_32 sampleOpcodes (fun _ => 0) 0 3 0xFFFFFFFF).2 (0 + 1))
      = 0xFFFFFFFF) :=
  ⟨(thumb_mov_32_round_trip sampleOpcodes (fun _ => 0) 0 3 0x12345678 (by decide) (by decide)
      (by decide)).1 (by decide),
    (thumb_mov_32_round_trip sampleOpcodes (fun _ => 0) 0 3 0x12345678 (by decide) (by decide)
      (by decide)).2.1 (by decide),
    (thumb_mov_32_round_trip sampleOpcodes (fun _ => 0) 0 3 0x12345678 (by decide) (by decide)
      (by decide)).2.2.2.2.1,
    (thumb_mov_32_round_trip sampleOpcodes (fun _ => 0) 0 3 0x00000000 (by decide) (by decide)
      (by decide)).2.2.2.2.2.2.2,
    (thumb_mov_32_round_trip sampleOpcodes (fun _ => 0) 0 3 0x12345678 (by decide) (by decide)
      (by decide)).2.2.2.2.2.2.2,
    (thumb_mov_32_round_trip sampleOpcodes (fun _ => 0) 0 3 0xFFFFFFFF (by decide) (by decide)
      (by decide)).2.2.2.2.2.2.2⟩

/-- C16: for `from + length <= 16` and a 16-bit `extra`,
`encode_register_list (from, length, extra)` is
`((2^length - 1) << from) | extra`, which is also
`repeat_bit (1, from, length) | extra`; in particular
`encode_register_list (4, 3, 0) = 0x70` and
`encode_register_list (from, 0, extra) = extra`. -/
theorem encode_register_list_eq (frm length extra : Nat) (h : frm + length ≤ 16)
    (he : extra < 2 ^ 16) :
    encode_register_list frm length extra = (2 ^ length - 1) <<< frm ||| extra ∧
    encode_register_list frm length extra = repeat_bit 1 frm length ||| extra ∧
    encode_register_list 4 3 0 = 0x70 ∧
    encode_register_list frm 0 extra = extra := by
  have hmod : extra % 2 ^ 16 = extra := Nat.mod_eq_of_lt he
  have hor : ∀ n, encode_register_list frm n extra = repeat_bit 1 frm n ||| extra := by
    intro n
    unfold encode_register_list
    rewrite [hmod]
    exact Nat.mod_eq_of_lt (Nat.or_lt_two_pow (repeat_bit_lt 1 frm n) he)
  refine ⟨?_, hor length, by decide, ?_⟩
  · rewrite [hor, repeat_bit_one_eq frm length h]
    rfl
  · rewrite [hor]
    exact Nat.zero_or extra

/-- Witness for C16: registers r4..r6 together with the flag bit 14. -/
theorem encode_register_list_eq_witness :
    encode_register_list 4 3 0x4000 = (2 ^ 3 - 1) <<< 4 ||| 0x4000 :=
  (encode_register_list_eq 4 3 0x4000 (by decide) (by decide)).1

/-- C17: for `from + length <= 16` and a position `i < 16`, bit `i` of
`repeat_bit (bit_value, from, length)` is set exactly when
`(bit_value & 1) = 1` and `from <= i < from + length`; hence
`repeat_bit (0, from, length) = 0`, and only the low bit of `bit_value`
matters. -/
theorem repeat_bit_bits (b frm length i : Nat) (h : frm + length ≤ 16) (hi : i < 16) :
    (bit (repeat_bit b frm length) i = 1 ↔ (b &&& 1 = 1 ∧ frm ≤ i ∧ i < frm + length)) ∧
    repeat_bit 0 frm length = 0 ∧
    repeat_bit b frm length = repeat_bit (b &&& 1) frm length := by
  have h1 : frm % 2 ^ 8 = frm := Nat.mod_eq_of_lt (by omega)
  have h2 : length % 2 ^ 8 = length := Nat.mod_eq_of_lt (by omega)
  refine ⟨?_, ?_, ?_⟩
  · rewrite [bit_eq_one_iff_testBit, repeat_bit_testBit, h1, h2]
    constructor
    · intro hh
      exact ⟨hh.2.2.2, hh.2.1, hh.2.2.1⟩
    · intro hh
      exact ⟨hi, hh.2.1, hh.2.2, hh.1⟩
  · apply Nat.eq_of_testBit_eq
    intro j
    rewrite [Nat.zero_testBit]
    cases hj : (repeat_bit 0 frm length).testBit j with
    | false => rfl
    | true =>
      have := ((repeat_bit_testBit 0 frm length j).1 hj).2.2.2
      exact absurd this (by decide)
  · apply Nat.eq_of_testBit_eq
    intro j
    rewrite [Bool.eq_iff_iff, repeat_bit_testBit, repeat_bit_testBit, Nat.and_assoc,
      Nat.and_self]
    rfl

/-- Witness for C17: bit 5 of the run of three set bits from position 4. -/
theorem repeat_bit_bits_witness :
    bit (repeat_bit 1 4 3) 5 = 1 ↔ (1 &&& 1 = 1 ∧ 4 ≤ 5 ∧ 5 < 4 + 3) :=
  (repeat_bit_bits 1 4 3 5 (by decide) (by decide)).1

/-- C18, as the specification states it, fails: from `0x1000` to `0x2000` the
helper returns `0xFF8`, not the raw difference `0x1000`. -/
theorem arm_relative_distance_raw_counterexample :
    arm_arm_branch_relative_distance 0x1000 0x2000 = 0xFF8 ∧
    ¬ (((arm_arm_branch_relative_distance 0x1000 0x2000 : Nat) : Int)
        = ((0x2000 : Int) - 0x1000) % 2 ^ 32) := by
  constructor <;> decide

/-- C18 (amended): `arm_arm_branch_relative_distance (from, to)` is
`arm_arm_branch_adjusted_offset` applied to the raw difference
`(to - from) mod 2^32`, that is `(to - from - 8) mod 2^32`: the helper applies
the fetch bias of 8 itself. -/
theorem arm_relative_distance_adjusted (frm tgt : Nat) :
    arm_arm_branch_relative_distance frm tgt
      = arm_arm_branch_adjusted_offset (sub32 tgt frm) ∧
    ((sub32 tgt frm : Nat) : Int) = ((tgt : Int) - frm) % 2 ^ 32 ∧
    ((arm_arm_branch_relative_distance frm tgt : Nat) : Int)
      = ((tgt : Int) - frm - 8) % 2 ^ 32 := by
  refine ⟨?_, sub32_cast tgt frm, ?_⟩
  · unfold arm_arm_branch_relative_distance arm_arm_branch_adjusted_offset sub32
    omega
  · unfold arm_arm_branch_relative_distance arm_arm_branch_adjusted_offset
    rewrite [sub32_cast, sub32_cast]
    omega

/-- C19: for every offset `d`, `arm_arm_branch_adjusted_offset (d)` is
`(d - 8) mod 2^32` and `arm_thumb_branch_adjusted_offset (d)` is
`(d - 4) mod 2^32`; both wrap for `d < 8` and `d < 4`. -/
theorem adjusted_offset_wraps (d : Nat) :
    ((arm_arm_branch_adjusted_offset d : Nat) : Int) = ((d : Int) - 8) % 2 ^ 32 ∧
    ((arm_thumb_branch_adjusted_offset d : Nat) : Int) = ((d : Int) - 4) % 2 ^ 32 ∧
    arm_arm_branch_adjusted_offset 0 = 0xFFFFFFF8 ∧
    arm_arm_branch_adjusted_offset 7 = 0xFFFFFFFF ∧
    arm_thumb_branch_adjusted_offset 0 = 0xFFFFFFFC ∧
    arm_thumb_branch_adjusted_offset 3 = 0xFFFFFFFF :=
  ⟨sub32_cast d 8, sub32_cast d 4, by decide, by decide, by decide, by decide⟩

/-- C20: for 32-bit addresses, `arm_thumb_branch_relative_distance` gives the
same result on `(from & ~1, to & ~1)` as on `(from, to)`, so it does not
depend on bit 0 of either address, and
`arm_thumb_to_arm_branch_relative_distance` gives the same result on
`(from & ~3, to & ~3)`, so it does not depend on bits [1:0] of either
address. -/
theorem thumb_distance_strips_mode_bits (frm tgt frm2 tgt2 : Nat)
    (hf : frm < 2 ^ 32) (ht : tgt < 2 ^ 32) (hf2 : frm2 < 2 ^ 32) (ht2 : tgt2 < 2 ^ 32) :
    arm_thumb_branch_relative_distance frm tgt
      = arm_thumb_branch_relative_distance (frm &&& 0xFFFFFFFE) (tgt &&& 0xFFFFFFFE) ∧
    arm_thumb_to_arm_branch_relative_distance frm tgt
      = arm_thumb_to_arm_branch_relative_distance (frm &&& 0xFFFFFFFC) (tgt &&& 0xFFFFFFFC) ∧
    (frm2 &&& 0xFFFFFFFE = frm &&& 0xFFFFFFFE → tgt2 &&& 0xFFFFFFFE = tgt &&& 0xFFFFFFFE →
      arm_thumb_branch_relative_distance frm2 tgt2
        = arm_thumb_branch_relative_distance frm tgt) ∧
    (frm2 &&& 0xFFFFFFFC = frm &&& 0xFFFFFFFC → tgt2 &&& 0xFFFFFFFC = tgt &&& 0xFFFFFFFC →
      arm_thumb_to_arm_branch_relative_distance frm2 tgt2
        = arm_thumb_to_arm_branch_relative_distance frm tgt) := by
  refine ⟨?_, ?_, ?_, ?_⟩
  · unfold arm_thumb_branch_relative_distance
    dsimp only
    rewrite [and_mask_idem frm _ hf, and_mask_idem tgt _ ht]
    rfl
  · unfold arm_thumb_to_arm_branch_relative_distance
    dsimp only
    rewrite [and_mask_idem frm _ hf, and_mask_idem tgt _ ht]
    rfl
  · intro h1 h2
    unfold arm_thumb_branch_relative_distance
    dsimp only
    rewrite [Nat.mod_eq_of_lt hf, Nat.mod_eq_of_lt ht, Nat.mod_eq_of_lt hf2,
      Nat.mod_eq_of_lt ht2, h1, h2]
    rfl
  · intro h1 h2
    unfold arm_thumb_to_arm_branch_relative_distance
    dsimp only
    rewrite [Nat.mod_eq_of_lt hf, Nat.mod_eq_of_lt ht, Nat.mod_eq_of_lt hf2,
      Nat.mod_eq_of_lt ht2, h1, h2]
    rfl

/-- Witness for C20: the Thumb addresses `0x8001` and `0x9003`, against the
same addresses with their low bits cleared. -/
theorem thumb_distance_strips_mode_bits_witness :
    arm_thumb_branch_relative_distance 0x8001 0x9003
      = arm_thumb_branch_relative_distance (0x8001 &&& 0xFFFFFFFE) (0x9003 &&& 0xFFFFFFFE) ∧
    arm_thumb_to_arm_branch_relative_distance 0x8000 0x9000
      = arm_thumb_to_arm_branch_relative_distance 0x8001 0x9003 :=
  ⟨(thumb_distance_strips_mode_bits 0x8001 0x9003 0x8000 0x9000 (by decide) (by decide)
      (by decide) (by decide)).1,
    (thumb_distance_strips_mode_bits 0x8001 0x9003 0x8000 0x9000 (by decide) (by decide)
      (by decide) (by decide)).2.2.2 (by decide) (by decide)⟩

/-- C21: field overflow is truncation, never an error: `arm_emit_arm_movw`
with an immediate `v` returns 1 and writes the same word as with `rd mod 16`
and `v mod 2^16`, and `arm_emit_thumb_cmp` with an immediate `v` returns 1 and
writes the same half-word as with `rn mod 8` and `v mod 256`. -/
theorem field_overflow_truncates (k : Opcodes) (m : CodeBuf) (buf cond rd rn v : Nat) :
    (arm_emit_arm_movw k m buf cond rd (.Immediate v)).1 = 1 ∧
    arm_emit_arm_movw k m buf cond rd (.Immediate v)
      = arm_emit_arm_movw k m buf cond (rd % 16) (.Immediate (v % 2 ^ 16)) ∧
    (arm_emit_thumb_cmp k m buf rn (.Immediate v)).1 = 1 ∧
    arm_emit_thumb_cmp k m buf rn (.Immediate v)
      = arm_emit_thumb_cmp k m buf (rn % 8) (.Immediate (v % 256)) := by
  have h1 : ENCODE (rd % 16) 4 12 = ENCODE rd 4 12 := ENCODE_mod rd 4 12
  have h2 : bits (v % 2 ^ 16) 12 15 = bits v 12 15 := bits_mod v 16 12 15 (by omega) (by omega)
  have h3 : bits (v % 2 ^ 16) 0 11 = bits v 0 11 := bits_mod v 16 0 11 (by omega) (by omega)
  have h4 : ENCODE (rn % 8) 3 8 = ENCODE rn 3 8 := ENCODE_mod rn 3 8
  have h5 : bits (v % 256) 0 7 = bits v 0 7 := bits_mod v 8 0 7 (by omega) (by omega)
  refine ⟨rfl, ?_, rfl, ?_⟩
  · unfold arm_emit_arm_movw
    dsimp only
    rewrite [h1, h2, h3]
    rfl
  · unfold arm_emit_thumb_cmp
    dsimp only
    rewrite [h4, h5]
    rfl

/-- C22: for an offset-mode memory operand with signed index `d`
(`|d| < 2^31`), `arm_emit_arm_str` returns 1 and writes
`ARM_STR | cond << 28 | 1 << 24 | U << 23 | (rn & 0xF) << 16 | (rt & 0xF) << 12
| (|d| & 0xFFF)` with `U = 1` for `d >= 0` and `U = 0` for `d < 0`; so for
`d` other than 0 the words written for `d` and for `-d` differ in exactly
bit 23 (the skeleton `ARM_STR` being clear in bit 23). -/
theorem arm_str_offset_word (k : Opcodes) (m : CodeBuf) (buf cond rt rn : Nat) (d : Int)
    (hk : k.ARM_STR < 2 ^ 32) (hcond : cond < 16)
    (hd : -2147483648 < d ∧ d < 2147483648) (h23 : bit k.ARM_STR 23 = 0) :
    arm_emit_arm_str k m buf cond rt rn (.Memory ⟨MEMORY_OPERAND_OFFSET, d⟩)
      = (1, store m buf (k.ARM_STR ||| cond <<< 28 ||| 1 <<< 24
          ||| (if 0 ≤ d then 1 else 0) <<< 23 ||| (rn &&& 0xF) <<< 16 ||| (rt &&& 0xF) <<< 12
          ||| (d.natAbs &&& 0xFFF))) ∧
    (d ≠ 0 →
      (arm_emit_arm_str k m buf cond rt rn (.Memory ⟨MEMORY_OPERAND_OFFSET, d⟩)).2 buf
        ^^^ (arm_emit_arm_str k m buf cond rt rn (.Memory ⟨MEMORY_OPERAND_OFFSET, -d⟩)).2 buf
        = 1 <<< 23) := by
  have hw : ∀ e : Int, arm_emit_arm_str k m buf cond rt rn (.Memory ⟨MEMORY_OPERAND_OFFSET, e⟩)
      = (1, store m buf (k.ARM_STR ||| ENCODE cond 4 28 ||| ENCODE 1 1 24
          ||| ENCODE (if e < 0 then 0 else 1) 1 23 ||| ENCODE rn 4 16 ||| ENCODE rt 4 12
          ||| ENCODE (bits e.natAbs 0 11) 12 0)) := by
    intro e
    unfold arm_emit_arm_str
    dsimp only
    rewrite [if_pos rfl, ABS_toNat]
    unfold arm_emit_arm_insn
    rewrite [arm_str_word_lt _ _ _ _ _ _ hk]
    rfl
  constructor
  · rewrite [hw]
    have e1 : ENCODE cond 4 28 = cond <<< 28 := ENCODE_of_lt cond 4 28 hcond
    have e2 : ENCODE 1 1 24 = 1 <<< 24 := by decide
    have e3 : ENCODE (if d < 0 then 0 else 1) 1 23 = (if 0 ≤ d then 1 else 0) <<< 23 := by
      by_cases h : d < 0
      · rewrite [if_pos h, if_neg (by omega)]
        decide
      · rewrite [if_neg h, if_pos (by omega)]
        decide
    have e4 : ENCODE rn 4 16 = (rn &&& 0xF) <<< 16 := rfl
    have e5 : ENCODE rt 4 12 = (rt &&& 0xF) <<< 12 := rfl
    have e6 : ENCODE (bits d.natAbs 0 11) 12 0 = d.natAbs &&& 0xFFF := by
      unfold ENCODE bits
      rewrite [Nat.shiftLeft_zero, Nat.shiftRight_zero, Nat.and_assoc, Nat.and_self]
      rfl
    rewrite [e1, e2, e3, e4, e5, e6]
    rfl
  · intro hne
    rewrite [hw, hw]
    show store m buf _ buf ^^^ store m buf _ buf = 1 <<< 23
    rewrite [store_same, store_same, Int.natAbs_neg]
    by_cases h : d < 0
    · rewrite [if_pos h, if_neg (by omega), Nat.xor_comm]
      exact arm_str_word_xor k.ARM_STR cond rn rt _ h23
    · rewrite [if_neg h, if_pos (by omega)]
      exact arm_str_word_xor k.ARM_STR cond rn rt _ h23

/-- Witness for C22: `str r2, [r1, #-4]` against `str r2, [r1, #4]` with the
sample skeleton table. -/
theorem arm_str_offset_word_witness :
    (arm_emit_arm_str sampleOpcodes (fun _ => 0) 0 AL 2 1
        (.Memory ⟨MEMORY_OPERAND_OFFSET, -4⟩)).2 0
      ^^^ (arm_emit_arm_str sampleOpcodes (fun _ => 0) 0 AL 2 1
        (.Memory ⟨MEMORY_OPERAND_OFFSET, - -4⟩)).2 0 = 1 <<< 23 :=
  (arm_str_offset_word sampleOpcodes (fun _ => 0) 0 AL 2 1 (-4) (by decide) (by decide)
    (by decide) (by decide)).2 (by decide)

/-- C23, as the specification states it, fails: for the byte displacement
`d = 4` the field [10:6] of the half-word written by `arm_emit_thumb_str` is
4, not `d / 4 = 1`. -/
theorem thumb_str_scaled_counterexample :
    bits ((arm_emit_thumb_str sampleOpcodes (fun _ => 0) 0 0 0 (.Immediate 4)).2 0) 6 10 = 4 ∧
    ¬ (bits ((arm_emit_thumb_str sampleOpcodes (fun _ => 0) 0 0 0 (.Immediate 4)).2 0) 6 10
        = 4 / 4) := by
  constructor <;> decide

/-- C23 (amended): `arm_emit_thumb_str` places the low 5 bits of the immediate
in the displacement field without scaling: for every immediate `imm` and low
registers `rt`, `rn < 8` it returns 1 and writes a half-word whose field
[10:6] is `imm mod 32`, whose field [5:3] is `rn` and whose field [2:0] is
`rt` (the skeleton `THUMB_STR` being clear in bits [10:0]); so a byte
displacement `d <= 124` is encoded as `d / 4` by passing the immediate
`d / 4`. -/
theorem thumb_str_unscaled (k : Opcodes) (m : CodeBuf) (buf rt rn imm d : Nat)
    (hrt : rt < 8) (hrn : rn < 8)
    (hclear : bits k.THUMB_STR 6 10 = 0 ∧ bits k.THUMB_STR 3 5 = 0 ∧ bits k.THUMB_STR 0 2 = 0) :
    (arm_emit_thumb_str k m buf rt rn (.Immediate imm)).1 = 1 ∧
    bits ((arm_emit_thumb_str k m buf rt rn (.Immediate imm)).2 buf) 6 10 = imm % 32 ∧
    bits ((arm_emit_thumb_str k m buf rt rn (.Immediate imm)).2 buf) 3 5 = rn ∧
    bits ((arm_emit_thumb_str k m buf rt rn (.Immediate imm)).2 buf) 0 2 = rt ∧
    (d ≤ 124 →
      bits ((arm_emit_thumb_str k m buf rt rn (.Immediate (d / 4))).2 buf) 6 10 = d / 4) := by
  have hf : ∀ v, bits ((arm_emit_thumb_str k m buf rt rn (.Immediate v)).2 buf) 6 10 = v % 32 ∧
      bits ((arm_emit_thumb_str k m buf rt rn (.Immediate v)).2 buf) 3 5 = rn ∧
      bits ((arm_emit_thumb_str k m buf rt rn (.Immediate v)).2 buf) 0 2 = rt := by
    intro v
    obtain ⟨f6, f3, f0⟩ := thumb_str_fields k.THUMB_STR v rn rt
    rewrite [hclear.1, Nat.zero_or] at f6
    rewrite [hclear.2.1, Nat.zero_or, Nat.mod_eq_of_lt (show rn < 2 ^ 3 from hrn)] at f3
    rewrite [hclear.2.2, Nat.zero_or, Nat.mod_eq_of_lt (show rt < 2 ^ 3 from hrt)] at f0
    rewrite [arm_emit_thumb_str_eq]
    show bits (store m buf _ buf) 6 10 = _ ∧ bits (store m buf _ buf) 3 5 = _ ∧
      bits (store m buf _ buf) 0 2 = _
    rewrite [store_same]
    generalize k.THUMB_STR ||| _ ||| _ ||| _ = w at f6 f3 f0
    rewrite [bits_mod w 16 6 10 (by omega) (by omega), bits_mod w 16 3 5 (by omega) (by omega),
      bits_mod w 16 0 2 (by omega) (by omega)]
    exact ⟨f6, f3, f0⟩
  refine ⟨rfl, (hf imm).1, (hf imm).2.1, (hf imm).2.2, fun hd => ?_⟩
  rewrite [(hf (d / 4)).1]
  omega

/-- Witness for C23 (amended): `str r1, [r2, #8]` is written by passing the
immediate `8 / 4`. -/
theorem thumb_str_unscaled_witness :
    bits ((arm_emit_thumb_str sampleOpcodes (fun _ => 0) 0 1 2 (.Immediate (8 / 4))).2 0) 6 10
      = 8 / 4 :=
  (thumb_str_unscaled sampleOpcodes (fun _ => 0) 0 1 2 0 8 (by decide) (by decide)
    (by decide)).2.2.2.2 (by decide)

/-- C24: for every immediate `imm`, `arm_emit_thumb_add_sp` returns 1 and
writes the half-word `THUMB_ADD_SP | ((imm >> 2) & 0x7F)`; so for `imm` a
multiple of 4 with `imm <= 508` the low 7-bit field times 4 is `imm` (the
skeleton being clear in bits [6:0]), and the two low bits of `imm` do not
affect the output. -/
theorem thumb_add_sp_word (k : Opcodes) (m : CodeBuf) (buf imm imm2 : Nat)
    (hk : k.THUMB_ADD_SP < 2 ^ 16) (hclear : bits k.THUMB_ADD_SP 0 6 = 0) :
    arm_emit_thumb_add_sp k m buf (.Immediate imm)
      = (1, store m buf (k.THUMB_ADD_SP ||| ((imm >>> 2) &&& 0x7F))) ∧
    (imm % 4 = 0 → imm ≤ 508 →
      bits ((arm_emit_thumb_add_sp k m buf (.Immediate imm)).2 buf) 0 6 * 4 = imm) ∧
    (imm2 >>> 2 = imm >>> 2 →
      arm_emit_thumb_add_sp k m buf (.Immediate imm2)
        = arm_emit_thumb_add_sp k m buf (.Immediate imm)) := by
  have he : ENCODE (imm >>> 2) 7 0 = (imm >>> 2) &&& 0x7F := rfl
  have hlt : (k.THUMB_ADD_SP ||| ENCODE (imm >>> 2) 7 0) % 2 ^ 16
      = k.THUMB_ADD_SP ||| ENCODE (imm >>> 2) 7 0 :=
    Nat.mod_eq_of_lt (Nat.or_lt_two_pow hk (ENCODE_lt_16 _ 7 0 (by omega)))
  have hw : arm_emit_thumb_add_sp k m buf (.Immediate imm)
      = (1, store m buf (k.THUMB_ADD_SP ||| ENCODE (imm >>> 2) 7 0)) := by
    unfold arm_emit_thumb_add_sp arm_emit_thumb_insn
    dsimp only
    rewrite [hlt]
    rfl
  refine ⟨?_, ?_, ?_⟩
  · rewrite [hw, he]
    rfl
  · intro h4 h508
    rewrite [hw]
    show bits (store m buf _ buf) 0 6 * 4 = imm
    rewrite [store_same, bits_or, hclear, Nat.zero_or,
      bits_ENCODE_same _ 7 0 6 (by omega) (by omega), Nat.shiftRight_eq_div_pow]
    omega
  · intro h
    unfold arm_emit_thumb_add_sp
    dsimp only
    rewrite [h]
    rfl

/-- Witness for C24: `add sp, #16` with the sample skeleton table, and the
immediate 19, which has the same bits above bit 1. -/
theorem thumb_add_sp_word_witness :
    bits ((arm_emit_thumb_add_sp sampleOpcodes (fun _ => 0) 0 (.Immediate 16)).2 0) 0 6 * 4
      = 16 ∧
    arm_emit_thumb_add_sp sampleOpcodes (fun _ => 0) 0 (.Immediate 19)
      = arm_emit_thumb_add_sp sampleOpcodes (fun _ => 0) 0 (.Immediate 16) :=
  ⟨(thumb_add_sp_word sampleOpcodes (fun _ => 0) 0 16 19 (by decide) (by decide)).2.1
      (by decide) (by decide),
    (thumb_add_sp_word sampleOpcodes (fun _ => 0) 0 16 19 (by decide) (by decide)).2.2
      (by decide)⟩

/-- C25: for every start register `rs` and length `len`, the ARM `VPUSH` and
`VPOP` emitters write their skeleton or-ed with `cond << 28`,
`(bit 4 of rs) << 22`, `(rs & 0xF) << 12` and `(2 * len) mod 256` in bits
[7:0], and the Thumb `VPUSH` and `VPOP` emitters write two half-words whose
instruction word is their skeleton or-ed with the same three fields; for
`len <= 127` the low 8-bit field is exactly `2 * len` (the skeletons being
clear in bits [7:0]). -/
theorem vpush_vpop_words (k : Opcodes) (m : CodeBuf) (buf cond rs len : Nat)
    (hk : k.ARM_VPUSH < 2 ^ 32 ∧ k.ARM_VPOP < 2 ^ 32 ∧ k.THUMB_VPUSH < 2 ^ 32 ∧
      k.THUMB_VPOP < 2 ^ 32)
    (hcond : cond < 16)
    (hclear : bits k.ARM_VPUSH 0 7 = 0 ∧ bits k.ARM_VPOP 0 7 = 0 ∧ bits k.THUMB_VPUSH 0 7 = 0 ∧
      bits k.THUMB_VPOP 0 7 = 0) :
    arm_emit_arm_vpush k m buf cond rs len
      = (1, store m buf (k.ARM_VPUSH ||| cond <<< 28 ||| (bit rs 4) <<< 22
          ||| (rs &&& 0xF) <<< 12 ||| (2 * len) % 256)) ∧
    arm_emit_arm_vpop k m buf cond rs len
      = (1, store m buf (k.ARM_VPOP ||| cond <<< 28 ||| (bit rs 4) <<< 22
          ||| (rs &&& 0xF) <<< 12 ||| (2 * len) % 256)) ∧
    ((arm_emit_thumb_vpush k m buf rs len).1 = 2 ∧
      ((arm_emit_thumb_vpush k m buf rs len).2 buf) <<< 16
          ||| (arm_emit_thumb_vpush k m buf rs len).2 (buf + 1)
        = k.THUMB_VPUSH ||| (bit rs 4) <<< 22 ||| (rs &&& 0xF) <<< 12 ||| (2 * len) % 256) ∧
    ((arm_emit_thumb_vpop k m buf rs len).1 = 2 ∧
      ((arm_emit_thumb_vpop k m buf rs len).2 buf) <<< 16
          ||| (arm_emit_thumb_vpop k m buf rs len).2 (buf + 1)
        = k.THUMB_VPOP ||| (bit rs 4) <<< 22 ||| (rs &&& 0xF) <<< 12 ||| (2 * len) % 256) ∧
    (len ≤ 127 →
      bits ((arm_emit_arm_vpush k m buf cond rs len).2 buf) 0 7 = 2 * len ∧
      bits ((arm_emit_arm_vpop k m buf cond rs len).2 buf) 0 7 = 2 * len ∧
      bits ((arm_emit_thumb_vpush k m buf rs len).2 (buf + 1)) 0 7 = 2 * len ∧
      bits ((arm_emit_thumb_vpop k m buf rs len).2 (buf + 1)) 0 7 = 2 * len) := by
  refine ⟨?_, ?_, ⟨rfl, ?_⟩, ⟨rfl, ?_⟩, fun hl => ⟨?_, ?_, ?_, ?_⟩⟩
  · unfold arm_emit_arm_vpush arm_emit_arm_insn
    rewrite [arm_vpush_word _ _ _ _ hk.1 hcond]
    rfl
  · unfold arm_emit_arm_vpop arm_emit_arm_insn
    rewrite [arm_vpush_word _ _ _ _ hk.2.1 hcond]
    rfl
  · unfold arm_emit_thumb_vpush
    rewrite [arm_emit_thumb_w_insn_join, thumb_vpush_word _ _ _ hk.2.2.1]
    rfl
  · unfold arm_emit_thumb_vpop
    rewrite [arm_emit_thumb_w_insn_join, thumb_vpush_word _ _ _ hk.2.2.2]
    rfl
  · show bits (store m buf _ buf) 0 7 = 2 * len
    rewrite [store_same, bits_mod _ 32 0 7 (by omega) (by omega)]
    exact (vpush_low_byte k.ARM_VPUSH cond rs len hclear.1 hl).1
  · show bits (store m buf _ buf) 0 7 = 2 * len
    rewrite [store_same, bits_mod _ 32 0 7 (by omega) (by omega)]
    exact (vpush_low_byte k.ARM_VPOP cond rs len hclear.2.1 hl).1
  · unfold arm_emit_thumb_vpush
    rewrite [(arm_emit_thumb_w_insn_eq m buf _).2.2, bits_lo_half _ 0 7 (by omega) (by omega)]
    exact (vpush_low_byte k.THUMB_VPUSH cond rs len hclear.2.2.1 hl).2
  · unfold arm_emit_thumb_vpop
    rewrite [(arm_emit_thumb_w_insn_eq m buf _).2.2, bits_lo_half _ 0 7 (by omega) (by omega)]
    exact (vpush_low_byte k.THUMB_VPOP cond rs len hclear.2.2.2 hl).2

/-- Witness for C25: `vpush {d16-d19}` (`rs = 16`, `len = 4`) with the sample
skeleton table. -/
theorem vpush_vpop_words_witness :
    arm_emit_arm_vpush sampleOpcodes (fun _ => 0) 0 AL 16 4
      = (1, store (fun _ => 0) 0 (sampleOpcodes.ARM_VPUSH ||| AL <<< 28 ||| (bit 16 4) <<< 22
          ||| (16 &&& 0xF) <<< 12 ||| (2 * 4) % 256)) ∧
    bits ((arm_emit_thumb_vpush sampleOpcodes (fun _ => 0) 0 16 4).2 (0 + 1)) 0 7 = 2 * 4 :=
  ⟨(vpush_vpop_words sampleOpcodes (fun _ => 0) 0 AL 16 4 (by decide) (by decide)
      (by decide)).1,
    ((vpush_vpop_words sampleOpcodes (fun _ => 0) 0 AL 16 4 (by decide) (by decide)
      (by decide)).2.2.2.2 (by decide)).2.2.1⟩

/-- C26: for every condition and 16-bit `register_list`,
`arm_emit_arm_push_list` and `arm_emit_arm_pop_list` write
`skeleton | cond << 28 | register_list`; so, the skeletons being clear in bits
[15:0], for `from + length <= 16`, a 16-bit `extra` and a register `r < 16`,
bit `r` of the word written for `encode_register_list (from, length, extra)`
is set exactly when `from <= r < from + length` or bit `r` of `extra` is
set. -/
theorem arm_push_pop_list_word (k : Opcodes) (m : CodeBuf)
    (buf cond register_list frm length extra r : Nat)
    (hk : k.ARM_PUSH_A1 < 2 ^ 32 ∧ k.ARM_POP_A1 < 2 ^ 32) (hcond : cond < 16)
    (hlist : register_list < 2 ^ 16)
    (hclear : bits k.ARM_PUSH_A1 0 15 = 0 ∧ bits k.ARM_POP_A1 0 15 = 0)
    (h : frm + length ≤ 16) (he : extra < 2 ^ 16) (hr : r < 16) :
    arm_emit_arm_push_list k m buf cond register_list
      = (1, store m buf (k.ARM_PUSH_A1 ||| cond <<< 28 ||| register_list)) ∧
    arm_emit_arm_pop_list k m buf cond register_list
      = (1, store m buf (k.ARM_POP_A1 ||| cond <<< 28 ||| register_list)) ∧
    (bit ((arm_emit_arm_push_list k m buf cond (encode_register_list frm length extra)).2 buf) r
        = 1 ↔ ((frm ≤ r ∧ r < frm + length) ∨ bit extra r = 1)) ∧
    (bit ((arm_emit_arm_pop_list k m buf cond (encode_register_list frm length extra)).2 buf) r
        = 1 ↔ ((frm ≤ r ∧ r < frm + length) ∨ bit extra r = 1)) := by
  have hbit : bit (encode_register_list frm length extra) r = 1 ↔
      ((frm ≤ r ∧ r < frm + length) ∨ bit extra r = 1) := by
    rewrite [encode_register_list_or frm length extra he, bit_eq_one_iff_testBit,
      bit_eq_one_iff_testBit, Nat.testBit_or, Bool.or_eq_true, repeat_bit_testBit,
      Nat.mod_eq_of_lt (show frm < 2 ^ 8 by omega),
      Nat.mod_eq_of_lt (show length < 2 ^ 8 by omega)]
    constructor
    · rintro (hh | hh)
      · exact Or.inl ⟨hh.2.1, hh.2.2.1⟩
      · exact Or.inr hh
    · rintro (hh | hh)
      · exact Or.inl ⟨hr, hh.1, hh.2, rfl⟩
      · exact Or.inr hh
  refine ⟨?_, ?_, ?_, ?_⟩
  · unfold arm_emit_arm_push_list arm_emit_arm_insn
    rewrite [(arm_push_list_word _ cond register_list hk.1).1,
      (arm_push_list_word _ cond register_list hk.1).2.1 hcond hlist]
    rfl
  · unfold arm_emit_arm_pop_list arm_emit_arm_insn
    rewrite [(arm_push_list_word _ cond register_list hk.2).1,
      (arm_push_list_word _ cond register_list hk.2).2.1 hcond hlist]
    rfl
  · rewrite [← hbit]
    show bit (store m buf _ buf) r = 1 ↔ _
    rewrite [store_same, (arm_push_list_word _ cond _ hk.1).1,
      (arm_push_list_word _ cond _ hk.1).2.2 hclear.1 r hr]
    rfl
  · rewrite [← hbit]
    show bit (store m buf _ buf) r = 1 ↔ _
    rewrite [store_same, (arm_push_list_word _ cond _ hk.2).1,
      (arm_push_list_word _ cond _ hk.2).2.2 hclear.2 r hr]
    rfl

/-- Witness for C26: `push {r4-r6, lr}` with the sample skeleton table, at
register r5. -/
theorem arm_push_pop_list_word_witness :
    bit ((arm_emit_arm_push_list sampleOpcodes (fun _ => 0) 0 AL
        (encode_register_list 4 3 0x4000)).2 0) 5 = 1 ↔
      ((4 ≤ 5 ∧ 5 < 4 + 3) ∨ bit 0x4000 5 = 1) :=
  (arm_push_pop_list_word sampleOpcodes (fun _ => 0) 0 AL 0x4070 4 3 0x4000 5 (by decide)
    (by decide) (by decide) (by decide) (by decide) (by decide) (by decide)).2.2.1

/-- C27: `arm_emit_thumb_push_list` writes the instruction word
`THUMB_PUSH_T2 | (lr & 1) << 14 | (list & 0x1FFF)` and
`arm_emit_thumb_popw_list` the instruction word
`THUMB_POPW | (pc & 1) << 15 | (lr & 1) << 14 | (list & 0x1FFF)`; hence two
calls whose `register_list` arguments agree in bits [12:0] (differ only in
bits 13, 14 or 15) write identical half-words. -/
theorem thumb_push_pop_list_word (k : Opcodes) (m : CodeBuf) (buf list list2 lr pc : Nat)
    (hk : k.THUMB_PUSH_T2 < 2 ^ 32 ∧ k.THUMB_POPW < 2 ^ 32) :
    ((arm_emit_thumb_push_list k m buf list lr).2 buf) <<< 16
        ||| (arm_emit_thumb_push_list k m buf list lr).2 (buf + 1)
      = k.THUMB_PUSH_T2 ||| (lr &&& 1) <<< 14 ||| (list &&& 0x1FFF) ∧
    ((arm_emit_thumb_popw_list k m buf list pc lr).2 buf) <<< 16
        ||| (arm_emit_thumb_popw_list k m buf list pc lr).2 (buf + 1)
      = k.THUMB_POPW ||| (pc &&& 1) <<< 15 ||| (lr &&& 1) <<< 14 ||| (list &&& 0x1FFF) ∧
    (list2 &&& 0x1FFF = list &&& 0x1FFF →
      arm_emit_thumb_push_list k m buf list2 lr = arm_emit_thumb_push_list k m buf list lr ∧
      arm_emit_thumb_popw_list k m buf list2 pc lr
        = arm_emit_thumb_popw_list k m buf list pc lr) := by
  have e1 : ENCODE (bit lr 0) 1 14 = (lr &&& 1) <<< 14 := by
    rewrite [ENCODE_bit, bit_zero_eq]
    rfl
  have e2 : ENCODE list 13 0 = list &&& 0x1FFF := ENCODE_zero_off list 13
  have e3 : ENCODE pc 1 15 = (pc &&& 1) <<< 15 := rfl
  have e4 : ENCODE lr 1 14 = (lr &&& 1) <<< 14 := rfl
  refine ⟨?_, ?_, fun h => ⟨?_, ?_⟩⟩
  · unfold arm_emit_thumb_push_list
    rewrite [arm_emit_thumb_w_insn_join, Nat.mod_eq_of_lt (Nat.or_lt_two_pow (Nat.or_lt_two_pow
      hk.1 (ENCODE_lt_32 _ 1 14 (by omega))) (ENCODE_lt_32 _ 13 0 (by omega))), e1, e2]
    rfl
  · unfold arm_emit_thumb_popw_list
    rewrite [arm_emit_thumb_w_insn_join, Nat.mod_eq_of_lt (Nat.or_lt_two_pow (Nat.or_lt_two_pow
      (Nat.or_lt_two_pow hk.2 (ENCODE_lt_32 _ 1 15 (by omega)))
      (ENCODE_lt_32 _ 1 14 (by omega))) (ENCODE_lt_32 _ 13 0 (by omega))), e3, e4, e2]
    rfl
  · unfold arm_emit_thumb_push_list
    rewrite [ENCODE_congr list list2 13 0 h]
    rfl
  · unfold arm_emit_thumb_popw_list
    rewrite [ENCODE_congr list list2 13 0 h]
    rfl

/-- Witness for C27: the lists `0x00F0` and `0xE0F0`, which differ in bits 13,
14 and 15 only. -/
theorem thumb_push_pop_list_word_witness :
    arm_emit_thumb_push_list sampleOpcodes (fun _ => 0) 0 0xE0F0 1
      = arm_emit_thumb_push_list sampleOpcodes (fun _ => 0) 0 0x00F0 1 :=
  ((thumb_push_pop_list_word sampleOpcodes (fun _ => 0) 0 0x00F0 0xE0F0 1 0 (by decide)).2.2
    (by decide)).1

/-- C28: for a destination `rd < 16` and a source register `rm < 16`,
`arm_emit_thumb_mov` returns 1 and writes
`THUMB_MOV | (bit 3 of rd) << 7 | rm << 3 | (rd & 7)`; so, the skeleton being
clear in bits [7:0], the destination is read back as `bit7:bits[2:0]` and the
source as `bits[6:3]`, and distinct `(rd, rm)` pairs give distinct
half-words. -/
theorem thumb_mov_word (k : Opcodes) (m : CodeBuf) (buf rd rm rd2 rm2 : Nat)
    (hk : k.THUMB_MOV < 2 ^ 16)
    (hclear : bit k.THUMB_MOV 7 = 0 ∧ bits k.THUMB_MOV 3 6 = 0 ∧ bits k.THUMB_MOV 0 2 = 0)
    (hrd : rd < 16) (hrm : rm < 16) (hrd2 : rd2 < 16) (hrm2 : rm2 < 16) :
    arm_emit_thumb_mov k m buf rd (.Register rm)
      = (1, store m buf (k.THUMB_MOV ||| (bit rd 3) <<< 7 ||| rm <<< 3 ||| (rd &&& 7))) ∧
    bit ((arm_emit_thumb_mov k m buf rd (.Register rm)).2 buf) 7 * 8
      + bits ((arm_emit_thumb_mov k m buf rd (.Register rm)).2 buf) 0 2 = rd ∧
    bits ((arm_emit_thumb_mov k m buf rd (.Register rm)).2 buf) 3 6 = rm ∧
    (arm_emit_thumb_mov k m buf rd2 (.Register rm2)
        = arm_emit_thumb_mov k m buf rd (.Register rm) → rd2 = rd ∧ rm2 = rm) := by
  obtain ⟨g1, g2⟩ := thumb_mov_halfword k m buf rd rm hclear hrd hrm
  obtain ⟨g3, g4⟩ := thumb_mov_halfword k m buf rd2 rm2 hclear hrd2 hrm2
  refine ⟨?_, g1, g2, fun h => ?_⟩
  · unfold arm_emit_thumb_mov arm_emit_thumb_insn
    dsimp only
    rewrite [Nat.mod_eq_of_lt (Nat.or_lt_two_pow (Nat.or_lt_two_pow (Nat.or_lt_two_pow hk
      (ENCODE_lt_16 _ 1 7 (by omega))) (ENCODE_lt_16 _ 3 0 (by omega)))
      (ENCODE_lt_16 _ 4 3 (by omega))), ENCODE_bit, ENCODE_bits_zero_two,
      ENCODE_of_lt rm 4 3 hrm]
    refine congrArg (fun w => (1, store m buf w)) ?_
    generalize k.THUMB_MOV = a
    generalize bit rd 3 <<< 7 = b
    generalize rd &&& 7 = c
    generalize rm <<< 3 = e
    ac_rfl
  · rewrite [h] at g3 g4
    exact ⟨g3.symm.trans g1, g4.symm.trans g2⟩

/-- Witness for C28: `mov r9, r3` with the sample skeleton table, against
`mov r1, r3`. -/
theorem thumb_mov_word_witness :
    arm_emit_thumb_mov sampleOpcodes (fun _ => 0) 0 9 (.Register 3)
      = (1, store (fun _ => 0) 0
          (sampleOpcodes.THUMB_MOV ||| (bit 9 3) <<< 7 ||| 3 <<< 3 ||| (9 &&& 7))) ∧
    bits ((arm_emit_thumb_mov sampleOpcodes (fun _ => 0) 0 9 (.Register 3)).2 0) 3 6 = 3 :=
  ⟨(thumb_mov_word sampleOpcodes (fun _ => 0) 0 9 3 1 3 (by decide) (by decide) (by decide)
      (by decide) (by decide) (by decide)).1,
    (thumb_mov_word sampleOpcodes (fun _ => 0) 0 9 3 1 3 (by decide) (by decide) (by decide)
      (by decide) (by decide) (by decide)).2.2.1⟩

/-- C29: for every immediate `imm`, the instruction word `i` written by
`arm_emit_thumb_cmpw`, and the one written by `arm_emit_thumb_bic`, has
bit 26 equal to `imm[11]`, bits [14:12] equal to `imm[10:8]` and bits [7:0]
equal to `imm[7:0]`, so that `i[26] << 11 | i[14:12] << 8 | i[7:0]` is
`imm & 0xFFF`; `rn` is at [19:16] and, for `BIC`, `rd` at [11:8] (the
skeletons being clear in these fields). -/
theorem thumb_cmpw_bic_split_immediate (k : Opcodes) (m : CodeBuf) (buf rn rd imm : Nat)
    (hc : bit k.THUMB_CMPW 26 = 0 ∧ bits k.THUMB_CMPW 16 19 = 0 ∧ bits k.THUMB_CMPW 12 14 = 0 ∧
      bits k.THUMB_CMPW 0 7 = 0)
    (hb : bit k.THUMB_BIC 26 = 0 ∧ bits k.THUMB_BIC 16 19 = 0 ∧ bits k.THUMB_BIC 12 14 = 0 ∧
      bits k.THUMB_BIC 8 11 = 0 ∧ bits k.THUMB_BIC 0 7 = 0) :
    (∀ i, i = ((arm_emit_thumb_cmpw k m buf rn (.Immediate imm)).2 buf) <<< 16
          ||| (arm_emit_thumb_cmpw k m buf rn (.Immediate imm)).2 (buf + 1) →
      bit i 26 = bit imm 11 ∧ bits i 12 14 = bits imm 8 10 ∧ bits i 0 7 = bits imm 0 7 ∧
      (bit i 26) <<< 11 ||| (bits i 12 14) <<< 8 ||| bits i 0 7 = imm &&& 0xFFF ∧
      bits i 16 19 = rn % 16) ∧
    (∀ i, i = ((arm_emit_thumb_bic k m buf rd rn (.Immediate imm)).2 buf) <<< 16
          ||| (arm_emit_thumb_bic k m buf rd rn (.Immediate imm)).2 (buf + 1) →
      bit i 26 = bit imm 11 ∧ bits i 12 14 = bits imm 8 10 ∧ bits i 0 7 = bits imm 0 7 ∧
      (bit i 26) <<< 11 ||| (bits i 12 14) <<< 8 ||| bits i 0 7 = imm &&& 0xFFF ∧
      bits i 16 19 = rn % 16 ∧ bits i 8 11 = rd % 16) := by
  have h1 : bit imm 11 % 2 = bit imm 11 := Nat.mod_eq_of_lt (bit_lt_two imm 11)
  have h3 : bits imm 8 10 % 2 ^ 3 = bits imm 8 10 := Nat.mod_eq_of_lt (bits_lt imm 8 10)
  have h8 : bits imm 0 7 % 2 ^ 8 = bits imm 0 7 := Nat.mod_eq_of_lt (bits_lt imm 0 7)
  have hj := split_imm12_join imm
  rewrite [h1, h3, h8] at hj
  constructor
  · intro i hi
    obtain ⟨f26, f16, f12, f0⟩ := thumb_cmpw_fields k.THUMB_CMPW rn (bit imm 11)
      (bits imm 8 10) (bits imm 0 7)
    rewrite [hc.1, Nat.zero_or, h1] at f26
    rewrite [hc.2.1, Nat.zero_or] at f16
    rewrite [hc.2.2.1, Nat.zero_or, h3] at f12
    rewrite [hc.2.2.2, Nat.zero_or, h8] at f0
    unfold arm_emit_thumb_cmpw at hi
    dsimp only at hi
    rewrite [arm_emit_thumb_w_insn_join] at hi
    generalize k.THUMB_CMPW ||| _ ||| _ ||| _ ||| _ = w at hi f26 f16 f12 f0
    subst hi
    rewrite [bit_mod w 32 26 (by omega), bits_mod w 32 12 14 (by omega) (by omega),
      bits_mod w 32 0 7 (by omega) (by omega), bits_mod w 32 16 19 (by omega) (by omega),
      f26, f16, f12, f0]
    exact ⟨rfl, rfl, rfl, hj, rfl⟩
  · intro i hi
    obtain ⟨f26, f16, f12, f8, f0⟩ := thumb_bic_fields k.THUMB_BIC rn rd (bit imm 11)
      (bits imm 8 10) (bits imm 0 7)
    rewrite [hb.1, Nat.zero_or, h1] at f26
    rewrite [hb.2.1, Nat.zero_or] at f16
    rewrite [hb.2.2.1, Nat.zero_or, h3] at f12
    rewrite [hb.2.2.2.1, Nat.zero_or] at f8
    rewrite [hb.2.2.2.2, Nat.zero_or, h8] at f0
    unfold arm_emit_thumb_bic at hi
    dsimp only at hi
    rewrite [arm_emit_thumb_w_insn_join] at hi
    generalize k.THUMB_BIC ||| _ ||| _ ||| _ ||| _ ||| _ = w at hi f26 f16 f12 f8 f0
    subst hi
    rewrite [bit_mod w 32 26 (by omega), bits_mod w 32 12 14 (by omega) (by omega),
      bits_mod w 32 0 7 (by omega) (by omega), bits_mod w 32 16 19 (by omega) (by omega),
      bits_mod w 32 8 11 (by omega) (by omega), f26, f16, f12, f8, f0]
    exact ⟨rfl, rfl, rfl, hj, rfl, rfl⟩

/-- Witness for C29: `bic r2, r1, #0xABC` with the sample skeleton table; the
instruction word is `0xF42122BC`. -/
theorem thumb_cmpw_bic_split_immediate_witness :
    (bit 0xF42122BC 26) <<< 11 ||| (bits 0xF42122BC 12 14) <<< 8 ||| bits 0xF42122BC 0 7
      = 0xABC &&& 0xFFF :=
  ((thumb_cmpw_bic_split_immediate sampleOpcodes (fun _ => 0) 0 1 2 0xABC (by decide)
    (by decide)).2 0xF42122BC (by decide)).2.2.2.1

/-- C30: `arm_emit_arm_msr` writes `ARM_MSR | cond << 28 | 3 << 18 | (rn & 0xF)`
and `arm_emit_thumb_msr` writes the instruction word
`THUMB_MSR | (rn & 0xF) << 16 | 3 << 10`; in both the two mask bits are set
whatever the arguments (and the skeleton) are. -/
theorem msr_fixed_mask (k : Opcodes) (m : CodeBuf) (buf cond rn : Nat)
    (hk : k.ARM_MSR < 2 ^ 32 ∧ k.THUMB_MSR < 2 ^ 32) (hcond : cond < 16) :
    arm_emit_arm_msr k m buf cond rn
      = (1, store m buf (k.ARM_MSR ||| cond <<< 28 ||| 3 <<< 18 ||| (rn &&& 0xF))) ∧
    ((arm_emit_thumb_msr k m buf rn).1 = 2 ∧
      ((arm_emit_thumb_msr k m buf rn).2 buf) <<< 16 ||| (arm_emit_thumb_msr k m buf rn).2 (buf + 1)
        = k.THUMB_MSR ||| (rn &&& 0xF) <<< 16 ||| 3 <<< 10) ∧
    bits ((arm_emit_arm_msr k m buf cond rn).2 buf) 18 19 = 3 ∧
    bits (((arm_emit_thumb_msr k m buf rn).2 buf) <<< 16
      ||| (arm_emit_thumb_msr k m buf rn).2 (buf + 1)) 10 11 = 3 := by
  have e1 : ENCODE 3 2 18 = 3 <<< 18 := by decide
  have e2 : ENCODE rn 4 0 = rn &&& 0xF := ENCODE_zero_off rn 4
  have e3 : ENCODE rn 4 16 = (rn &&& 0xF) <<< 16 := rfl
  have e4 : ENCODE 3 2 10 = 3 <<< 10 := by decide
  refine ⟨?_, ⟨rfl, ?_⟩, ?_, ?_⟩
  · unfold arm_emit_arm_msr arm_emit_arm_insn
    rewrite [Nat.mod_eq_of_lt (Nat.or_lt_two_pow (Nat.or_lt_two_pow (Nat.or_lt_two_pow hk.1
      (ENCODE_lt_32 cond 4 28 (by omega))) (ENCODE_lt_32 3 2 18 (by omega)))
      (ENCODE_lt_32 rn 4 0 (by omega))), ENCODE_of_lt cond 4 28 hcond, e1, e2]
    rfl
  · unfold arm_emit_thumb_msr
    rewrite [arm_emit_thumb_w_insn_join, Nat.mod_eq_of_lt (Nat.or_lt_two_pow (Nat.or_lt_two_pow
      hk.2 (ENCODE_lt_32 rn 4 16 (by omega))) (ENCODE_lt_32 3 2 10 (by omega))), e3, e4]
    rfl
  · show bits (store m buf _ buf) 18 19 = 3
    rewrite [store_same, bits_mod _ 32 18 19 (by omega) (by omega)]
    exact (msr_mask_fields k.ARM_MSR cond rn).1
  · unfold arm_emit_thumb_msr
    rewrite [arm_emit_thumb_w_insn_join, bits_mod _ 32 10 11 (by omega) (by omega)]
    exact (msr_mask_fields k.THUMB_MSR cond rn).2

/-- Witness for C30: `msr apsr_nzcvq, r5` (AL) with the sample skeleton
table. -/
theorem msr_fixed_mask_witness :
    arm_emit_arm_msr sampleOpcodes (fun _ => 0) 0 AL 5
      = (1, store (fun _ => 0) 0
          (sampleOpcodes.ARM_MSR ||| AL <<< 28 ||| 3 <<< 18 ||| (5 &&& 0xF))) ∧
    bits ((arm_emit_arm_msr sampleOpcodes (fun _ => 0) 0 AL 5).2 0) 18 19 = 3 :=
  ⟨(msr_fixed_mask sampleOpcodes (fun _ => 0) 0 AL 5 (by decide) (by decide)).1,
    (msr_fixed_mask sampleOpcodes (fun _ => 0) 0 AL 5 (by decide) (by decide)).2.2.1⟩

/-- C31: for every immediate `imm` and flags `l`, `x` (taken as `uint8_t`),
`arm_emit_thumb_branch` returns 2 and, in the instruction word `i` it emits,
bit 12 is 1 exactly when `x = 0`; when `x != 0` bit 0 is 0 and bits [10:1]
are `imm[11:2]`; when `x = 0` bits [10:0] are `imm[11:1]`; bit 14 is
`l & 1` (the skeleton `THUMB_BW` being clear in bits 14, 12 and [10:0]). -/
theorem thumb_branch_exchange_flag (k : Opcodes) (m : CodeBuf) (buf imm l x : Nat)
    (hk : bit k.THUMB_BW 14 = 0 ∧ bit k.THUMB_BW 12 = 0 ∧ bits k.THUMB_BW 0 10 = 0) :
    (arm_emit_thumb_branch k m buf (.Immediate imm) l x).1 = 2 ∧
    ∀ i, i = ((arm_emit_thumb_branch k m buf (.Immediate imm) l x).2 buf) <<< 16
          ||| (arm_emit_thumb_branch k m buf (.Immediate imm) l x).2 (buf + 1) →
      (bit i 12 = 1 ↔ x % 2 ^ 8 = 0) ∧
      (x % 2 ^ 8 ≠ 0 → bit i 0 = 0 ∧ bits i 1 10 = bits imm 2 11) ∧
      (x % 2 ^ 8 = 0 → bits i 0 10 = bits imm 1 11) ∧
      bit i 14 = l &&& 1 := by
  refine ⟨rfl, ?_⟩
  intro i hi
  obtain ⟨f14, f12, f0⟩ := thumb_branch_flag_fields k.THUMB_BW (bit imm 24) (bits imm 12 21)
    (l % 2 ^ 8) (bit imm 24 ^^^ lnot (bit imm 23)) (if x % 2 ^ 8 = 0 then 1 else 0)
    (bit imm 24 ^^^ lnot (bit imm 22))
    (if x % 2 ^ 8 = 0 then bits imm 1 11 else (bits imm 2 11) <<< 1)
  rewrite [hk.1, Nat.zero_or] at f14
  rewrite [hk.2.1, Nat.zero_or] at f12
  rewrite [hk.2.2, Nat.zero_or] at f0
  rewrite [arm_emit_thumb_branch_imm_eq, arm_emit_thumb_w_insn_join] at hi
  generalize k.THUMB_BW ||| _ ||| _ ||| _ ||| _ ||| _ ||| _ ||| _ = w at hi f14 f12 f0
  subst hi
  rewrite [bit_mod w 32 12 (by omega), bit_mod w 32 0 (by omega), bit_mod w 32 14 (by omega),
    bits_mod w 32 1 10 (by omega) (by omega), bits_mod w 32 0 10 (by omega) (by omega),
    f14, f12]
  refine ⟨?_, ?_, ?_, ?_⟩
  · split_ifs with hx
    · exact ⟨fun _ => hx, fun _ => rfl⟩
    · exact ⟨fun h => absurd h (by decide), fun h => absurd h hx⟩
  · intro hx
    rewrite [if_neg hx] at f0
    exact low_field_split w _ (bits_lt imm 2 11) f0
  · intro hx
    rewrite [if_pos hx] at f0
    rewrite [f0]
    exact Nat.mod_eq_of_lt (bits_lt imm 1 11)
  · rewrite [Nat.and_one_is_mod]
    omega

/-- Witness for C31: `blx` (`l = 1`, `x = 1`) and `bl` (`l = 1`, `x = 0`) with
the offset `0x1236` and the sample skeleton table; the instruction words are
`0xF001E91A` and `0xF001F91B`. -/
theorem thumb_branch_exchange_flag_witness :
    (bit 0xF001E91A 0 = 0 ∧ bits 0xF001E91A 1 10 = bits 0x1236 2 11) ∧
    (bit 0xF001F91B 12 = 1 ∧ bits 0xF001F91B 0 10 = bits 0x1236 1 11) :=
  ⟨((thumb_branch_exchange_flag sampleOpcodes (fun _ => 0) 0 0x1236 1 1
      ⟨by decide, by decide, by decide⟩).2 0xF001E91A (by decide)).2.1 (by decide),
    ⟨((thumb_branch_exchange_flag sampleOpcodes (fun _ => 0) 0 0x1236 1 0
        ⟨by decide, by decide, by decide⟩).2 0xF001F91B (by decide)).1.2 (by decide),
      ((thumb_branch_exchange_flag sampleOpcodes (fun _ => 0) 0 0x1236 1 0
        ⟨by decide, by decide, by decide⟩).2 0xF001F91B (by decide)).2.2.1 (by decide)⟩⟩

/-- C32: for every `cond` and `rel`, `arm_emit_thumb_bw_cond` returns 2 and
emits the instruction word
`THUMB_BW | S << 26 | (cond & 0xF) << 22 | rel[17:12] << 16 | J1 << 13 | J2 << 11 | rel[11:1]`
with `S = rel[24]`, `J1 = S XOR NOT rel[23]`, `J2 = S XOR NOT rel[22]`; bit 14
of the word is that of the skeleton (no link bit is contributed), and bits
26, 13 and 11 are those of the word `arm_emit_thumb_branch` emits for the same
offset, whatever its flags `l` and `x`. -/
theorem thumb_bw_cond_layout (k : Opcodes) (m : CodeBuf) (buf cond rel l x : Nat)
    (hk : k.THUMB_BW < 2 ^ 32) :
    (arm_emit_thumb_bw_cond k m buf cond rel).1 = 2 ∧
    ∀ i, i = ((arm_emit_thumb_bw_cond k m buf cond rel).2 buf) <<< 16
          ||| (arm_emit_thumb_bw_cond k m buf cond rel).2 (buf + 1) →
      i = k.THUMB_BW ||| (bit rel 24) <<< 26 ||| (cond &&& 0xF) <<< 22
            ||| (bits rel 12 17) <<< 16
            ||| (bit rel 24 ^^^ lnot (bit rel 23)) <<< 13
            ||| (bit rel 24 ^^^ lnot (bit rel 22)) <<< 11 ||| bits rel 1 11 ∧
      bit i 14 = bit k.THUMB_BW 14 ∧
      ∀ j, j = ((arm_emit_thumb_branch k m buf (immediate_operand rel) l x).2 buf) <<< 16
            ||| (arm_emit_thumb_branch k m buf (immediate_operand rel) l x).2 (buf + 1) →
        bit i 26 = bit j 26 ∧ bit i 13 = bit j 13 ∧ bit i 11 = bit j 11 := by
  refine ⟨rfl, ?_⟩
  intro i hi
  unfold arm_emit_thumb_bw_cond at hi
  dsimp only at hi
  rewrite [arm_emit_thumb_w_insn_join] at hi
  refine ⟨?_, ?_, ?_⟩
  · rewrite [hi]
    exact thumb_bw_cond_word k.THUMB_BW cond rel hk
  · rewrite [hi, bit_mod _ 32 14 (by omega)]
    exact (thumb_bw_cond_s_fields k.THUMB_BW _ _ _ _ _ _).2
  · intro j hj
    rewrite [show immediate_operand rel = .Immediate (rel % 2 ^ 32) from rfl,
      arm_emit_thumb_branch_imm_eq, arm_emit_thumb_w_insn_join] at hj
    obtain ⟨b26, b13, b11⟩ := thumb_branch_sj_fields k.THUMB_BW (bit (rel % 2 ^ 32) 24)
      (bits (rel % 2 ^ 32) 12 21) (l % 2 ^ 8)
      (bit (rel % 2 ^ 32) 24 ^^^ lnot (bit (rel % 2 ^ 32) 23))
      (if x % 2 ^ 8 = 0 then 1 else 0)
      (bit (rel % 2 ^ 32) 24 ^^^ lnot (bit (rel % 2 ^ 32) 22))
      (if x % 2 ^ 8 = 0 then bits (rel % 2 ^ 32) 1 11 else (bits (rel % 2 ^ 32) 2 11) <<< 1)
    obtain ⟨c26, -⟩ := thumb_bw_cond_s_fields k.THUMB_BW (bit (rel % 2 ^ 32) 24)
      (bits (rel % 2 ^ 32) 12 17) cond
      (bit (rel % 2 ^ 32) 24 ^^^ lnot (bit (rel % 2 ^ 32) 23))
      (bit (rel % 2 ^ 32) 24 ^^^ lnot (bit (rel % 2 ^ 32) 22)) (bits (rel % 2 ^ 32) 1 11)
    obtain ⟨c13, c11⟩ := thumb_bw_cond_j_fields k.THUMB_BW (bit (rel % 2 ^ 32) 24)
      (bits (rel % 2 ^ 32) 12 17) cond
      (bit (rel % 2 ^ 32) 24 ^^^ lnot (bit (rel % 2 ^ 32) 23))
      (bit (rel % 2 ^ 32) 24 ^^^ lnot (bit (rel % 2 ^ 32) 22)) (bits (rel % 2 ^ 32) 1 11)
    generalize k.THUMB_BW ||| _ ||| _ ||| _ ||| _ ||| _ ||| _ ||| _ = wj at hj b26 b13 b11
    generalize k.THUMB_BW ||| _ ||| _ ||| _ ||| _ ||| _ ||| _ = wi at hi c26 c13 c11
    subst hi
    subst hj
    rewrite [bit_mod wi 32 26 (by omega), bit_mod wi 32 13 (by omega),
      bit_mod wi 32 11 (by omega), bit_mod wj 32 26 (by omega), bit_mod wj 32 13 (by omega),
      bit_mod wj 32 11 (by omega), b26, b13, b11, c26, c13, c11]
    exact ⟨rfl, rfl, rfl⟩

/-- Witness for C32: `bne.w` with the offset -4096 (`0xFFFFF000`) and the
sample skeleton table; the instruction word is `0xF47FA800`. -/
theorem thumb_bw_cond_layout_witness :
    (0xF47FA800 : Nat) = sampleOpcodes.THUMB_BW ||| (bit 0xFFFFF000 24) <<< 26
        ||| (1 &&& 0xF) <<< 22 ||| (bits 0xFFFFF000 12 17) <<< 16
        ||| (bit 0xFFFFF000 24 ^^^ lnot (bit 0xFFFFF000 23)) <<< 13
        ||| (bit 0xFFFFF000 24 ^^^ lnot (bit 0xFFFFF000 22)) <<< 11 ||| bits 0xFFFFF000 1 11 :=
  ((thumb_bw_cond_layout sampleOpcodes (fun _ => 0) 0 1 0xFFFFF000 0 0 (by decide)).2 0xF47FA800
    (by decide)).1

/-- C33: for every `cond` and `rel`, `arm_emit_thumb_b` returns 1, so it
never fails, and writes `THUMB_B | (cond & 0xF) << 8 | ((rel >> 1) & 0xFF)`;
with the skeleton clear in bits [11:0], bits [11:8] of the half-word are
`cond mod 16` and, for every even `rel` whose signed value lies in
`[-256, 254]`, `2 * SignExtend8 (half-word[7:0]) = rel`. -/
theorem thumb_b_short_branch (k : Opcodes) (m : CodeBuf) (buf cond rel : Nat) :
    (arm_emit_thumb_b k m buf cond rel).1 = 1 ∧
    (k.THUMB_B < 2 ^ 16 →
      arm_emit_thumb_b k m buf cond rel
        = (1, store m buf (k.THUMB_B ||| (cond &&& 0xF) <<< 8 ||| ((rel >>> 1) &&& 0xFF)))) ∧
    (bits k.THUMB_B 0 11 = 0 →
      bits ((arm_emit_thumb_b k m buf cond rel).2 buf) 8 11 = cond % 16 ∧
      (rel % 2 = 0 → -256 ≤ int32_of_uint32 rel → int32_of_uint32 rel ≤ 254 →
        2 * SignExtend 8 (bits ((arm_emit_thumb_b k m buf cond rel).2 buf) 0 7)
          = int32_of_uint32 rel)) := by
  refine ⟨rfl, ?_, ?_⟩
  · intro hk
    unfold arm_emit_thumb_b arm_emit_thumb_insn
    rewrite [Nat.mod_eq_of_lt (Nat.or_lt_two_pow (Nat.or_lt_two_pow hk
      (ENCODE_lt_16 cond 4 8 (by omega))) (ENCODE_lt_16 _ 8 0 (by omega))),
      thumb_b_offset_field]
    rfl
  · intro hs
    obtain ⟨s0, s8⟩ := bits_low_of_zero k.THUMB_B hs
    obtain ⟨f8, f0⟩ := thumb_b_fields k.THUMB_B cond ((rel % 2 ^ 32) >>> 1)
    rewrite [s8, Nat.zero_or] at f8
    rewrite [s0, Nat.zero_or] at f0
    constructor
    · show bits (store m buf _ buf) 8 11 = _
      rewrite [store_same, bits_mod _ 16 8 11 (by omega) (by omega)]
      exact f8
    · intro hev h1 h2
      show 2 * SignExtend 8 (bits (store m buf _ buf) 0 7) = _
      rewrite [store_same, bits_mod _ 16 0 7 (by omega) (by omega), f0]
      exact thumb_b_arith rel hev ⟨h1, h2⟩

/-- Witness for C33: `bne` with the offset -256 (`0xFFFFFF00`) and the sample
skeleton table; the half-word is `0xD180`. -/
theorem thumb_b_short_branch_witness :
    arm_emit_thumb_b sampleOpcodes (fun _ => 0) 0 1 0xFFFFFF00
      = (1, store (fun _ => 0) 0 0xD180) ∧
    2 * SignExtend 8 (bits ((arm_emit_thumb_b sampleOpcodes (fun _ => 0) 0 1 0xFFFFFF00).2 0) 0 7)
      = int32_of_uint32 0xFFFFFF00 :=
  ⟨(thumb_b_short_branch sampleOpcodes (fun _ => 0) 0 1 0xFFFFFF00).2.1 (by decide),
    ((thumb_b_short_branch sampleOpcodes (fun _ => 0) 0 1 0xFFFFFF00).2.2 (by decide)).2
      (by decide) (by decide) (by decide)⟩

/-- C34: reachability is translation invariant: for all addresses `from`,
`to` and every displacement `d`,
`arm_arm_is_reachable ((from + d) mod 2^32, (to + d) mod 2^32)` equals
`arm_arm_is_reachable (from, to)`, and for every even `d` the same holds of
`arm_thumb_is_reachable`. -/
theorem reachable_translation_invariant (frm tgt d : Nat) :
    arm_arm_is_reachable ((frm + d) % 2 ^ 32) ((tgt + d) % 2 ^ 32)
      = arm_arm_is_reachable frm tgt ∧
    (d % 2 = 0 →
      arm_thumb_is_reachable ((frm + d) % 2 ^ 32) ((tgt + d) % 2 ^ 32)
        = arm_thumb_is_reachable frm tgt) := by
  constructor
  · unfold arm_arm_is_reachable
    rewrite [arm_rel_translate]
    rfl
  · intro hd
    unfold arm_thumb_is_reachable
    rewrite [thumb_rel_translate frm tgt d hd]
    rfl

/-- Witness for C34: the pair `(0x8000, 0x01008004)`, just out of Thumb range,
moved by the even displacement `0xFFFF0000`, which wraps both addresses. -/
theorem reachable_translation_invariant_witness :
    arm_thumb_is_reachable ((0x8000 + 0xFFFF0000) % 2 ^ 32) ((0x01008004 + 0xFFFF0000) % 2 ^ 32)
      = arm_thumb_is_reachable 0x8000 0x01008004 :=
  (reachable_translation_invariant 0x8000 0x01008004 0xFFFF0000).2 (by decide)

/-- C35: ARM register `BLX` keeps the caller's condition: for every `cond`
and `reg`, `arm_emit_arm_blx (buf, cond, Register reg)` returns 1 and writes
`ARM_BLX | (cond & 0xF) << 28 | (reg & 0xF)`; bits [31:28] of the word are
`cond mod 16` (the skeleton being clear there), so two calls whose `cond`
values differ modulo 16 write different words, whereas with an immediate
operand the word does not depend on `cond`. -/
theorem arm_blx_register_keeps_cond (k : Opcodes) (m : CodeBuf)
    (buf cond cond2 reg reg2 imm : Nat)
    (hk : k.ARM_BLX < 2 ^ 32) (hs : bits k.ARM_BLX 28 31 = 0) :
    arm_emit_arm_blx k m buf cond (.Register reg)
      = (1, store m buf (k.ARM_BLX ||| (cond &&& 0xF) <<< 28 ||| (reg &&& 0xF))) ∧
    bits ((arm_emit_arm_blx k m buf cond (.Register reg)).2 buf) 28 31 = cond % 16 ∧
    (cond % 16 ≠ cond2 % 16 →
      (arm_emit_arm_blx k m buf cond (.Register reg)).2 buf
        ≠ (arm_emit_arm_blx k m buf cond2 (.Register reg2)).2 buf) ∧
    arm_emit_arm_blx k m buf cond (.Immediate imm)
      = arm_emit_arm_blx k m buf cond2 (.Immediate imm) := by
  have hf : ∀ c r, bits ((arm_emit_arm_blx k m buf c (.Register r)).2 buf) 28 31 = c % 16 := by
    intro c r
    rewrite [arm_emit_arm_blx_reg_eq]
    show bits (store m buf _ buf) 28 31 = _
    rewrite [store_same, bits_mod _ 32 28 31 (by omega) (by omega), arm_blx_reg_cond_field, hs,
      Nat.zero_or]
    rfl
  refine ⟨?_, hf cond reg, ?_, ?_⟩
  · rewrite [arm_emit_arm_blx_reg_eq, Nat.mod_eq_of_lt (Nat.or_lt_two_pow (Nat.or_lt_two_pow hk
      (ENCODE_lt_32 cond 4 28 (by omega))) (ENCODE_lt_32 reg 4 0 (by omega))),
      ENCODE_zero_off reg 4]
    rfl
  · intro hne heq
    have h1 := hf cond reg
    have h2 := hf cond2 reg2
    rewrite [heq, h2] at h1
    exact hne h1.symm
  · rewrite [arm_emit_arm_blx_imm_eq, arm_emit_arm_blx_imm_eq]
    rfl

/-- Witness for C35: `blxne r3` against `blx r3` (AL) with the sample
skeleton table. -/
theorem arm_blx_register_keeps_cond_witness :
    arm_emit_arm_blx sampleOpcodes (fun _ => 0) 0 1 (.Register 3)
      = (1, store (fun _ => 0) 0 (sampleOpcodes.ARM_BLX ||| (1 &&& 0xF) <<< 28 ||| (3 &&& 0xF))) ∧
    (arm_emit_arm_blx sampleOpcodes (fun _ => 0) 0 1 (.Register 3)).2 0
      ≠ (arm_emit_arm_blx sampleOpcodes (fun _ => 0) 0 AL (.Register 3)).2 0 :=
  ⟨(arm_blx_register_keeps_cond sampleOpcodes (fun _ => 0) 0 1 AL 3 3 0 (by decide)
      (by decide)).1,
    (arm_blx_register_keeps_cond sampleOpcodes (fun _ => 0) 0 1 AL 3 3 0 (by decide)
      (by decide)).2.2.1 (by decide)⟩

end ArmInsnEmit
